import Mathlib

/-!
# Orchestration manager of the Kyma Environment Broker

A shallow embedding of
`components/kyma-environment-broker/internal/orchestration/manager/manager.go`.

* Go structs become Lean structures that carry the fields the manager reads or writes.
* A `*internal.Orchestration` that is mutated in place becomes a value that every function
  hands back to its caller.
* The collaborators the manager holds as interface values (storages, resolver, operation
  factory, execution strategy, notification bundle builder, Kubernetes client, clock) are a
  record of answer functions.  Each answer may depend on the whole history of calls made so
  far (`Trace`), so a collaborator can change its answer from one poll tick to the next.
* Every call to a collaborator is appended to the `Trace`, in program order.
* The location `time.Local`, which `time.Parse` reads, is a field of the same record.
* `wait.PollImmediateInfinite` becomes a loop over an explicit number of ticks.
-/

namespace KEB

/-! ## Data model -/

/-- Go `*time.Location`: the offset from UTC, in seconds east, in effect before the first
transition, and the transitions in ascending order of their instants, each with its instant
(in seconds since 0001-01-01T00:00:00Z) and the offset in effect from that instant on.  The
names of the zones are left out, and so is the rule that extends the table past its last
transition: the last offset stays in effect. -/
structure Location where
  offset : Int
  tx : List (Int × Int)
deriving DecidableEq, Repr

/-- The location of `time.UTC`. -/
def utcLoc : Location := ⟨0, []⟩

/-- Go `time.FixedZone`: the location that has the given offset at every instant. -/
def FixedZone (offset : Int) : Location := ⟨offset, []⟩

/-- Go `time.Time` as seconds since 0001-01-01T00:00:00Z, nanoseconds within the second, and
the location. -/
structure Time where
  sec : Int
  nsec : Nat
  loc : Location
deriving DecidableEq, Repr

/-- The zero value `time.Time{}`. -/
def Time.zero : Time := ⟨0, 0, utcLoc⟩

/-- Go `time.Duration`: a number of nanoseconds. -/
abbrev Duration := Int

def Second : Duration := 1000000000
def Minute : Duration := 60 * Second

/-- Go `error` values.  `external` is an error produced by a collaborator (`kind` stands for
its dynamic type), `errorf` is `fmt.Errorf` without a wrapped cause and `wrap pre cause`
is `fmt.Errorf(pre + ": %w", cause)`. -/
inductive GoError where
  | external (kind : String) (msg : String)
  | errorf (msg : String)
  | wrap (pre : String) (cause : GoError)
deriving DecidableEq, Repr

/-- The method `Error()` of an error value. -/
def GoError.Error : GoError → String
  | .external _ msg => msg
  | .errorf msg => msg
  | .wrap pre cause => pre ++ ": " ++ cause.Error

/-! The states of orchestrations and operations, the notification states, the strategy type
and the orchestration types are string constants of the package `common/orchestration`,
which the manager imports.  The proofs use only that the constants are pairwise distinct. -/

/-- Modelled from the spec: the state Pending of an orchestration or operation. -/
def Pending : String := "pending"
/-- Modelled from the spec: the state InProgress. -/
def InProgress : String := "in progress"
/-- Modelled from the spec: the state Retrying. -/
def Retrying : String := "retrying"
/-- Modelled from the spec: the state Succeeded. -/
def Succeeded : String := "succeeded"
/-- Modelled from the spec: the state Failed. -/
def Failed : String := "failed"
/-- Modelled from the spec: the state Canceling. -/
def Canceling : String := "canceling"
/-- Modelled from the spec: the state Canceled. -/
def Canceled : String := "canceled"

/-- Modelled from the spec: the notification state Pending. -/
def NotificationPending : String := "pending"
/-- Modelled from the spec: the notification state Created. -/
def NotificationCreated : String := "created"
/-- Modelled from the spec: the notification state Cancelled. -/
def NotificationCancelled : String := "cancelled"
/-- Modelled from the spec: the type of the fully parallel strategy. -/
def ParallelStrategy : String := "parallel"
/-- Modelled from the spec: the type of a Kyma upgrade orchestration. -/
def UpgradeKymaOrchestration : String := "upgradeKyma"
/-- Modelled from the spec: the type of a cluster upgrade orchestration. -/
def UpgradeClusterOrchestration : String := "upgradeCluster"

/-- Modelled from the spec: the target specification handed to the resolver
(`orchestration.TargetSpec`); the manager never looks inside. -/
structure TargetSpec where
  Include : List String
  Exclude : List String
deriving DecidableEq, Repr

/-- Modelled from the spec: a resolved runtime (`orchestration.Runtime`), a runtime
descriptor with its window fields. -/
structure Runtime where
  InstanceID : String
  RuntimeID : String
  GlobalAccountID : String
  Plan : String
  Region : String
  MaintenanceWindowBegin : Time
  MaintenanceWindowEnd : Time
  MaintenanceDays : List String
deriving DecidableEq, Repr

/-- Modelled from the spec: a runtime paired with its operation
(`orchestration.RuntimeOperation`). -/
structure RuntimeOperation where
  Runtime : Runtime
  ID : String
deriving DecidableEq, Repr

/-- Modelled from the spec: the instance record (`internal.Instance`); the manager only
passes it on to the factory. -/
structure Instance where
  InstanceID : String
deriving DecidableEq, Repr

/-- Modelled from the spec: the strategy part of the parameters
(`orchestration.StrategySpec`), with the fields the manager reads. -/
structure StrategySpec where
  Typ : String
  MaintenanceWindow : Bool
  ScheduleTime : Time
deriving DecidableEq, Repr

/-- Modelled from the spec: the retry request (`orchestration.RetryOperationParameters`). -/
structure RetryOperationParameters where
  RetryOperations : List String
  Immediate : Bool
deriving DecidableEq, Repr

/-- Modelled from the spec: the parameters of an orchestration (`orchestration.Parameters`).
`Kyma` and `Kubernetes` are pointers to structs of which the manager uses one version
string; `none` is the nil pointer. -/
structure Parameters where
  Targets : TargetSpec
  Strategy : StrategySpec
  Kyma : Option String
  Kubernetes : Option String
  RetryOperation : RetryOperationParameters
  NotificationState : String
deriving DecidableEq, Repr

/-- Modelled from the spec: the orchestration record (`internal.Orchestration`), with the
fields the manager and the reprocessing at start-up read or write. -/
structure Orchestration where
  OrchestrationID : String
  Typ : String
  State : String
  Description : String
  Parameters : Parameters
  CreatedAt : Time
  UpdatedAt : Time
deriving DecidableEq, Repr

/-- Modelled from the spec: `internal.Orchestration.IsFinished` is declared outside the
manager; a finished orchestration is one in state Succeeded, Failed or Canceled. -/
def Orchestration.IsFinished (o : Orchestration) : Bool :=
  o.State == Succeeded || o.State == Failed || o.State == Canceled

/-- Modelled from the spec: the default entry of the maintenance policy. -/
structure MaintenancePolicyEntry where
  Days : List String
  TimeBegin : String
  TimeEnd : String
deriving DecidableEq, Repr

/-- Modelled from the spec: the match patterns of a rule of the maintenance policy. -/
structure MaintenancePolicyMatch where
  Plan : String
  GlobalAccountID : String
  Region : String
deriving DecidableEq, Repr

/-- Modelled from the spec: one rule of the maintenance policy. -/
structure MaintenancePolicyRule where
  Match : MaintenancePolicyMatch
  Days : List String
  TimeBegin : String
  TimeEnd : String
deriving DecidableEq, Repr

/-- Modelled from the spec: the maintenance policy (`orchestration.MaintenancePolicy`). -/
structure MaintenancePolicy where
  Rules : List MaintenancePolicyRule
  Default : MaintenancePolicyEntry
deriving DecidableEq, Repr

/-- The zero value `orchestration.MaintenancePolicy{}`. -/
def MaintenancePolicy.empty : MaintenancePolicy := ⟨[], ⟨[], "", ""⟩⟩

/-- The per-state operation counts, Go `map[string]int`, as an association list. -/
abbrev Stats := List (String × Int)

/-- The two-value map read `v, found := stats[k]`. -/
def Stats.get (stats : Stats) (k : String) : Int × Bool :=
  match stats.lookup k with
  | some v => (v, true)
  | none => (0, false)

/-- Wrap-around of a Go `int` (64 bit, two's complement). -/
def wrapInt (x : Int) : Int := (x + 2 ^ 63) % 2 ^ 64 - 2 ^ 63

/-- Go `a + b` on `int`. -/
def addInt (a b : Int) : Int := wrapInt (a + b)

/-- Modelled from the spec: the tenant entry of a notification
(`notification.NotificationTenant`). -/
structure NotificationTenant where
  InstanceID : String
  StartDate : String
  EndDate : String
deriving DecidableEq, Repr

/-- Modelled from the spec: the parameters of a notification bundle
(`notification.NotificationParams`). -/
structure NotificationParams where
  OrchestrationID : String
  EventType : String
  Tenants : List NotificationTenant
deriving DecidableEq, Repr

/-! ## Collaborators and the call trace -/

/-- The execution strategy chosen by `resolveStrategy`: the parallel strategy, sped up by a
factor when `SpeedUp` was called on it. -/
inductive Strategy where
  | parallel (speedUp : Option Int)
deriving DecidableEq, Repr

/-- A call made by the manager to one of its collaborators, with the arguments passed. -/
inductive Call where
  | orchestrationGetByID (id : String)
  | orchestrationUpdate (o : Orchestration)
  | getOperationStats (id : String)
  | instanceGetByID (id : String)
  | resolve (targets : TargetSpec)
  | newOperation (o : Orchestration) (r : Runtime) (i : Instance) (state : String)
  | resumeOperations (id : String)
  | cancelOperations (id : String)
  | retryOperations (ids : List String)
  | strategyExecute (ops : List RuntimeOperation) (spec : StrategySpec)
  | strategyInsert (execID : String) (ops : List RuntimeOperation) (spec : StrategySpec)
  | strategyCancel (execID : String)
  | disabledCheck
  | newBundle (id : String) (params : NotificationParams)
  | createNotificationEvent (params : NotificationParams)
  | cancelNotificationEvent (params : NotificationParams)
  | configMapGet (ns : String) (name : String)
deriving DecidableEq, Repr

/-- The calls made so far, oldest first. -/
abbrev Trace := List Call

/-- What `storage.Orchestrations.GetByID` hands back: `(o, nil)`, `(o, err)` with a record,
or `(nil, err)`. -/
inductive GetResult where
  | found (o : Orchestration)
  | failedWith (o : Orchestration) (err : GoError)
  | failed (err : GoError)
deriving DecidableEq, Repr

/-- The answers of everything the manager calls but does not define.  The first argument of
a collaborator is the trace at the moment of the call.  The last block holds library
functions and constants whose declarations are outside the manager. -/
structure Collaborators where
  orchestrationGetByID : Trace → String → GetResult
  orchestrationUpdate : Trace → Orchestration → Option GoError
  getOperationStats : Trace → String → Except GoError Stats
  instanceGetByID : Trace → String → Except GoError Instance
  resolve : Trace → TargetSpec → List Runtime × Option GoError
  newOperation : Trace → Orchestration → Runtime → Instance → String →
    Except GoError RuntimeOperation
  resumeOperations : Trace → String → List RuntimeOperation × Option GoError
  cancelOperations : Trace → String → Option GoError
  retryOperations : Trace → List String → List RuntimeOperation × Option GoError
  strategyExecute : Trace → Strategy → List RuntimeOperation → StrategySpec →
    Except GoError String
  strategyInsert : Trace → Strategy → String → List RuntimeOperation → StrategySpec →
    Option GoError
  disabledCheck : Trace → Bool
  newBundle : Trace → String → NotificationParams → Option GoError
  createNotificationEvent : Trace → NotificationParams → Option GoError
  cancelNotificationEvent : Trace → NotificationParams → Option GoError
  configMapGet : Trace → String → String → Except GoError (List (String × String))
  now : Trace → Time
  /-- Library: the location `time.Local` of the process. -/
  Local : Location
  /-- Library: `regexp.MatchString(pattern, s)`; `none` is the error of a pattern that does
  not compile. -/
  regexpMatchString : String → String → Option Bool
  /-- Library: `json.Unmarshal` into a policy; the policy may be partly filled on error. -/
  unmarshalPolicy : String → MaintenancePolicy × Option GoError
  /-- Library: `kebError.IsTemporaryError`. -/
  IsTemporaryError : GoError → Bool
  /-- Library: `dberr.IsNotFound`. -/
  IsNotFound : GoError → Bool
  /-- Library: the `%q` verb of `fmt`. -/
  quote : String → String
  /-- Library: `time.Time.String`. -/
  timeString : Time → String
  /-- Library: `time.Time.Format` with the layout `2006-01-02 15:04:05`. -/
  timeFormat : Time → String
  KymaMaintenanceNumber : String
  KubernetesMaintenanceNumber : String

/-- The manager (`orchestrationManager`): its collaborators and its configuration. -/
structure orchestrationManager where
  env : Collaborators
  pollingInterval : Duration
  configNamespace : String
  configName : String
  kymaVersion : String
  kubernetesVersion : String
  speedFactor : Int

def maintenancePolicyKeyName : String := "maintenancePolicy"

/-! ## Strings -/

/-- Go `strings.Contains` on the characters of the two strings. -/
def stringsContains : List Char → List Char → Bool
  | [], substr => substr.isPrefixOf []
  | c :: cs, substr => substr.isPrefixOf (c :: cs) || stringsContains cs substr

/-- Go `strings.Replace(s, old, new, -1)` for a non-empty `old`: scanning from the left,
every occurrence of `old` that does not overlap an earlier one is replaced by `new`.
The counter is the number of characters of a matched occurrence still to be skipped. -/
def stringsReplace (old new : List Char) : Nat → List Char → List Char
  | _, [] => []
  | skip + 1, _ :: cs => stringsReplace old new skip cs
  | 0, c :: cs =>
    if old.isPrefixOf (c :: cs) then new ++ stringsReplace old new (old.length - 1) cs
    else c :: stringsReplace old new 0 cs

def updateRetryingDescription (desc : String) (newDesc : String) : String :=
  if stringsContains desc.data "retrying".data then
    String.mk (stringsReplace "retrying".data newDesc.data 0 desc.data)
  else
    desc ++ ", " ++ newDesc

/-- The text of `fmt.Sprintf("%d", n)` for the length of a slice. -/
def fmtInt (n : Nat) : String := toString n

/-! ## Go time

A location has an offset from UTC that may change at its transitions (daylight-saving
time).  A calendar date, the triple `(Year(), Month(), Day())`, is represented by its number
of days since 0001-01-01: `time.Date` maps a date and a time of day in a location to the
instant, and `Year()`, `Month()`, `Day()` of an instant give the date of its wall clock. -/

/-- The zone period an instant falls in, among the transitions that follow a period with the
given offset and start: the offset, the start and the end of the period (`none` for a
period without that bound). -/
def lookupFrom (offset : Int) (start : Option Int) :
    List (Int × Int) → Int → Int × Option Int × Option Int
  | [], _ => (offset, start, none)
  | (w, off) :: rest, sec =>
    if sec < w then (offset, start, some w) else lookupFrom off (some w) rest sec

/-- Go `(*Location).lookup`: the offset in effect at the instant `sec` and the start and the
end of the zone period the instant falls in. -/
def Location.lookup (l : Location) (sec : Int) : Int × Option Int × Option Int :=
  lookupFrom l.offset none l.tx sec

/-- The offset of the location of `t` at the instant of `t`, in seconds east of UTC. -/
def Time.offset (t : Time) : Int := (t.loc.lookup t.sec).1

/-- The wall clock of `t` in its location, in seconds since 0001-01-01 00:00:00. -/
def Time.wall (t : Time) : Int := t.sec + t.offset

/-- The calendar date `(t.Year(), t.Month(), t.Day())`, in days since 0001-01-01. -/
def Time.date (t : Time) : Int := t.wall / 86400

def Time.Hour (t : Time) : Int := t.wall % 86400 / 3600

def Time.Minute (t : Time) : Int := t.wall % 3600 / 60

def Time.Second (t : Time) : Int := t.wall % 60

def Time.Nanosecond (t : Time) : Nat := t.nsec

def Time.Location (t : Time) : Location := t.loc

/-- The day of the week, Sunday = 0, ..., Saturday = 6; 0001-01-01 is a Monday. -/
def Time.Weekday (t : Time) : Int := (t.date + 1) % 7

/-- The test `utc < start || utc >= end` of `time.Date`. -/
def outsidePeriod (start end_ : Option Int) (utc : Int) : Bool :=
  (match start with
    | some s => decide (utc < s)
    | none => false) ||
  (match end_ with
    | some e => decide (e ≤ utc)
    | none => false)

/-- Go `time.Date(year, month, day, hour, min, sec, nsec, loc)` for a date given in days
since 0001-01-01.  The wall clock is first looked up as if it were an instant; when the
instant it gives with the offset found lies outside the zone period found, the offset is
looked up again at that instant. -/
def Date (date hour min sec : Int) (nsec : Nat) (loc : Location) : Time :=
  let unix := date * 86400 + hour * 3600 + min * 60 + sec
  let zone := loc.lookup unix
  let offset :=
    if zone.1 ≠ 0 then
      if outsidePeriod zone.2.1 zone.2.2 (unix - zone.1) = true then
        (loc.lookup (unix - zone.1)).1
      else zone.1
    else zone.1
  ⟨unix - offset, nsec, loc⟩

/-- Go `t.AddDate(0, 0, days)`: the date of `t` in its location moved by the days, with the
clock reading of `t`, in the location of `t`. -/
def Time.AddDate (t : Time) (days : Int) : Time :=
  Date (t.date + days) t.Hour t.Minute t.Second t.Nanosecond t.Location

/-- Go `t.UTC()`: the same instant with the location UTC. -/
def Time.UTC (t : Time) : Time := ⟨t.sec, t.nsec, utcLoc⟩

def Time.Before (t u : Time) : Bool :=
  decide (t.sec < u.sec ∨ (t.sec = u.sec ∧ t.nsec < u.nsec))

def Time.After (t u : Time) : Bool := u.Before t

def Time.Equal (t u : Time) : Bool := decide (t.sec = u.sec ∧ t.nsec = u.nsec)

/-- Two decimal digits at the head of the text (`getnum` of package `time` for a field of
fixed width; the hour field, which may have one digit, is followed by the two digits of the
minute, so it has two digits in every text that parses). -/
def getnum : List Char → Option (Int × List Char)
  | a :: b :: rest =>
    if a.isDigit && b.isDigit then
      some ((((a.toNat - 48) * 10 + (b.toNat - 48) : Nat) : Int), rest)
    else none
  | _ => none

/-- The value of a run of decimal digits. -/
def digitsValue (ds : List Char) : Nat :=
  ds.foldl (fun acc c => acc * 10 + (c.toNat - 48)) 0

/-- A fractional second after the seconds field, which `time.Parse` accepts although the
layout has none: a period or comma followed by digits, of which nine count. -/
def parseFraction (value : List Char) : Nat × List Char :=
  match value with
  | sep :: d :: rest =>
    if (sep == '.' || sep == ',') && d.isDigit then
      let nine := ((d :: rest).takeWhile Char.isDigit).take 9
      (digitsValue nine * 10 ^ (9 - nine.length), (d :: rest).dropWhile Char.isDigit)
    else (0, value)
  | _ => (0, value)

/-- The zone field `-0700` at the end of the text: the offset in seconds east of UTC. -/
def parseZone : List Char → Option Int
  | [sign, h1, h2, m1, m2] =>
    match getnum [h1, h2], getnum [m1, m2] with
    | some (hr, _), some (mm, _) =>
      if hr > 24 || mm > 60 then none
      else if sign == '+' then some ((hr * 60 + mm) * 60)
      else if sign == '-' then some (-((hr * 60 + mm) * 60))
      else none
    | _, _ => none
  | _ => none

/-- The layout of the window times in the policy. -/
def maintenanceWindowFormat : String := "150405-0700"

/-- Go `time.Parse(maintenanceWindowFormat, value)`; `none` is a parse error.  The fields
missing from the layout make the date January 1 of year 0, which is day -366.  The result
has the location `time.Local` when that location has the parsed offset at the parsed
instant, and otherwise a location fixed at the parsed offset. -/
def parseWindowTime (localLoc : Location) (value : String) : Option Time :=
  match getnum value.data with
  | none => none
  | some (hour, v1) =>
    if 24 ≤ hour then none
    else
      match getnum v1 with
      | none => none
      | some (min, v2) =>
        if 60 ≤ min then none
        else
          match getnum v2 with
          | none => none
          | some (sec, v3) =>
            if 60 ≤ sec then none
            else
              match parseZone (parseFraction v3).2 with
              | none => none
              | some zoneOffset =>
                let t := Date (-366) hour min sec (parseFraction v3).1 utcLoc
                if (localLoc.lookup (t.sec - zoneOffset)).1 = zoneOffset then
                  some ⟨t.sec - zoneOffset, t.nsec, localLoc⟩
                else some ⟨t.sec - zoneOffset, t.nsec, FixedZone zoneOffset⟩

/-! ## The maintenance window -/

/-- One of the three pattern tests of a rule: an empty pattern is not tested, a pattern that
does not compile or does not match skips the rule. -/
def patternMatches (rx : String → String → Option Bool) (pattern value : String) : Bool :=
  if pattern ≠ "" then
    match rx pattern value with
    | some matched => matched
    | none => false
  else true

/-- The rule reaches the statement `ruleMatched = true` of the loop over the rules. -/
def ruleMatches (rx : String → String → Option Bool) (r : Runtime)
    (p : MaintenancePolicyRule) : Bool :=
  patternMatches rx p.Match.Plan r.Plan &&
    patternMatches rx p.Match.GlobalAccountID r.GlobalAccountID &&
    patternMatches rx p.Match.Region r.Region

/-- The three overrides made for a matching rule, and for the default. -/
def overrideMaintenance (localLoc : Location) (r : Runtime) (days : List String)
    (timeBegin timeEnd : String) : Runtime :=
  let r1 := if days.length > 0 then { r with MaintenanceDays := days } else r
  let r2 :=
    if timeBegin ≠ "" then
      match parseWindowTime localLoc timeBegin with
      | some maintenanceWindowBegin => { r1 with MaintenanceWindowBegin := maintenanceWindowBegin }
      | none => r1
    else r1
  if timeEnd ≠ "" then
    match parseWindowTime localLoc timeEnd with
    | some maintenanceWindowEnd => { r2 with MaintenanceWindowEnd := maintenanceWindowEnd }
    | none => r2
  else r2

/-- The loop `for _, p := range policy.Rules`: the runtime as overridden by the first rule
that matches, or `none` when the loop ends with `ruleMatched` still false. -/
def applyRules (rx : String → String → Option Bool) (localLoc : Location) (r : Runtime) :
    List MaintenancePolicyRule → Option Runtime
  | [] => none
  | p :: rest =>
    if ruleMatches rx r p then
      some (overrideMaintenance localLoc r p.Days p.TimeBegin p.TimeEnd)
    else applyRules rx localLoc r rest

/-- The runtime after the rules and the default of the policy were applied. -/
def applyPolicy (rx : String → String → Option Bool) (localLoc : Location) (r : Runtime)
    (policy : MaintenancePolicy) : Runtime :=
  match applyRules rx localLoc r policy.Rules with
  | some r1 => r1
  | none =>
    overrideMaintenance localLoc r policy.Default.Days policy.Default.TimeBegin
      policy.Default.TimeEnd

/-- Modelled from the spec: the weekday of a day name of the policy, as in "Mon", "Wed";
other strings name no day. -/
def weekdayOfName (day : String) : Option Int :=
  if day = "Sun" then some 0
  else if day = "Mon" then some 1
  else if day = "Tue" then some 2
  else if day = "Wed" then some 3
  else if day = "Thu" then some 4
  else if day = "Fri" then some 5
  else if day = "Sat" then some 6
  else none

/-- Modelled from the spec: `orchestration.ConvertSliceOfDaysToMap` is outside the manager;
it turns the day names into the set of allowed weekdays (here the list of its members). -/
def ConvertSliceOfDaysToMap (days : List String) : List Int :=
  days.filterMap weekdayOfName

/-- Modelled from the spec: `orchestration.FirstAvailableDayDiff` is outside the manager;
the number of days from the current weekday to the first day of the week in the allowed
set, today counting; with no allowed day there is no shift. -/
def FirstAvailableDayDiff (currentDay : Int) (availableDays : List Int) : Int :=
  match [0, 1, 2, 3, 4, 5, 6].find? fun i => decide ((currentDay + i) % 7 ∈ availableDays) with
  | some i => i
  | none => 0

/-- Modelled from the spec: `orchestration.NextAvailableDayDiff` is outside the manager; the
number of days from the current weekday to the next available day after today; with no
allowed day there is no shift. -/
def NextAvailableDayDiff (currentDay : Int) (availableDays : List Int) : Int :=
  match [1, 2, 3, 4, 5, 6, 7].find? fun i => decide ((currentDay + i) % 7 ∈ availableDays) with
  | some i => i
  | none => 0

/-- The time point of the calculation: `time.Now()`, or `after` when it is in the future. -/
def referenceTime (now after : Time) : Time :=
  if after.After now then after else now

/-- The start and end composed from the date of `n` and the window times of the runtime, set
to the first available day, today included.  The first argument is the function called as
`orchestration.FirstAvailableDayDiff`. -/
def composeWindowWith (first : Int → List Int → Int) (n : Time) (r : Runtime) : Time × Time :=
  let availableDays := ConvertSliceOfDaysToMap r.MaintenanceDays
  let start := Date n.date r.MaintenanceWindowBegin.Hour r.MaintenanceWindowBegin.Minute
    r.MaintenanceWindowBegin.Second r.MaintenanceWindowBegin.Nanosecond
    r.MaintenanceWindowBegin.Location
  let end_ := Date n.date r.MaintenanceWindowEnd.Hour r.MaintenanceWindowEnd.Minute
    r.MaintenanceWindowEnd.Second r.MaintenanceWindowEnd.Nanosecond
    r.MaintenanceWindowEnd.Location
  let diff := first n.Weekday availableDays
  (start.AddDate diff, end_.AddDate diff)

/-- The adjustment of a window end that slips through the next day. -/
def adjustEnd (w : Time × Time) : Time × Time :=
  if w.2.Before w.1 || w.2.Equal w.1 then (w.1, w.2.AddDate 1) else w

/-- The wait until the next available day when the time window has already passed.  The
first argument is the function called as `orchestration.NextAvailableDayDiff`. -/
def skipPassedWindowWith (next : Int → List Int → Int) (n : Time) (r : Runtime)
    (w : Time × Time) : Time × Time :=
  if w.1.Before n && w.2.Before n then
    let diff := next n.Weekday (ConvertSliceOfDaysToMap r.MaintenanceDays)
    (w.1.AddDate diff, w.2.AddDate diff)
  else w

/-- The body of `resolveMaintenanceWindowTime` for given day-diff functions.  The other
arguments before the parameters of the function stand for what it takes from outside them:
`regexp.MatchString`, the location `time.Local` and the clock reading `time.Now()`. -/
def resolveWindowWith (first next : Int → List Int → Int)
    (rx : String → String → Option Bool) (localLoc : Location) (now : Time)
    (r : Runtime) (policy : MaintenancePolicy) (after : Time) : Time × Time × List String :=
  let r1 := applyPolicy rx localLoc r policy
  let n := referenceTime now after
  let w := skipPassedWindowWith next n r1 (adjustEnd (composeWindowWith first n r1))
  (w.1, w.2, r1.MaintenanceDays)

/-- The composing of the window with the day-diff function as modelled. -/
def composeWindow (n : Time) (r : Runtime) : Time × Time :=
  composeWindowWith FirstAvailableDayDiff n r

/-- The skipping of a passed window with the day-diff function as modelled. -/
def skipPassedWindow (n : Time) (r : Runtime) (w : Time × Time) : Time × Time :=
  skipPassedWindowWith NextAvailableDayDiff n r w

/-- The function `resolveMaintenanceWindowTime` of the manager, with the two day-diff
functions as modelled.  Its first three arguments stand for what it takes from outside its
parameters: `regexp.MatchString`, the location `time.Local` and the clock reading
`time.Now()`. -/
def resolveMaintenanceWindowTime (rx : String → String → Option Bool) (localLoc : Location)
    (now : Time) (r : Runtime) (policy : MaintenancePolicy) (after : Time) :
    Time × Time × List String :=
  resolveWindowWith FirstAvailableDayDiff NextAvailableDayDiff rx localLoc now r policy after

/-! ## The manager -/

def getMaintenancePolicy (m : orchestrationManager) (tr : Trace) :
    (MaintenancePolicy × Option GoError) × Trace :=
  let policy := MaintenancePolicy.empty
  let tr1 := tr ++ [Call.configMapGet m.configNamespace m.configName]
  match m.env.configMapGet tr m.configNamespace m.configName with
  | .error _ => ((policy, some (.errorf "orchestration config is absent")), tr1)
  | .ok data =>
    let value := (data.lookup maintenancePolicyKeyName).getD ""
    if value = "" then
      ((policy, some (.errorf "maintenance policy is absent from orchestration config")), tr1)
    else
      match m.env.unmarshalPolicy value with
      | (policy, some _) => ((policy, some (.errorf "failed to unmarshal the policy config")), tr1)
      | (policy, none) => ((policy, none), tr1)

/-- The runtimes to create operations for: every resolved runtime when the orchestration is
Pending, otherwise for each retried operation the first resolved runtime of its instance. -/
def extractRuntimes (o : Orchestration) (runtimes : List Runtime)
    (result : List RuntimeOperation) : List Runtime :=
  if o.State = Pending then
    runtimes
  else
    result.filterMap fun retryOp =>
      runtimes.find? fun r => retryOp.Runtime.InstanceID == r.InstanceID

/-- The window fields given to one runtime in the loop of `NewOperationForPendingRetrying`
(the statements before the instance lookup). -/
def setMaintenanceWindow (m : orchestrationManager) (o : Orchestration)
    (policy : MaintenancePolicy) (updateWindow : Bool) (tr : Trace) (r : Runtime) : Runtime :=
  if updateWindow then
    let w0 : Time × Time × List String := (Time.zero, Time.zero, [])
    let w1 :=
      if o.State = Pending ∧ o.Parameters.Strategy.MaintenanceWindow = true then
        resolveMaintenanceWindowTime m.env.regexpMatchString m.env.Local (m.env.now tr) r
          policy o.Parameters.Strategy.ScheduleTime
      else w0
    let w2 :=
      if o.State = Retrying ∧ o.Parameters.RetryOperation.Immediate = true ∧
          o.Parameters.Strategy.MaintenanceWindow = true then
        resolveMaintenanceWindowTime m.env.regexpMatchString m.env.Local (m.env.now tr) r
          policy o.Parameters.Strategy.ScheduleTime
      else w1
    { r with
      MaintenanceWindowBegin := w2.1
      MaintenanceWindowEnd := w2.2.1
      MaintenanceDays := w2.2.2 }
  else if o.Parameters.RetryOperation.Immediate = true then
    { r with
      MaintenanceWindowBegin := Time.zero
      MaintenanceWindowEnd := Time.zero
      MaintenanceDays := [] }
  else r

/-- The loop `for _, r := range fileterRuntimes` of `NewOperationForPendingRetrying`; it
stops at the first failing instance lookup or operation creation. -/
def newOperations (m : orchestrationManager) (o : Orchestration) (policy : MaintenancePolicy)
    (updateWindow : Bool) :
    List Runtime → List RuntimeOperation → Trace → Except GoError (List RuntimeOperation) × Trace
  | [], result, tr => (.ok result, tr)
  | r0 :: rest, result, tr =>
    let r := setMaintenanceWindow m o policy updateWindow tr r0
    let tr1 := tr ++ [Call.instanceGetByID r.InstanceID]
    match m.env.instanceGetByID tr r.InstanceID with
    | .error err => (.error (.wrap ("while getting instance " ++ r.InstanceID) err), tr1)
    | .ok inst =>
      let tr2 := tr1 ++ [Call.newOperation o r inst Pending]
      match m.env.newOperation tr1 o r inst Pending with
      | .error err =>
        (.error (.wrap ("while creating new operation for runtime id " ++
          m.env.quote r.RuntimeID) err), tr2)
      | .ok op => newOperations m o policy updateWindow rest (result ++ [op]) tr2

/-- The defaulting of the Kyma and Kubernetes versions at the end of
`NewOperationForPendingRetrying`. -/
def setDefaultVersions (m : orchestrationManager) (p : Parameters) : Parameters :=
  let p1 :=
    if p.Kyma = none ∨ p.Kyma = some "" then { p with Kyma := some m.kymaVersion } else p
  if p1.Kubernetes = none ∨ p1.Kubernetes = some "" then
    { p1 with Kubernetes := some m.kubernetesVersion }
  else p1

/-- Returns the operations, the orchestration, the number of runtimes and the error. -/
def NewOperationForPendingRetrying (m : orchestrationManager) (o : Orchestration)
    (policy : MaintenancePolicy) (retryRT : List RuntimeOperation) (updateWindow : Bool)
    (tr : Trace) : (List RuntimeOperation × Orchestration × Nat × Option GoError) × Trace :=
  let tr1 := tr ++ [Call.resolve o.Parameters.Targets]
  match m.env.resolve tr o.Parameters.Targets with
  | (runtimes, some err) =>
    (([], o, runtimes.length, some (.wrap "while resolving targets" err)), tr1)
  | (runtimes, none) =>
    let fileterRuntimes := extractRuntimes o runtimes retryRT
    match newOperations m o policy updateWindow fileterRuntimes [] tr1 with
    | (.error err, tr2) => (([], o, runtimes.length, some err), tr2)
    | (.ok result, tr2) =>
      let o1 := { o with Parameters := setDefaultVersions m o.Parameters }
      let o2 :=
        if fileterRuntimes.length ≠ 0 then { o1 with State := InProgress }
        else { o1 with State := Succeeded }
      ((result, o2, fileterRuntimes.length, none), tr2)

/-- The two assignments that clear the retry request. -/
def clearRetryOperation (o : Orchestration) : Orchestration :=
  { o with Parameters := { o.Parameters with RetryOperation := ⟨[], false⟩ } }

/-- Returns the operations, the orchestration as the function leaves it, and the error. -/
def resolveOperations (m : orchestrationManager) (o : Orchestration)
    (policy : MaintenancePolicy) (tr : Trace) :
    (List RuntimeOperation × Orchestration × Option GoError) × Trace :=
  if o.State = Pending then
    match NewOperationForPendingRetrying m o policy [] true tr with
    | ((_, o1, _, some err), tr1) =>
      (([], o1, some (.wrap "while creating new operation for pending" err)), tr1)
    | ((result, o1, runtTimesNum, none), tr1) =>
      ((result,
        { o1 with Description := "Scheduled " ++ fmtInt runtTimesNum ++ " operations" },
        none), tr1)
  else if o.State = Retrying then
    if o.Parameters.RetryOperation.RetryOperations.length = 0 then
      (([], o, some (.wrap "while retrying operations"
        (.errorf "o.Parameters.RetryOperation.RetryOperations is empty"))), tr)
    else
      let tr1 := tr ++ [Call.retryOperations o.Parameters.RetryOperation.RetryOperations]
      match m.env.retryOperations tr o.Parameters.RetryOperation.RetryOperations with
      | (retryRuntimes, some err) =>
        ((retryRuntimes, o, some (.wrap "while resolving retrying orchestration" err)), tr1)
      | (retryRuntimes, none) =>
        match NewOperationForPendingRetrying m o policy retryRuntimes true tr1 with
        | ((_, o1, _, some err), tr2) =>
          (([], o1, some (.wrap "while NewOperationForPendingRetrying" err)), tr2)
        | ((result, o1, runtTimesNum, none), tr2) =>
          ((result,
            clearRetryOperation { o1 with
              Description := updateRetryingDescription o1.Description
                ("retried " ++ fmtInt runtTimesNum ++ " operations") },
            none), tr2)
  else
    let tr1 := tr ++ [Call.resumeOperations o.OrchestrationID]
    match m.env.resumeOperations tr o.OrchestrationID with
    | (result, some err) => ((result, o, some (.wrap "while resuming operation" err)), tr1)
    | (result, none) => ((result, o, none), tr1)

/-- The strategy for a strategy type; `none` is the nil interface value. -/
def resolveStrategy (m : orchestrationManager) (sType : String) : Option Strategy :=
  if sType = ParallelStrategy then
    if m.speedFactor ≠ 0 then some (.parallel (some m.speedFactor))
    else some (.parallel none)
  else none

/-- The tenant entry built for one operation in `sendNotificationCreate`. -/
def notificationTenant (m : orchestrationManager) (o : Orchestration) (tr : Trace)
    (op : RuntimeOperation) : NotificationTenant :=
  if o.Parameters.Strategy.MaintenanceWindow = true then
    { InstanceID := op.Runtime.InstanceID
      StartDate := m.env.timeString op.Runtime.MaintenanceWindowBegin
      EndDate := m.env.timeString op.Runtime.MaintenanceWindowEnd }
  else
    { InstanceID := op.Runtime.InstanceID
      StartDate := m.env.timeFormat (m.env.now tr)
      EndDate := "" }

def setNotificationState (o : Orchestration) (state : String) : Orchestration :=
  { o with Parameters := { o.Parameters with NotificationState := state } }

def sendNotificationCreate (m : orchestrationManager) (o : Orchestration)
    (operations : List RuntimeOperation) (tr : Trace) :
    (Orchestration × Option GoError) × Trace :=
  if o.State = InProgress then
    let o1 :=
      if o.Parameters.NotificationState = "" then setNotificationState o NotificationPending
      else o
    if o1.Parameters.NotificationState = NotificationPending then
      let eventType :=
        if o1.Typ = UpgradeKymaOrchestration then m.env.KymaMaintenanceNumber
        else if o1.Typ = UpgradeClusterOrchestration then m.env.KubernetesMaintenanceNumber
        else ""
      let tenants := operations.map (notificationTenant m o1 tr)
      let notificationParams : NotificationParams :=
        { OrchestrationID := o1.OrchestrationID, EventType := eventType, Tenants := tenants }
      let tr1 := tr ++ [Call.newBundle o1.OrchestrationID notificationParams]
      match m.env.newBundle tr o1.OrchestrationID notificationParams with
      | some err => ((o1, some err), tr1)
      | none =>
        let tr2 := tr1 ++ [Call.createNotificationEvent notificationParams]
        match m.env.createNotificationEvent tr1 notificationParams with
        | some err => ((o1, some err), tr2)
        | none => ((setNotificationState o1 NotificationCreated, none), tr2)
    else ((o1, none), tr)
  else ((o, none), tr)

def sendNotificationCancel (m : orchestrationManager) (o : Orchestration) (tr : Trace) :
    (Orchestration × Option GoError) × Trace :=
  if o.Parameters.NotificationState = NotificationCreated then
    let notificationParams : NotificationParams :=
      { OrchestrationID := o.OrchestrationID, EventType := "", Tenants := [] }
    let tr1 := tr ++ [Call.newBundle o.OrchestrationID notificationParams]
    match m.env.newBundle tr o.OrchestrationID notificationParams with
    | some err => ((o, some err), tr1)
    | none =>
      let tr2 := tr1 ++ [Call.cancelNotificationEvent notificationParams]
      match m.env.cancelNotificationEvent tr1 notificationParams with
      | some err => ((o, some err), tr2)
      | none => ((setNotificationState o NotificationCancelled, none), tr2)
  else ((o, none), tr)

/-- Returns the orchestration (`none` is the nil pointer) and the error.  `strategy.Cancel`
returns nothing; the calls are recorded in the trace. -/
def resolveOrchestration (m : orchestrationManager) (o : Orchestration)
    (execIDs : List String) (stats : Stats) (tr : Trace) :
    (Option Orchestration × Option GoError) × Trace :=
  if o.State = Canceling then
    let tr1 := tr ++ [Call.cancelOperations o.OrchestrationID]
    match m.env.cancelOperations tr o.OrchestrationID with
    | some err => ((none, some (.wrap "while resolving canceled operations" err)), tr1)
    | none =>
      let tr2 := tr1 ++ execIDs.map Call.strategyCancel
      let tr3 := tr2 ++ [Call.disabledCheck]
      if m.env.disabledCheck tr2 = false then
        match sendNotificationCancel m o tr3 with
        | ((o1, some err), tr4) =>
          if m.env.IsTemporaryError err = true then ((none, some err), tr4)
          else ((some { o1 with State := Canceled }, none), tr4)
        | ((o1, none), tr4) => ((some { o1 with State := Canceled }, none), tr4)
      else ((some { o with State := Canceled }, none), tr3)
  else
    let state := if (stats.get Failed).1 > 0 then Failed else Succeeded
    ((some { o with State := state }, none), tr)

/-- The variables the polling closure of `waitForCompletion` captures and assigns. -/
structure PollState where
  o : Orchestration
  canceled : Bool
  stats : Stats
  execIDs : List String
  execID : String
deriving DecidableEq, Repr

/-- The sum `numberOfNotFinished` of the counts found for InProgress, Pending and Retrying. -/
def numberOfNotFinished (stats : Stats) : Int :=
  let n0 : Int := 0
  let n1 := if (stats.get InProgress).2 = true then addInt n0 (stats.get InProgress).1 else n0
  let n2 := if (stats.get Pending).2 = true then addInt n1 (stats.get Pending).1 else n1
  if (stats.get Retrying).2 = true then addInt n2 (stats.get Retrying).1 else n2

/-- The end of the retry block of the polling closure: the description is updated, the
retry request is cleared and the orchestration is written to the store.  The result is
`Except.error` with the values the closure returns when it returns from inside the block. -/
def persistRetry (m : orchestrationManager) (s : PollState) (tr : Trace) :
    (PollState × Except (Bool × Option GoError) Unit) × Trace :=
  let o2 := clearRetryOperation { s.o with
    Description := updateRetryingDescription s.o.Description
      ("retried " ++ fmtInt s.o.Parameters.RetryOperation.RetryOperations.length ++
        " operations") }
  let tr1 := tr ++ [Call.orchestrationUpdate o2]
  match m.env.orchestrationUpdate tr o2 with
  | some _ => (({ s with o := o2 }, .error (false, none)), tr1)
  | none => (({ s with o := o2 }, .ok ()), tr1)

/-- The handling of retry operations that appeared while polling (the body of
`if len(o.Parameters.RetryOperation.RetryOperations) > 0`).  The errors of `RetryOperations`
and of `NewOperationForPendingRetrying` are only logged.  The `o` declared inside the block
is the pointer the closure already holds (`NewOperationForPendingRetrying` returns its
argument), so what is assigned through it is seen by the rest of the closure and by
`resolveOrchestration`. -/
def handleRetryOperations (m : orchestrationManager) (strategy : Strategy) (s : PollState)
    (tr : Trace) : (PollState × Except (Bool × Option GoError) Unit) × Trace :=
  let ids := s.o.Parameters.RetryOperation.RetryOperations
  let tr1 := tr ++ [Call.retryOperations ids]
  let ops := (m.env.retryOperations tr ids).1
  match NewOperationForPendingRetrying m s.o MaintenancePolicy.empty ops false tr1 with
  | ((result, o1, _, _), tr2) =>
    let tr3 := tr2 ++ [Call.strategyInsert s.execID result o1.Parameters.Strategy]
    match m.env.strategyInsert tr2 strategy s.execID result o1.Parameters.Strategy with
    | none => persistRetry m { s with o := o1 } tr3
    | some _ =>
      let tr4 := tr3 ++ [Call.strategyExecute result o1.Parameters.Strategy]
      match m.env.strategyExecute tr3 strategy result o1.Parameters.Strategy with
      | .error err =>
        (({ s with o := o1 },
          .error (false, some (.wrap "while executing upgrade strategy during retrying" err))),
          tr4)
      | .ok retryExecID =>
        persistRetry m
          { s with o := o1, execIDs := s.execIDs ++ [retryExecID], execID := retryExecID } tr4

/-- One call of the condition function passed to `wait.PollImmediateInfinite`: the captured
variables after the call, and the pair `(done, err)` it returns.  When the load returns no
record the closure returns at once and the captured `o` (then nil) is not read again before
the next load assigns it, so it is left as it was. -/
def pollTick (m : orchestrationManager) (strategy : Strategy) (orchestrationID : String)
    (s : PollState) (tr : Trace) : (PollState × Bool × Option GoError) × Trace :=
  let tr1 := tr ++ [Call.orchestrationGetByID orchestrationID]
  match m.env.orchestrationGetByID tr orchestrationID with
  | .failed err =>
    if m.env.IsNotFound err = true then ((s, false, some err), tr1) else ((s, false, none), tr1)
  | .failedWith o err =>
    if m.env.IsNotFound err = true then (({ s with o := o }, false, some err), tr1)
    else (({ s with o := o }, false, none), tr1)
  | .found o =>
    let canceled := if o.State = Canceling then true else s.canceled
    let tr2 := tr1 ++ [Call.getOperationStats o.OrchestrationID]
    match m.env.getOperationStats tr1 o.OrchestrationID with
    | .error _ => (({ s with o := o, canceled := canceled }, false, none), tr2)
    | .ok stats =>
      let s2 : PollState := { s with o := o, canceled := canceled, stats := stats }
      let numberOfInProgress := (stats.get InProgress).1
      let retried : (PollState × Except (Bool × Option GoError) Unit) × Trace :=
        if o.Parameters.RetryOperation.RetryOperations.length > 0 then
          handleRetryOperations m strategy s2 tr2
        else ((s2, .ok ()), tr2)
      match retried with
      | ((s3, .error (done, err)), tr3) => ((s3, done, err), tr3)
      | ((s3, .ok _), tr3) =>
        if s3.canceled = true then ((s3, decide (numberOfInProgress = 0), none), tr3)
        else ((s3, decide (numberOfNotFinished stats = 0), none), tr3)

/-- The loop of `wait.PollImmediateInfinite`: the condition is called until it returns an
error or `true`.  The loop itself has no bound; `none` says that the given number of ticks
did not end it. -/
def pollLoop (m : orchestrationManager) (strategy : Strategy) (orchestrationID : String) :
    Nat → PollState → Trace → Option ((PollState × Option GoError) × Trace)
  | 0, _, _ => none
  | ticks + 1, s, tr =>
    match pollTick m strategy orchestrationID s tr with
    | ((s1, _, some err), tr1) => some ((s1, some err), tr1)
    | ((s1, true, none), tr1) => some ((s1, none), tr1)
    | ((s1, false, none), tr1) => pollLoop m strategy orchestrationID ticks s1 tr1

def waitForCompletion (m : orchestrationManager) (o : Orchestration) (strategy : Strategy)
    (execID : String) (ticks : Nat) (tr : Trace) :
    Option ((Option Orchestration × Option GoError) × Trace) :=
  let s0 : PollState :=
    { o := o, canceled := false, stats := [], execIDs := [execID], execID := execID }
  match pollLoop m strategy o.OrchestrationID ticks s0 tr with
  | none => none
  | some ((_, some err), tr1) =>
    some ((none, some (.wrap "while waiting for scheduled operations to finish" err)), tr1)
  | some ((s, none), tr1) => some (resolveOrchestration m s.o s.execIDs s.stats tr1)

def updateOrchestration (m : orchestrationManager) (o : Orchestration) (state : String)
    (description : String) (tr : Trace) : Duration × Trace :=
  let o1 := { o with UpdatedAt := m.env.now tr, State := state, Description := description }
  let tr1 := tr ++ [Call.orchestrationUpdate o1]
  match m.env.orchestrationUpdate tr o1 with
  | some err => if m.env.IsNotFound err = false then (Minute, tr1) else (0, tr1)
  | none => (0, tr1)

def failOrchestration (m : orchestrationManager) (o : Orchestration) (err : GoError)
    (tr : Trace) : (Duration × Option GoError) × Trace :=
  match updateOrchestration m o Failed err.Error tr with
  | (d, tr1) => ((d, none), tr1)

/-- How a call of `Execute` ends. -/
inductive Outcome where
  /-- The call returned a delay and an error. -/
  | returned (delay : Duration) (err : Option GoError)
  /-- The call dereferenced a nil pointer (the nil strategy). -/
  | panicked
  /-- The poll loop was still running after the given number of ticks. -/
  | polling
deriving DecidableEq, Repr

/-- The part of `Execute` from the start of the strategy on. -/
def runStrategy (m : orchestrationManager) (o : Orchestration)
    (operations : List RuntimeOperation) (strategy : Option Strategy) (ticks : Nat)
    (tr : Trace) : Outcome × Trace :=
  match strategy with
  | none => (.panicked, tr)
  | some strategy =>
    let tr1 := tr ++ [Call.strategyExecute operations o.Parameters.Strategy]
    match m.env.strategyExecute tr strategy operations o.Parameters.Strategy with
    | .error err => (.returned 0 (some (.wrap "failed to execute strategy" err)), tr1)
    | .ok execID =>
      match waitForCompletion m o strategy execID ticks tr1 with
      | none => (.polling, tr1)
      | some ((_, some err), tr2) =>
        if m.env.IsTemporaryError err = true then (.returned (5 * Second) none, tr2)
        else (.returned 0 (some (.wrap "while waiting for orchestration to finish" err)), tr2)
      | some ((none, none), tr2) => (.panicked, tr2)
      | some ((some o1, none), tr2) =>
        let o2 := { o1 with UpdatedAt := m.env.now tr2 }
        let tr3 := tr2 ++ [Call.orchestrationUpdate o2]
        match m.env.orchestrationUpdate tr2 o2 with
        | some _ => (.returned m.pollingInterval none, tr3)
        | none => (.returned 0 none, tr3)

/-- The method `Execute`; `ticks` bounds the number of poll ticks that are followed. -/
def Execute (m : orchestrationManager) (orchestrationID : String) (ticks : Nat)
    (tr : Trace) : Outcome × Trace :=
  let tr1 := tr ++ [Call.orchestrationGetByID orchestrationID]
  match m.env.orchestrationGetByID tr orchestrationID with
  | .failed _ => (.returned Minute none, tr1)
  | .failedWith o err =>
    match failOrchestration m o (.wrap "failed to get orchestration" err) tr1 with
    | ((d, e), tr2) => (.returned d e, tr2)
  | .found o =>
    match getMaintenancePolicy m tr1 with
    | ((maintenancePolicy, _), tr2) =>
      match resolveOperations m o maintenancePolicy tr2 with
      | ((_, o1, some err), tr3) =>
        match failOrchestration m o1 (.wrap "failed to resolve operations" err) tr3 with
        | ((d, e), tr4) => (.returned d e, tr4)
      | ((operations, o1, none), tr3) =>
        let tr4 := tr3 ++ [Call.orchestrationUpdate o1]
        match m.env.orchestrationUpdate tr3 o1 with
        | some _ => (.returned m.pollingInterval none, tr4)
        | none =>
          if o1.IsFinished = true then (.returned 0 none, tr4)
          else
            let strategy := resolveStrategy m o1.Parameters.Strategy.Typ
            let tr5 := tr4 ++ [Call.disabledCheck]
            if m.env.disabledCheck tr4 = false then
              match sendNotificationCreate m o1 operations tr5 with
              | ((o2, some err), tr6) =>
                if m.env.IsTemporaryError err = true then (.returned (5 * Second) none, tr6)
                else runStrategy m o2 operations strategy ticks tr6
              | ((o2, none), tr6) => runStrategy m o2 operations strategy ticks tr6
            else runStrategy m o1 operations strategy ticks tr5

/-! ## Reprocessing at start-up

The functions `reprocessOrchestrations`, `processOrchestration` and
`processCancelingOrchestrations` of `cmd/broker/main.go`.  The queue is the list of the ids
added to it, oldest first. -/

/-- What the reprocessing calls: the two storages and `sort.Slice`.  `List` takes the types
and the states of the filter; the two operation listings take the orchestration id and the
states of the filter and return the count and the error.  `sortSlice` stands for
`sort.Slice` with the comparison `orchestrations[i].CreatedAt.Before(orchestrations[j].CreatedAt)`. -/
structure Startup where
  ListUpgradeKymaOperationsByOrchestrationID : String → List String → Int × Option GoError
  ListUpgradeClusterOperationsByOrchestrationID : String → List String → Int × Option GoError
  sortSlice : List Orchestration → List Orchestration
  List : List String → List String → Except GoError (List Orchestration)

/-- The variables `count` and `err` after the listing in the loop body of
`processCancelingOrchestrations`; for a type other than the two upgrade types nothing is
listed and they keep the values 0 and nil. -/
def inProgressCount (env : Startup) (orchestrationType : String) (o : Orchestration) :
    Int × Option GoError :=
  if orchestrationType = UpgradeKymaOrchestration then
    env.ListUpgradeKymaOperationsByOrchestrationID o.OrchestrationID [InProgress]
  else if orchestrationType = UpgradeClusterOrchestration then
    env.ListUpgradeClusterOperationsByOrchestrationID o.OrchestrationID [InProgress]
  else (0, none)

/-- The loop `for _, o := range orchestrations` of `processCancelingOrchestrations`. -/
def cancelingLoop (env : Startup) (orchestrationType : String) :
    List Orchestration → List String → List String × Option GoError
  | [], queue => (queue, none)
  | o :: rest, queue =>
    match inProgressCount env orchestrationType o with
    | (_, some err) =>
      (queue, some (.wrap ("while listing " ++ orchestrationType ++
        " operations for orchestration " ++ o.OrchestrationID) err))
    | (count, none) =>
      if count > 0 then (queue ++ [o.OrchestrationID], none)
      else cancelingLoop env orchestrationType rest queue

def processCancelingOrchestrations (env : Startup) (orchestrationType : String)
    (queue : List String) : List String × Option GoError :=
  match env.List [orchestrationType] [Canceling] with
  | .error err =>
    (queue, some (.wrap ("while getting canceling " ++ orchestrationType ++
      " orchestrations from storage") err))
  | .ok orchestrations =>
    cancelingLoop env orchestrationType (env.sortSlice orchestrations) queue

def processOrchestration (env : Startup) (orchestrationType : String) (state : String)
    (queue : List String) : List String × Option GoError :=
  match env.List [orchestrationType] [state] with
  | .error err =>
    (queue, some (.wrap ("while getting " ++ state ++ " " ++ orchestrationType ++
      " orchestrations from storage") err))
  | .ok orchestrations =>
    (queue ++ (env.sortSlice orchestrations).map fun o => o.OrchestrationID, none)

def reprocessOrchestrations (env : Startup) (orchestrationType : String)
    (queue : List String) : List String × Option GoError :=
  match processCancelingOrchestrations env orchestrationType queue with
  | (q1, some err) =>
    (q1, some (.wrap ("while processing canceled " ++ orchestrationType ++ " orchestrations")
      err))
  | (q1, none) =>
    match processOrchestration env orchestrationType InProgress q1 with
    | (q2, some err) =>
      (q2, some (.wrap ("while processing in progress " ++ orchestrationType ++
        " orchestrations") err))
    | (q2, none) =>
      match processOrchestration env orchestrationType Pending q2 with
      | (q3, some err) =>
        (q3, some (.wrap ("while processing pending " ++ orchestrationType ++
          " orchestrations") err))
      | (q3, none) =>
        match processOrchestration env orchestrationType Retrying q3 with
        | (q4, some err) =>
          (q4, some (.wrap ("while processing retrying " ++ orchestrationType ++
            " orchestrations") err))
        | (q4, none) => (q4, none)

/-! ## The step manager

The manager that drives one operation through its steps is outside the sources at hand; it
is modelled from its description and from the calls the test `TestManager_Execute` makes
(`NewManager`, `InitStep`, `AddStep`, `Execute`).  The step of that test, `testStep`, is
translated from the test. -/

/-- Modelled from the spec: the operation record the step manager works on, with its id, its
state, its description, and the stages it has completed (the progress persisted on it). -/
structure StepOperation where
  ID : String
  State : String
  Description : String
  FinishedStages : List Int
deriving DecidableEq, Repr

/-- Modelled from the spec: a step, with the name and the `Run` method of the interface. -/
structure Step where
  Name : String
  Run : StepOperation → StepOperation × Duration × Option GoError

/-- Modelled from the spec: the step-processed event published after a step, with the name
of the step, the operation, the delay and the error the step returned. -/
structure StepProcessed where
  StepName : String
  Operation : StepOperation
  When : Duration
  Error : Option GoError
deriving DecidableEq, Repr

/-- Modelled from the spec: the step manager: the init step, the steps with their stage
(weight) in the order of their registration, and the check of the wall-clock timeout made
before a step attempt (the argument is the number of steps the call has run so far). -/
structure Manager where
  initStep : Option Step
  steps : List (Int × Step)
  expired : Nat → Bool

/-- Modelled from the spec: a manager without steps. -/
def NewManager (expired : Nat → Bool) : Manager := ⟨none, [], expired⟩

/-- Modelled from the spec: registers the init step. -/
def Manager.InitStep (m : Manager) (step : Step) : Manager := { m with initStep := some step }

/-- Modelled from the spec: registers a step in the stage of the given weight, after the
steps registered before. -/
def Manager.AddStep (m : Manager) (weight : Int) (step : Step) : Manager :=
  { m with steps := m.steps ++ [(weight, step)] }

/-- Modelled from the spec: the stages in the order they are run, by ascending weight. -/
def Manager.sortWeight (m : Manager) : List Int :=
  ((m.steps.map Prod.fst).dedup).insertionSort fun a b => a ≤ b

/-- Modelled from the spec: the steps of one stage, in registration order. -/
def Manager.stage (m : Manager) (weight : Int) : List Step :=
  (m.steps.filter fun ws => decide (ws.1 = weight)).map Prod.snd

/-- Modelled from the spec: the stages still to run for an operation: the current stage (the
first one not completed) and the stages after it. -/
def Manager.stagesFor (m : Manager) (operation : StepOperation) : List Int :=
  m.sortWeight.dropWhile fun w => decide (w ∈ operation.FinishedStages)

/-- The operation and the events published so far in a call of `Manager.Execute`. -/
structure Progress where
  operation : StepOperation
  events : List StepProcessed
deriving DecidableEq, Repr

/-- The error of an operation that has reached the time limit. -/
def timeLimitError : GoError := .errorf "operation has reached the time limit"

/-- Modelled from the spec: one step attempt.  The timeout fails the operation before the
attempt; otherwise the step is run and the event is published; an error marks the
operation Failed and ends the call with `(0, error)`; a delay above 0 ends the call with
the delay.  The result is `Except.error` with the values the call returns when it ends
here. -/
def Manager.runStep (m : Manager) (step : Step) (p : Progress) :
    Progress × Except (Duration × Option GoError) Unit :=
  if m.expired p.events.length = true then
    ({ p with operation := { p.operation with State := Failed } }, .error (0, some timeLimitError))
  else
    match step.Run p.operation with
    | (operation, when, err) =>
      let events := p.events ++ [⟨step.Name, operation, when, err⟩]
      match err with
      | some e => (⟨{ operation with State := Failed }, events⟩, .error (0, some e))
      | none =>
        if when > 0 then (⟨operation, events⟩, .error (when, none))
        else (⟨operation, events⟩, .ok ())

/-- Modelled from the spec: the steps of a stage are run in their order until one ends the
call. -/
def Manager.runSteps (m : Manager) :
    List Step → Progress → Progress × Except (Duration × Option GoError) Unit
  | [], p => (p, .ok ())
  | step :: rest, p =>
    match m.runStep step p with
    | (p1, .error r) => (p1, .error r)
    | (p1, .ok _) => m.runSteps rest p1

/-- Modelled from the spec: the stages are run in their order; a stage whose steps all
returned `(0, nil)` is recorded on the operation as completed. -/
def Manager.runStages (m : Manager) :
    List Int → Progress → Progress × Except (Duration × Option GoError) Unit
  | [], p => (p, .ok ())
  | weight :: rest, p =>
    match m.runSteps (m.stage weight) p with
    | (p1, .error r) => (p1, .error r)
    | (p1, .ok _) =>
      m.runStages rest { p1 with
        operation := { p1.operation with
          FinishedStages := p1.operation.FinishedStages ++ [weight] } }

/-- What a call of `Manager.Execute` returns and leaves: the operation as persisted (`none`
when it was not found), the delay, the error, and the events published, oldest first. -/
structure StepResult where
  operation : Option StepOperation
  delay : Duration
  err : Option GoError
  events : List StepProcessed
deriving DecidableEq, Repr

/-- Modelled from the spec: the steps a call attempts for an operation, in their order: the
init step, then the steps of the stages still to run. -/
def Manager.pipeline (m : Manager) (operation : StepOperation) : List Step :=
  m.initStep.toList ++ (m.stagesFor operation).flatMap m.stage

/-- Modelled from the spec: `Execute(operationID)` of the step manager.  The operation is
loaded from the store; a terminal operation is left as it is; the init step and then the
stages are run; when all stages are done the operation is marked Succeeded. -/
def Manager.Execute (m : Manager) (store : List StepOperation) (operationID : String) :
    StepResult :=
  match store.find? fun op => op.ID == operationID with
  | none => ⟨none, 0, some (.errorf ("operation " ++ operationID ++ " not found")), []⟩
  | some operation =>
    if operation.State = Succeeded ∨ operation.State = Failed then ⟨some operation, 0, none, []⟩
    else
      match m.runSteps m.initStep.toList ⟨operation, []⟩ with
      | (p1, .error r) => ⟨some p1.operation, r.1, r.2, p1.events⟩
      | (p1, .ok _) =>
        match m.runStages (m.stagesFor operation) p1 with
        | (p2, .error r) => ⟨some p2.operation, r.1, r.2, p2.events⟩
        | (p2, .ok _) => ⟨some { p2.operation with State := Succeeded }, 0, none, p2.events⟩

/-- The operation ids of the test. -/
def operationIDSuccess : String := "5b954fa8-fc34-4164-96e9-49e3b6741278"

def operationIDFailed : String := "69b8ee2b-5c21-4997-9070-4fd356b24c46"

def operationIDRepeat : String := "ca317a1e-ddab-44d2-b2ba-7bbd9df9066f"

/-- The step of the test. -/
structure testStep where
  name : String
deriving DecidableEq, Repr

def testStep.Name (ts : testStep) : String := ts.name

/-- The method `Run` of the step of the test: it appends its name to the description, writes
the operation to the store (the in-memory store of the test returns what was written) and
returns an error, a delay of 10 or success by the id of the operation. -/
def testStep.Run (ts : testStep) (operation : StepOperation) :
    StepOperation × Duration × Option GoError :=
  let operation := { operation with Description := operation.Description ++ " " ++ ts.name }
  let updated := operation
  if operation.ID = operationIDFailed then
    (updated, 0, some (.errorf ("operation " ++ operation.ID ++ " failed")))
  else if operation.ID = operationIDRepeat then (updated, 10, none)
  else (updated, 0, none)

/-- The step of the test as a value of the interface. -/
def testStep.toStep (ts : testStep) : Step := ⟨ts.Name, ts.Run⟩

/-! ## A concrete set of collaborators

Every call succeeds: the store holds no orchestration, the resolver finds no runtime, the
factory creates the operation `op-<instance id>` for a runtime, the strategy answers
`exec-1`, notifications are disabled and the clock stands at zero.  Patterns are plain
words, for which `regexp.MatchString` is the substring test. -/

def quietEnv : Collaborators where
  orchestrationGetByID := fun _ id => .failed (.external "notFound" ("no orchestration " ++ id))
  orchestrationUpdate := fun _ _ => none
  getOperationStats := fun _ _ => .ok []
  instanceGetByID := fun _ id => .ok ⟨id⟩
  resolve := fun _ _ => ([], none)
  newOperation := fun _ _ r _ _ => .ok ⟨r, "op-" ++ r.InstanceID⟩
  resumeOperations := fun _ _ => ([], none)
  cancelOperations := fun _ _ => none
  retryOperations := fun _ _ => ([], none)
  strategyExecute := fun _ _ _ _ => .ok "exec-1"
  strategyInsert := fun _ _ _ _ _ => none
  disabledCheck := fun _ => true
  newBundle := fun _ _ _ => none
  createNotificationEvent := fun _ _ => none
  cancelNotificationEvent := fun _ _ => none
  configMapGet := fun _ _ _ => .error (.external "notFound" "no config map")
  now := fun _ => Time.zero
  Local := utcLoc
  regexpMatchString := fun pattern value => some (stringsContains value.data pattern.data)
  unmarshalPolicy := fun _ => (MaintenancePolicy.empty, none)
  IsTemporaryError := fun e =>
    match e with
    | .external kind _ => kind == "temporary"
    | _ => false
  IsNotFound := fun e =>
    match e with
    | .external kind _ => kind == "notFound"
    | _ => false
  quote := fun s => "\"" ++ s ++ "\""
  timeString := fun t => toString t.sec
  timeFormat := fun t => toString t.sec
  KymaMaintenanceNumber := "1"
  KubernetesMaintenanceNumber := "2"

def quietManager : orchestrationManager where
  env := quietEnv
  pollingInterval := 10 * Second
  configNamespace := "kcp-system"
  configName := "orchestration-config"
  kymaVersion := "2.0"
  kubernetesVersion := "1.25"
  speedFactor := 0

def fixParameters : Parameters where
  Targets := ⟨["all"], []⟩
  Strategy := ⟨ParallelStrategy, false, Time.zero⟩
  Kyma := none
  Kubernetes := none
  RetryOperation := ⟨[], false⟩
  NotificationState := ""

/-- An orchestration `o-1` in the given state. -/
def fixOrchestration (state : String) : Orchestration where
  OrchestrationID := "o-1"
  Typ := UpgradeKymaOrchestration
  State := state
  Description := "Scheduled 2 operations"
  Parameters := fixParameters
  CreatedAt := Time.zero
  UpdatedAt := Time.zero

def fixRuntime (instanceID : String) : Runtime where
  InstanceID := instanceID
  RuntimeID := "r-" ++ instanceID
  GlobalAccountID := "ga"
  Plan := "azure"
  Region := "westeurope"
  MaintenanceWindowBegin := Time.zero
  MaintenanceWindowEnd := Time.zero
  MaintenanceDays := []

/-- The resolver finds the two runtimes of the instances `i-1` and `i-2`. -/
def twoRuntimesManager : orchestrationManager :=
  { quietManager with
    env := { quietEnv with resolve := fun _ _ => ([fixRuntime "i-1", fixRuntime "i-2"], none) } }

/-- The store holds the orchestration `o-1` in state Retrying with an empty retry list. -/
def retryingEmptyManager : orchestrationManager :=
  { quietManager with
    env := { quietEnv with orchestrationGetByID := fun _ _ => .found (fixOrchestration Retrying) } }

/-- The orchestration `o-1` in state Canceling with a request to retry operation `op-1`. -/
def cancelingRetryOrchestration : Orchestration :=
  { fixOrchestration Canceling with
    Parameters := { fixParameters with RetryOperation := ⟨["op-1"], false⟩ } }

/-- The first load of the orchestration (by `Execute`, on an empty trace) finds `o-1` in
state InProgress; every later load finds it Canceling with a request to retry `op-1`, the
operation of instance `i-1`.  The store reports the given operation counts. -/
def cancelingRetryManager (stats : Stats) : orchestrationManager :=
  { quietManager with
    env := { quietEnv with
      orchestrationGetByID := fun tr _ =>
        if tr.isEmpty then .found (fixOrchestration InProgress)
        else .found cancelingRetryOrchestration
      getOperationStats := fun _ _ => .ok stats
      retryOperations := fun _ _ => ([⟨fixRuntime "i-1", "op-1"⟩], none)
      resumeOperations := fun _ _ => ([⟨fixRuntime "i-2", "op-2"⟩], none)
      resolve := fun _ _ => ([fixRuntime "i-1", fixRuntime "i-2"], none) } }

/-- The store accepts no write; `o-1` is InProgress with a request to retry `op-1`. -/
def failingUpdateManager : orchestrationManager :=
  { quietManager with
    env := { quietEnv with
      orchestrationGetByID := fun _ _ =>
        .found { fixOrchestration InProgress with
          Parameters := { fixParameters with RetryOperation := ⟨["op-1"], false⟩ } }
      orchestrationUpdate := fun _ _ => some (.external "conflict" "stale version") } }

/-- The count of a state in the stats; a state absent from the map counts as 0. -/
def Stats.count (stats : Stats) (k : String) : Int := (stats.get k).1

/-- The orchestration `o-1` in state Retrying, with the maintenance-window flag set, a
request to retry `op-1` and the given Immediate flag and description. -/
def retryingOrchestration (immediate : Bool) (description : String) : Orchestration :=
  { fixOrchestration Retrying with
    Description := description
    Parameters := { fixParameters with
      Strategy := ⟨ParallelStrategy, true, Time.zero⟩
      RetryOperation := ⟨["op-1"], immediate⟩ } }

/-- The factory finds the operation `op-1` of instance `i-1` for a retry request and the
resolver finds the runtimes of `i-1` and `i-2`. -/
def retryManager : orchestrationManager :=
  { quietManager with
    env := { quietEnv with
      retryOperations := fun _ _ => ([⟨fixRuntime "i-1", "op-1"⟩], none)
      resolve := fun _ _ => ([fixRuntime "i-1", fixRuntime "i-2"], none) } }

/-- The policy without rules whose default is the window from 02:00 to 04:00 UTC on Monday
and Wednesday. -/
def fixPolicy : MaintenancePolicy :=
  ⟨[], ⟨["Mon", "Wed"], "020000+0000", "040000+0000"⟩⟩

/-- The policy of `fixPolicy` with one rule before the default, for runtimes of plan `gcp`,
and a policy of three rules of which the second and the third match the plan `azure`. -/
def fixPolicyWithRule : MaintenancePolicy :=
  { fixPolicy with Rules := [⟨⟨"gcp", "", ""⟩, ["Sat"], "100000+0000", "110000+0000"⟩] }

def threeRulesPolicy : MaintenancePolicy :=
  { fixPolicy with
    Rules := [⟨⟨"gcp", "", ""⟩, ["Sat"], "100000+0000", "110000+0000"⟩,
      ⟨⟨"azure", "", "europe"⟩, ["Fri"], "", "230000+0100"⟩,
      ⟨⟨"azure", "", ""⟩, ["Sun"], "120000+0000", "130000+0000"⟩] }

/-- Tuesday 2024-01-02, 13:53:20 UTC (day 738886 since 0001-01-01). -/
def fixTuesday : Time := Date 738886 13 53 20 0 utcLoc

/-- Thursday 2024-01-04, 21:00:00 at UTC-08:00, which is Friday 2024-01-05, 05:00:00 UTC. -/
def fixThursdayWest : Time := Date 738888 21 0 0 0 (FixedZone (-28800))

/-- The policy without rules whose default is the window from 01:00 to 02:00 UTC on
Friday. -/
def fridayPolicy : MaintenancePolicy :=
  ⟨[], ⟨["Fri"], "010000+0000", "020000+0000"⟩⟩

/-- The policy without rules whose default gives the window from 02:00 to 04:00 UTC and
no days. -/
def noDaysPolicy : MaintenancePolicy :=
  ⟨[], ⟨[], "020000+0000", "040000+0000"⟩⟩

/-- A location with the offsets of central Europe in 2030: UTC+01:00, then UTC+02:00 from
2030-03-31 01:00 UTC on, and UTC+01:00 again from 2030-10-27 01:00 UTC on. -/
def cetLoc : Location := ⟨3600, [(64036746000, 7200), (64054890000, 3600)]⟩

/-- Sunday 2030-10-27, 13:00:00 in `cetLoc` (12:00 UTC), the day the offset goes back. -/
def fixAutumnSunday : Time := ⟨64054929600, 0, cetLoc⟩

/-- The policy without rules whose default is the window that begins and ends at 00:00 at
UTC+01:00, on every day of the week. -/
def midnightPolicy : MaintenancePolicy :=
  ⟨[], ⟨["Mon", "Tue", "Wed", "Thu", "Fri", "Sat", "Sun"], "000000+0100", "000000+0100"⟩⟩

/-- Wednesday 2024-01-03, 13:53:20 UTC. -/
def fixWednesday : Time := Date 738887 13 53 20 0 utcLoc

/-- Tuesday 2024-01-02, 23:30:00 UTC. -/
def fixTuesdayNight : Time := Date 738886 23 30 0 0 utcLoc

/-- Tuesday 2024-01-09, 13:53:20 UTC, a week after `fixTuesday`. -/
def fixNextTuesday : Time := Date 738893 13 53 20 0 utcLoc

/-- The policy without rules whose default is the window from 00:00 to 01:00 at UTC+02:00 on
every day of the week. -/
def easternPolicy : MaintenancePolicy :=
  ⟨[], ⟨["Mon", "Tue", "Wed", "Thu", "Fri", "Sat", "Sun"], "000000+0200", "010000+0200"⟩⟩

/-- The policy without rules whose default is the window from 23:00 to 01:00 UTC on every
day of the week. -/
def nightPolicy : MaintenancePolicy :=
  ⟨[], ⟨["Mon", "Tue", "Wed", "Thu", "Fri", "Sat", "Sun"], "230000+0000", "010000+0000"⟩⟩

/-- The store returns the record of `o-1` (InProgress) together with an error on load. -/
def failedLoadManager : orchestrationManager :=
  { quietManager with
    env := { quietEnv with
      orchestrationGetByID := fun _ _ =>
        .failedWith (fixOrchestration InProgress) (.external "io" "connection reset") } }

/-- The store holds `o-1` in state Succeeded; the factory fails to resume operations. -/
def failingResumeManager : orchestrationManager :=
  { quietManager with
    env := { quietEnv with
      orchestrationGetByID := fun _ _ => .found (fixOrchestration Succeeded)
      resumeOperations := fun _ _ => ([], some (.external "io" "connection reset")) } }

/-- The store holds `o-1` in the given state and accepts no write. -/
def readOnlyManager (state : String) : orchestrationManager :=
  { quietManager with
    env := { quietEnv with
      orchestrationGetByID := fun _ _ => .found (fixOrchestration state)
      orchestrationUpdate := fun _ _ => some (.external "conflict" "stale version") } }

/-- The store holds `o-1` in the given state and accepts every write. -/
def storedManager (state : String) : orchestrationManager :=
  { quietManager with
    env := { quietEnv with
      orchestrationGetByID := fun _ _ => .found (fixOrchestration state) } }

/-- The store holds `o-1` in state Pending; the resolver fails. -/
def failingResolverManager : orchestrationManager :=
  { quietManager with
    env := { quietEnv with
      orchestrationGetByID := fun _ _ => .found (fixOrchestration Pending)
      resolve := fun _ _ => ([], some (.external "io" "resolver down")) } }

/-- The orchestration `o-1` in state InProgress with the given strategy type. -/
def typedOrchestration (sType : String) : Orchestration :=
  { fixOrchestration InProgress with
    Parameters := { fixParameters with Strategy := ⟨sType, false, Time.zero⟩ } }

/-- The store holds `o-1` in state InProgress with the given strategy type; the factory
resumes the operation `op-2` of instance `i-2`. -/
def typedManager (sType : String) : orchestrationManager :=
  { quietManager with
    env := { quietEnv with
      orchestrationGetByID := fun _ _ => .found (typedOrchestration sType)
      resumeOperations := fun _ _ => ([⟨fixRuntime "i-2", "op-2"⟩], none) } }

/-- The first load in the poll loop finds `o-1` InProgress with a request to retry `op-1`
while one operation is in progress; the strategy refuses the insertion and starts the batch
`exec-2` instead.  Every later load finds `o-1` Canceling and no operation left. -/
def secondBatchManager : orchestrationManager :=
  { quietManager with
    env := { quietEnv with
      orchestrationGetByID := fun tr _ =>
        if tr.isEmpty then
          .found { fixOrchestration InProgress with
            Parameters := { fixParameters with RetryOperation := ⟨["op-1"], false⟩ } }
        else .found (fixOrchestration Canceling)
      getOperationStats := fun tr _ => if tr.length < 2 then .ok [(InProgress, 1)] else .ok []
      retryOperations := fun _ _ => ([⟨fixRuntime "i-1", "op-1"⟩], none)
      resolve := fun _ _ => ([fixRuntime "i-1", fixRuntime "i-2"], none)
      strategyInsert := fun _ _ _ _ _ => some (.errorf "execution not found")
      strategyExecute := fun _ _ _ _ => .ok "exec-2" } }

/-- The poll loop of `waitForCompletion` for `secondBatchManager`, started with the
execution `exec-1`, and what two ticks of it leave. -/
def secondBatchStart : PollState :=
  { o := fixOrchestration InProgress, canceled := false, stats := [], execIDs := ["exec-1"],
    execID := "exec-1" }

def secondBatchEnd : (PollState × Option GoError) × Trace :=
  (pollLoop secondBatchManager (.parallel none) "o-1" 2 secondBatchStart []).getD
    ((secondBatchStart, none), [])

/-- Notifications are enabled, the notification bundle is built and sending the created
event fails with an error of the given kind; the store holds `o-1` in state InProgress and
the factory resumes the operation `op-2` of instance `i-2`. -/
def sendFailingManager (kind : String) : orchestrationManager :=
  { quietManager with
    env := { quietEnv with
      orchestrationGetByID := fun _ _ => .found (fixOrchestration InProgress)
      resumeOperations := fun _ _ => ([⟨fixRuntime "i-2", "op-2"⟩], none)
      disabledCheck := fun _ => false
      createNotificationEvent := fun _ _ => some (.external kind "cannot send") } }

/-- The Canceling orchestration with the given id, created at the given second. -/
def cancelingCreatedAt (orchestrationID : String) (sec : Int) : Orchestration :=
  { fixOrchestration Canceling with
    OrchestrationID := orchestrationID
    CreatedAt := ⟨sec, 0, utcLoc⟩ }

/-- The store lists three Canceling orchestrations, not in the order of their creation:
`o-b` (created second, two operations in progress), `o-a` (created first, none in progress)
and `o-c` (created last, one in progress).  The sorting is an insertion sort. -/
def fixStartup : Startup where
  List := fun _ states =>
    if states = [Canceling] then
      .ok [cancelingCreatedAt "o-b" 20, cancelingCreatedAt "o-a" 10,
        cancelingCreatedAt "o-c" 30]
    else .ok []
  ListUpgradeKymaOperationsByOrchestrationID := fun id _ =>
    if id = "o-b" then (2, none) else if id = "o-c" then (1, none) else (0, none)
  ListUpgradeClusterOperationsByOrchestrationID := fun _ _ => (0, none)
  sortSlice := fun l => l.insertionSort fun a b => a.CreatedAt.Before b.CreatedAt = true

/-- The operation `fixDeprovisionOperation(ID)` of the test: InProgress, with an empty
description, and no stage completed. -/
def fixDeprovisionOperation (ID : String) : StepOperation :=
  { ID := ID, State := InProgress, Description := "", FinishedStages := [] }

/-- The manager of `TestManager_Execute`: the init step `init`, then `final` registered with
weight 2 and `one` and `two` registered with weight 1; the time limit is never reached. -/
def fixStepManager : Manager :=
  ((((NewManager fun _ => false).InitStep (testStep.mk "init").toStep).AddStep 2
    (testStep.mk "final").toStep).AddStep 1 (testStep.mk "one").toStep).AddStep 1
    (testStep.mk "two").toStep

/-- The same steps with the stages registered in ascending order. -/
def fixStepManagerAscending : Manager :=
  ((((NewManager fun _ => false).InitStep (testStep.mk "init").toStep).AddStep 1
    (testStep.mk "one").toStep).AddStep 1 (testStep.mk "two").toStep).AddStep 2
    (testStep.mk "final").toStep

/-- The instance ids of the runtimes for which `NewOperation` was called, in call order. -/
def newOperationCalls (tr : Trace) : List String :=
  tr.filterMap fun c =>
    match c with
    | .newOperation _ r _ _ => some r.InstanceID
    | _ => none

/-- The window fields of the runtimes for which `NewOperation` was called, in call order. -/
def newOperationWindows (tr : Trace) : List (Time × Time × List String) :=
  tr.filterMap fun c =>
    match c with
    | .newOperation _ r _ _ =>
      some (r.MaintenanceWindowBegin, r.MaintenanceWindowEnd, r.MaintenanceDays)
    | _ => none

/-- The orchestrations written with `Update`, in call order. -/
def updateCalls (tr : Trace) : List Orchestration :=
  tr.filterMap fun c =>
    match c with
    | .orchestrationUpdate o => some o
    | _ => none

/-- The calls that belong to the steps of `Execute` after the orchestration was persisted:
the notification calls, the calls of the execution strategy, and the calls of the poll loop
and of its end (operation counts, cancelling of operations). -/
def Call.afterPersist : Call → Bool
  | .disabledCheck => true
  | .newBundle _ _ => true
  | .createNotificationEvent _ => true
  | .cancelNotificationEvent _ => true
  | .strategyExecute _ _ => true
  | .strategyInsert _ _ _ => true
  | .strategyCancel _ => true
  | .getOperationStats _ => true
  | .cancelOperations _ => true
  | _ => false

/-- The calls of `strategy.Execute`. -/
def Call.isStrategyExecute : Call → Bool
  | .strategyExecute _ _ => true
  | _ => false

/-- `op` is an operation the factory returned for runtime `r` of orchestration `o`, asked to
create it in state Pending after the window fields of `r` were set. -/
def CreatedFor (m : orchestrationManager) (o : Orchestration) (policy : MaintenancePolicy)
    (updateWindow : Bool) (r : Runtime) (op : RuntimeOperation) : Prop :=
  ∃ tr1 tr2 inst,
    m.env.newOperation tr2 o (setMaintenanceWindow m o policy updateWindow tr1 r) inst Pending =
      .ok op

/-- The error `resolveOperations` returns for a Retrying orchestration without retry
operations, as `Execute` wraps it. -/
def emptyRetryError : GoError :=
  .wrap "failed to resolve operations" (.wrap "while retrying operations"
    (.errorf "o.Parameters.RetryOperation.RetryOperations is empty"))

/-- The execution id the strategy returned for a call, when the call is `strategy.Execute`
made after the calls `pre` and it returned no error. -/
def startedID (m : orchestrationManager) (strategy : Strategy) (pre : Trace) :
    Call → List String
  | .strategyExecute ops spec =>
    match m.env.strategyExecute pre strategy ops spec with
    | .ok execID => [execID]
    | .error _ => []
  | _ => []

/-- The execution ids the strategy returned for the `strategy.Execute` calls of a stretch
of the trace that follows the calls `pre`, oldest first. -/
def startedIDs (m : orchestrationManager) (strategy : Strategy) : Trace → Trace → List String
  | _, [] => []
  | pre, c :: rest => startedID m strategy pre c ++ startedIDs m strategy (pre ++ [c]) rest

def cancelledID : Call → List String
  | .strategyCancel execID => [execID]
  | _ => []

/-- The execution ids passed to `strategy.Cancel` in a stretch of the trace, oldest first. -/
def cancelledIDs : Trace → List String
  | [] => []
  | c :: rest => cancelledID c ++ cancelledIDs rest

/-- The position of a notification state in the order unset, Pending, Created, Cancelled
(any other text comes last). -/
def notificationRank (state : String) : Nat :=
  if state = "" then 0
  else if state = NotificationPending then 1
  else if state = NotificationCreated then 2
  else if state = NotificationCancelled then 3
  else 4

/-- What a run of the steps `steps`, started with the progress `p0`, leaves: the events it
published are those of the first `k` steps; all but the last report success; when the run
does not end the call all `k = steps.length` steps report success; an event with a delay
above 0 or with an error fixes what the call returns and the operation it leaves. -/
def StepsRan (steps : List Step) (p0 : Progress)
    (out : Progress × Except (Duration × Option GoError) Unit) : Prop :=
  ∃ new : List StepProcessed, out.1.events = p0.events ++ new ∧
    ∃ k, k ≤ steps.length ∧
      new.map (fun e => e.StepName) = (steps.take k).map (fun s => s.Name) ∧
      (∀ e ∈ new.dropLast, e.Error = none ∧ e.When ≤ 0) ∧
      (out.2 = .ok () → k = steps.length ∧ ∀ e ∈ new, e.Error = none ∧ e.When ≤ 0) ∧
      (∀ e ∈ new, e.Error = none → e.When > 0 →
        out.2 = .error (e.When, none) ∧ out.1.operation = e.Operation) ∧
      (∀ e ∈ new, ∀ er, e.Error = some er →
        out.2 = .error (0, some er) ∧ out.1.operation = { e.Operation with State := Failed })

/-! ## Theorems -/

/-- C1: `resolveOrchestration` gives state Canceled to a Canceling orchestration when
`CancelOperations` succeeds and the cancel notification returns no temporary error (in
particular when it does not fail); for any other input state it returns the input with
state Failed when `stats[Failed] > 0` and Succeeded when `stats[Failed] = 0`; and it returns
state Canceled only when the input state was Canceling. -/
theorem resolveOrchestration_final_state (m : orchestrationManager) (o : Orchestration)
    (execIDs : List String) (stats : Stats) (tr : Trace) :
    (o.State = Canceling → m.env.cancelOperations tr o.OrchestrationID = none →
      (∀ tr1 err, (sendNotificationCancel m o tr1).1.2 = some err →
        m.env.IsTemporaryError err = false) →
      ∃ o1, (resolveOrchestration m o execIDs stats tr).1 = (some o1, none) ∧
        o1.State = Canceled) ∧
    (o.State ≠ Canceling → 0 < (stats.get Failed).1 →
      resolveOrchestration m o execIDs stats tr = ((some { o with State := Failed }, none), tr)) ∧
    (o.State ≠ Canceling → (stats.get Failed).1 = 0 →
      resolveOrchestration m o execIDs stats tr =
        ((some { o with State := Succeeded }, none), tr)) ∧
    (∀ o1, (resolveOrchestration m o execIDs stats tr).1.1 = some o1 →
      o1.State = Canceled → o.State = Canceling) := by
  refine ⟨?_, ?_, ?_, ?_⟩
  · intro hs hc hn
    unfold resolveOrchestration
    simp only [hs, if_true, hc]
    split
    · split
      · rename_i o1 err tr4 heq
        split
        · rename_i htemp
          have := hn _ err (by rw [heq])
          rw [this] at htemp
          exact absurd htemp (by decide)
        · exact ⟨_, rfl, rfl⟩
      · exact ⟨_, rfl, rfl⟩
    · exact ⟨_, rfl, rfl⟩
  · intro hs hf
    unfold resolveOrchestration
    simp [hs, hf]
  · intro hs hf
    unfold resolveOrchestration
    simp [hs, hf]
  · intro o1 h1 h2
    by_contra hs
    unfold resolveOrchestration at h1
    simp only [hs, if_false] at h1
    split at h1 <;> simp at h1 <;> subst h1 <;> simp [Failed, Succeeded, Canceled] at h2

/-- Witness for C1: a Canceling orchestration ends Canceled, an InProgress one ends Failed
with one Failed operation and Succeeded with none. -/
theorem resolveOrchestration_final_state_witness :
    (∃ o1, (resolveOrchestration quietManager (fixOrchestration Canceling) ["exec-1"] [] []).1 =
        (some o1, none) ∧ o1.State = Canceled) ∧
    resolveOrchestration quietManager (fixOrchestration InProgress) ["exec-1"]
      [(Succeeded, 1), (Failed, 1)] [] =
        ((some { fixOrchestration InProgress with State := Failed }, none), []) ∧
    resolveOrchestration quietManager (fixOrchestration InProgress) ["exec-1"]
      [(Succeeded, 2)] [] =
        ((some { fixOrchestration InProgress with State := Succeeded }, none), []) :=
  ⟨(resolveOrchestration_final_state quietManager (fixOrchestration Canceling)
      ["exec-1"] [] []).1 (by decide) (by decide)
      (by intro tr1 err h; simp [sendNotificationCancel, fixOrchestration, fixParameters,
            NotificationCreated] at h),
    (resolveOrchestration_final_state quietManager (fixOrchestration InProgress)
      ["exec-1"] [(Succeeded, 1), (Failed, 1)] []).2.1 (by decide) (by decide),
    (resolveOrchestration_final_state quietManager (fixOrchestration InProgress)
      ["exec-1"] [(Succeeded, 2)] []).2.2.1 (by decide) (by decide)⟩

theorem setMaintenanceWindow_InstanceID (m : orchestrationManager) (o : Orchestration)
    (policy : MaintenancePolicy) (updateWindow : Bool) (tr : Trace) (r : Runtime) :
    (setMaintenanceWindow m o policy updateWindow tr r).InstanceID = r.InstanceID := by
  unfold setMaintenanceWindow
  split
  · rfl
  · split <;> rfl

theorem newOperationCalls_append (tr1 tr2 : Trace) :
    newOperationCalls (tr1 ++ tr2) = newOperationCalls tr1 ++ newOperationCalls tr2 := by
  simp [newOperationCalls]

/-- When no instance lookup and no operation creation fails, the loop of
`NewOperationForPendingRetrying` returns one created operation per runtime, in order. -/
theorem newOperations_ok (m : orchestrationManager) (o : Orchestration)
    (policy : MaintenancePolicy) (updateWindow : Bool)
    (hi : ∀ tr1 id, ∃ inst, m.env.instanceGetByID tr1 id = .ok inst)
    (hn : ∀ tr1 o1 r inst st, ∃ op, m.env.newOperation tr1 o1 r inst st = .ok op) :
    ∀ (rs : List Runtime) (result : List RuntimeOperation) (tr : Trace),
      ∃ ops tr1, newOperations m o policy updateWindow rs result tr = (.ok (result ++ ops), tr1) ∧
        List.Forall₂ (CreatedFor m o policy updateWindow) rs ops ∧
        newOperationCalls tr1 = newOperationCalls tr ++ rs.map (·.InstanceID) := by
  intro rs
  induction rs with
  | nil =>
    intro result tr
    exact ⟨[], tr, by simp [newOperations], List.Forall₂.nil, by simp⟩
  | cons r rest ih =>
    intro result tr
    obtain ⟨inst, hinst⟩ := hi tr (setMaintenanceWindow m o policy updateWindow tr r).InstanceID
    obtain ⟨op, hop⟩ := hn
      (tr ++ [Call.instanceGetByID (setMaintenanceWindow m o policy updateWindow tr r).InstanceID])
      o (setMaintenanceWindow m o policy updateWindow tr r) inst Pending
    obtain ⟨ops, tr1, h1, h2, h3⟩ := ih (result ++ [op])
      (tr ++ [Call.instanceGetByID (setMaintenanceWindow m o policy updateWindow tr r).InstanceID]
        ++ [Call.newOperation o (setMaintenanceWindow m o policy updateWindow tr r) inst Pending])
    refine ⟨op :: ops, tr1, ?_, List.Forall₂.cons ⟨tr, _, inst, hop⟩ h2, ?_⟩
    · rw [newOperations]
      simp only [hinst, hop]
      simpa using h1
    · rw [h3]
      simp [newOperationCalls, setMaintenanceWindow_InstanceID]

/-- C2: for a Pending orchestration whose target resolution succeeds with the runtimes
`runtimes`, and with an instance lookup and an operation factory that do not fail,
`resolveOperations` returns without error exactly one created operation per resolved
runtime, in resolver order, sets Description to "Scheduled N operations" for
N = the number of runtimes, and sets State to InProgress if N > 0 and to Succeeded if N = 0. -/
theorem resolveOperations_pending (m : orchestrationManager) (o : Orchestration)
    (policy : MaintenancePolicy) (tr : Trace) (runtimes : List Runtime)
    (hs : o.State = Pending)
    (hr : m.env.resolve tr o.Parameters.Targets = (runtimes, none))
    (hi : ∀ tr1 id, ∃ inst, m.env.instanceGetByID tr1 id = .ok inst)
    (hn : ∀ tr1 o1 r inst st, ∃ op, m.env.newOperation tr1 o1 r inst st = .ok op) :
    ∃ ops o1 tr1, resolveOperations m o policy tr = ((ops, o1, none), tr1) ∧
      ops.length = runtimes.length ∧
      List.Forall₂ (CreatedFor m o policy true) runtimes ops ∧
      newOperationCalls tr1 = newOperationCalls tr ++ runtimes.map (·.InstanceID) ∧
      o1.Description = "Scheduled " ++ fmtInt runtimes.length ++ " operations" ∧
      o1.State = (if 0 < runtimes.length then InProgress else Succeeded) := by
  obtain ⟨ops, tr1, h1, h2, h3⟩ := newOperations_ok m o policy true hi hn runtimes []
    (tr ++ [Call.resolve o.Parameters.Targets])
  have hres : ∃ o1, resolveOperations m o policy tr = ((ops, o1, none), tr1) ∧
      o1.Description = "Scheduled " ++ fmtInt runtimes.length ++ " operations" ∧
      o1.State = (if 0 < runtimes.length then InProgress else Succeeded) := by
    simp only [resolveOperations, hs, if_true, NewOperationForPendingRetrying, hr,
      extractRuntimes, h1, List.nil_append]
    refine ⟨_, rfl, rfl, ?_⟩
    by_cases hl : runtimes.length = 0
    · simp [hl]
    · have : 0 < runtimes.length := Nat.pos_of_ne_zero hl
      simp [hl, this]
  obtain ⟨o1, e1, e2, e3⟩ := hres
  refine ⟨ops, o1, tr1, e1, h2.length_eq.symm, h2, ?_, e2, e3⟩
  rw [h3]; simp [newOperationCalls]

/-- Witness for C2: two resolved runtimes give two operations and the description
"Scheduled 2 operations". -/
theorem resolveOperations_pending_witness :
    (∃ ops o1 tr1,
      resolveOperations twoRuntimesManager (fixOrchestration Pending) MaintenancePolicy.empty [] =
        ((ops, o1, none), tr1) ∧
      ops.length = [fixRuntime "i-1", fixRuntime "i-2"].length ∧
      List.Forall₂ (CreatedFor twoRuntimesManager (fixOrchestration Pending)
        MaintenancePolicy.empty true) [fixRuntime "i-1", fixRuntime "i-2"] ops ∧
      newOperationCalls tr1 =
        newOperationCalls [] ++ [fixRuntime "i-1", fixRuntime "i-2"].map (·.InstanceID) ∧
      o1.Description =
        "Scheduled " ++ fmtInt [fixRuntime "i-1", fixRuntime "i-2"].length ++ " operations" ∧
      o1.State =
        (if 0 < [fixRuntime "i-1", fixRuntime "i-2"].length then InProgress else Succeeded)) ∧
    (resolveOperations twoRuntimesManager (fixOrchestration Pending)
        MaintenancePolicy.empty []).1.2.1.Description = "Scheduled 2 operations" :=
  ⟨resolveOperations_pending twoRuntimesManager (fixOrchestration Pending)
      MaintenancePolicy.empty [] [fixRuntime "i-1", fixRuntime "i-2"] rfl rfl
      (fun _ id => ⟨⟨id⟩, rfl⟩) (fun _ _ r _ _ => ⟨⟨r, "op-" ++ r.InstanceID⟩, rfl⟩),
    by decide⟩

theorem getMaintenancePolicy_trace (m : orchestrationManager) (tr : Trace) :
    (getMaintenancePolicy m tr).2 = tr ++ [Call.configMapGet m.configNamespace m.configName] := by
  unfold getMaintenancePolicy
  split
  · rfl
  · dsimp only
    split
    · rfl
    · split <;> rfl

/-- C3, as stated, fails: for the stored orchestration `o-1` in state Retrying with an empty
retry list, `Execute` writes the orchestration to the store (with state Failed) and returns
no error. -/
theorem execute_retrying_empty_writes :
    (fixOrchestration Retrying).State = Retrying ∧
    (fixOrchestration Retrying).Parameters.RetryOperation.RetryOperations = [] ∧
    Execute retryingEmptyManager "o-1" 1 [] =
      (.returned 0 none,
        [Call.orchestrationGetByID "o-1",
          Call.configMapGet "kcp-system" "orchestration-config",
          Call.orchestrationUpdate { fixOrchestration Retrying with
            State := Failed
            Description := "failed to resolve operations: while retrying operations: " ++
              "o.Parameters.RetryOperation.RetryOperations is empty" }]) ∧
    updateCalls (Execute retryingEmptyManager "o-1" 1 []).2 ≠ [] := by
  decide

/-- C3, amended: for a stored orchestration in state Retrying with an empty retry list,
`Execute` calls neither the resolver nor the operation factory and resolves no operation;
after loading the orchestration and the policy configuration its only call is one `Update`
that writes the orchestration with state Failed and the error text as description, and it
returns no error, with delay 0, or one minute when that write fails with an error other than
not-found. -/
theorem execute_retrying_empty (m : orchestrationManager) (orchestrationID : String)
    (ticks : Nat) (tr : Trace) (o : Orchestration)
    (hget : m.env.orchestrationGetByID tr orchestrationID = .found o)
    (hs : o.State = Retrying)
    (he : o.Parameters.RetryOperation.RetryOperations = []) :
    ∃ d, Execute m orchestrationID ticks tr =
      (.returned d none,
        tr ++ [Call.orchestrationGetByID orchestrationID,
          Call.configMapGet m.configNamespace m.configName,
          Call.orchestrationUpdate { o with
            UpdatedAt := m.env.now (tr ++ [Call.orchestrationGetByID orchestrationID,
              Call.configMapGet m.configNamespace m.configName])
            State := Failed
            Description := emptyRetryError.Error }]) ∧
      (d = 0 ∨ d = Minute) := by
  have hp : Retrying ≠ Pending := by decide
  have htr := getMaintenancePolicy_trace m (tr ++ [Call.orchestrationGetByID orchestrationID])
  unfold Execute
  simp only [hget]
  generalize getMaintenancePolicy m (tr ++ [Call.orchestrationGetByID orchestrationID]) = r at htr
  obtain ⟨⟨policy, perr⟩, tr2⟩ := r
  simp only at htr
  subst htr
  simp only [resolveOperations, hs, hp, if_false, if_true, he, List.length_nil,
    failOrchestration, updateOrchestration, List.append_assoc, List.singleton_append,
    List.cons_append, List.nil_append]
  split
  · split
    · exact ⟨_, rfl, Or.inr rfl⟩
    · exact ⟨_, rfl, Or.inl rfl⟩
  · exact ⟨_, rfl, Or.inl rfl⟩

/-- Witness for C3: the stored orchestration `o-1`, Retrying with an empty retry list. -/
theorem execute_retrying_empty_witness :
    ∃ d, Execute retryingEmptyManager "o-1" 3 [] =
      (.returned d none,
        [] ++ [Call.orchestrationGetByID "o-1",
          Call.configMapGet retryingEmptyManager.configNamespace retryingEmptyManager.configName,
          Call.orchestrationUpdate { fixOrchestration Retrying with
            UpdatedAt := retryingEmptyManager.env.now ([] ++ [Call.orchestrationGetByID "o-1",
              Call.configMapGet retryingEmptyManager.configNamespace
                retryingEmptyManager.configName])
            State := Failed
            Description := emptyRetryError.Error }]) ∧
      (d = 0 ∨ d = Minute) :=
  execute_retrying_empty retryingEmptyManager "o-1" 3 [] (fixOrchestration Retrying)
    rfl rfl rfl

/-- C4 fails on the code: the first poll tick loads `o-1` in state Canceling with a retry
request; handling the request sets the state to InProgress, the tick ends the loop, and
`waitForCompletion` returns the orchestration with state Succeeded and no error, without
a call of `CancelOperations`. -/
theorem waitForCompletion_canceling_overwritten :
    (cancelingRetryManager [(Succeeded, 1)]).env.orchestrationGetByID
        [Call.strategyExecute [] fixParameters.Strategy] "o-1" =
      .found cancelingRetryOrchestration ∧
    cancelingRetryOrchestration.State = Canceling ∧
    (waitForCompletion (cancelingRetryManager [(Succeeded, 1)]) (fixOrchestration InProgress)
        (.parallel none) "exec-1" 1 [Call.strategyExecute [] fixParameters.Strategy]).map
      (fun r => (r.1.1.map (·.State), r.1.2, r.2.filter (· = Call.cancelOperations "o-1"))) =
      some (some Succeeded, none, []) := by
  decide

/-- C5 fails on the code: in the tick that observes Canceling (the captured flag is set),
the retry request is still handled: `NewOperation` is called for instance `i-1` and the new
operation is passed to `strategy.Insert`. -/
theorem pollTick_canceling_starts_operation :
    (pollTick (cancelingRetryManager [(Succeeded, 1)]) (.parallel none) "o-1"
        ⟨fixOrchestration InProgress, false, [], ["exec-1"], "exec-1"⟩
        [Call.strategyExecute [] fixParameters.Strategy]).1.1.canceled = true ∧
    (pollTick (cancelingRetryManager [(Succeeded, 1)]) (.parallel none) "o-1"
        ⟨fixOrchestration InProgress, false, [], ["exec-1"], "exec-1"⟩
        [Call.strategyExecute [] fixParameters.Strategy]).2 =
      [Call.strategyExecute [] fixParameters.Strategy,
        Call.orchestrationGetByID "o-1",
        Call.getOperationStats "o-1",
        Call.retryOperations ["op-1"],
        Call.resolve fixParameters.Targets,
        Call.instanceGetByID "i-1",
        Call.newOperation cancelingRetryOrchestration (fixRuntime "i-1") ⟨"i-1"⟩ Pending,
        Call.strategyInsert "exec-1" [⟨fixRuntime "i-1", "op-i-1"⟩] fixParameters.Strategy,
        Call.orchestrationUpdate
          { fixOrchestration InProgress with
            Description := "Scheduled 2 operations, retried 1 operations"
            Parameters := { fixParameters with
              Kyma := some "2.0", Kubernetes := some "1.25" } }] := by
  decide

/-- C6 fails on the code: `Execute` runs the poll loop and its last write leaves `o-1` in
state Succeeded, although the operation counts it read last show five Pending operations. -/
theorem execute_succeeded_with_pending :
    (Execute (cancelingRetryManager [(Pending, 5), (Succeeded, 1)]) "o-1" 1 []).1 =
      .returned 0 none ∧
    ((updateCalls (Execute (cancelingRetryManager [(Pending, 5), (Succeeded, 1)])
        "o-1" 1 []).2).getLast?).map (·.State) = some Succeeded ∧
    (Execute (cancelingRetryManager [(Pending, 5), (Succeeded, 1)]) "o-1" 1 []).2.filter
        (· = Call.getOperationStats "o-1") = [Call.getOperationStats "o-1"] ∧
    (∀ tr, (cancelingRetryManager [(Pending, 5), (Succeeded, 1)]).env.getOperationStats tr "o-1" =
      .ok [(Pending, 5), (Succeeded, 1)]) := by
  refine ⟨by decide, by decide, by decide, fun _ => rfl⟩

/-- C7, as stated, fails: with one Succeeded, one Canceled, one Pending and one Retrying
operation in the stats, `resolveOrchestration` sets state Succeeded. -/
theorem resolveOrchestration_succeeded_with_canceled :
    (resolveOrchestration quietManager (fixOrchestration InProgress) ["exec-1"]
      [(Succeeded, 1), (Canceled, 1), (Pending, 1), (Retrying, 1)] []).1 =
        (some { fixOrchestration InProgress with State := Succeeded }, none) ∧
    (Stats.get [(Succeeded, 1), (Canceled, 1), (Pending, 1), (Retrying, 1)] Canceled).1 = 1 ∧
    (Stats.get [(Succeeded, 1), (Canceled, 1), (Pending, 1), (Retrying, 1)] Pending).1 = 1 ∧
    (Stats.get [(Succeeded, 1), (Canceled, 1), (Pending, 1), (Retrying, 1)] Retrying).1 = 1 := by
  decide

/-- C7, amended: whenever `resolveOrchestration` sets state Succeeded, the input state was
not Canceling and the stats map it was given counts no Failed operation (`stats[Failed]` is
not positive); the counts of the other states are not examined. -/
theorem resolveOrchestration_succeeded_only_if (m : orchestrationManager) (o : Orchestration)
    (execIDs : List String) (stats : Stats) (tr : Trace) (o1 : Orchestration)
    (h : (resolveOrchestration m o execIDs stats tr).1.1 = some o1)
    (hs : o1.State = Succeeded) :
    o.State ≠ Canceling ∧ (stats.get Failed).1 ≤ 0 ∧ o1 = { o with State := Succeeded } := by
  have hcs : Canceled ≠ Succeeded := by decide
  have hfs : Failed ≠ Succeeded := by decide
  unfold resolveOrchestration at h
  by_cases hc : o.State = Canceling
  · exfalso
    simp only [hc, if_true] at h
    split at h
    · simp at h
    · split at h
      · split at h
        · split at h
          · simp at h
          · simp at h; subst h; exact hcs hs
        · simp at h; subst h; exact hcs hs
      · simp at h; subst h; exact hcs hs
  · simp only [hc, if_false] at h
    by_cases hf : (stats.get Failed).1 > 0
    · simp [hf] at h
      subst h
      exact absurd hs hfs
    · simp [hf] at h
      subst h
      exact ⟨hc, by omega, rfl⟩

/-- Witness for C7: an InProgress orchestration with two Succeeded operations. -/
theorem resolveOrchestration_succeeded_only_if_witness :
    (fixOrchestration InProgress).State ≠ Canceling ∧
    (Stats.get [(Succeeded, 2)] Failed).1 ≤ 0 ∧
    ({ fixOrchestration InProgress with State := Succeeded } : Orchestration) =
      { fixOrchestration InProgress with State := Succeeded } :=
  resolveOrchestration_succeeded_only_if quietManager (fixOrchestration InProgress)
    ["exec-1"] [(Succeeded, 2)] [] { fixOrchestration InProgress with State := Succeeded }
    (by decide) (by decide)

theorem wrapInt_of_range (x : Int) (h0 : 0 ≤ x) (h1 : x < 2 ^ 63) : wrapInt x = x := by
  unfold wrapInt
  have : (x + 2 ^ 63) % 2 ^ 64 = x + 2 ^ 63 := Int.emod_eq_of_lt (by omega) (by omega)
  omega

theorem Stats.get_not_found (stats : Stats) (k : String) (h : (stats.get k).2 = false) :
    (stats.get k).1 = 0 := by
  unfold Stats.get at h ⊢
  split at h
  · simp at h
  · rename_i hn
    simp [hn]

/-- Without overflow `numberOfNotFinished` is the sum of the three counts. -/
theorem numberOfNotFinished_eq (stats : Stats)
    (h1 : 0 ≤ stats.count InProgress) (h2 : 0 ≤ stats.count Pending)
    (h3 : 0 ≤ stats.count Retrying)
    (h4 : stats.count InProgress + stats.count Pending + stats.count Retrying < 2 ^ 63) :
    numberOfNotFinished stats =
      stats.count InProgress + stats.count Pending + stats.count Retrying := by
  unfold Stats.count at *
  have e1 : (if (stats.get InProgress).2 = true then addInt 0 (stats.get InProgress).1 else 0) =
      (stats.get InProgress).1 := by
    by_cases hf : (stats.get InProgress).2 = true
    · simp only [hf, if_true, addInt, zero_add]
      exact wrapInt_of_range _ h1 (by omega)
    · simp only [hf, if_false]
      exact (Stats.get_not_found stats InProgress (by simpa using hf)).symm
  have e2 : (if (stats.get Pending).2 = true
      then addInt (stats.get InProgress).1 (stats.get Pending).1 else (stats.get InProgress).1) =
      (stats.get InProgress).1 + (stats.get Pending).1 := by
    by_cases hf : (stats.get Pending).2 = true
    · simp only [hf, if_true, addInt]
      exact wrapInt_of_range _ (by omega) (by omega)
    · simp only [hf, if_false]
      rw [Stats.get_not_found stats Pending (by simpa using hf)]
      simp
  unfold numberOfNotFinished
  simp only [e1, e2]
  by_cases hf : (stats.get Retrying).2 = true
  · simp only [hf, if_true, addInt]
    exact wrapInt_of_range _ (by omega) (by omega)
  · simp only [hf, if_false]
    rw [Stats.get_not_found stats Retrying (by simpa using hf)]
    simp

theorem persistRetry_ok (m : orchestrationManager) (s : PollState) (tr : Trace)
    (hu : ∀ tr1 o1, m.env.orchestrationUpdate tr1 o1 = none) :
    (persistRetry m s tr).1.2 = .ok () ∧ (persistRetry m s tr).1.1.canceled = s.canceled := by
  unfold persistRetry
  simp [hu]

/-- When neither the write of the orchestration nor the start of a second batch fails, the
retry block does not return from the polling closure, and it leaves `canceled` as it is. -/
theorem handleRetryOperations_ok (m : orchestrationManager) (strategy : Strategy)
    (s : PollState) (tr : Trace)
    (hu : ∀ tr1 o1, m.env.orchestrationUpdate tr1 o1 = none)
    (hx : ∀ tr1 st ops spec, ∃ id, m.env.strategyExecute tr1 st ops spec = .ok id) :
    (handleRetryOperations m strategy s tr).1.2 = .ok () ∧
      (handleRetryOperations m strategy s tr).1.1.canceled = s.canceled := by
  unfold handleRetryOperations
  dsimp only
  split
  · exact persistRetry_ok m _ _ hu
  · split
    · rename_i err heq
      obtain ⟨id, hid⟩ := hx _ _ _ _
      rw [hid] at heq
      exact absurd heq (by simp)
    · exact persistRetry_ok m _ _ hu

/-- C8, as stated, fails: the orchestration and the (empty) stats are loaded, Canceling was
not observed and the three counts sum to 0, but the tick does not report completion, because
the write that ends the handling of the retry request fails. -/
theorem pollTick_failed_update_not_done :
    (pollTick failingUpdateManager (.parallel none) "o-1"
        ⟨fixOrchestration InProgress, false, [], ["exec-1"], "exec-1"⟩ []).1.2 = (false, none) ∧
    (pollTick failingUpdateManager (.parallel none) "o-1"
        ⟨fixOrchestration InProgress, false, [], ["exec-1"], "exec-1"⟩ []).1.1.canceled = false ∧
    failingUpdateManager.env.getOperationStats [Call.orchestrationGetByID "o-1"] "o-1" = .ok [] ∧
    Stats.count [] InProgress + Stats.count [] Pending + Stats.count [] Retrying = 0 := by
  refine ⟨by decide, by decide, rfl, by decide⟩

/-- C8, amended: a poll tick in which the orchestration and the stats are loaded
successfully, and in which the handling of a retry request does not end the tick early (no
retry operation is requested, or neither the write of the orchestration nor the start of a
second batch fails), returns no error and reports completion exactly when either Canceling
has been observed (in this or an earlier tick) and the InProgress count is 0, or Canceling has
not been observed and the counts of Pending, InProgress and Retrying sum to 0; a state absent
from the stats counts as 0, and the counts are non-negative with a sum below 2^63. -/
theorem pollTick_done_iff (m : orchestrationManager) (strategy : Strategy)
    (orchestrationID : String) (s : PollState) (tr : Trace) (o : Orchestration) (stats : Stats)
    (hget : m.env.orchestrationGetByID tr orchestrationID = .found o)
    (hstats : m.env.getOperationStats (tr ++ [Call.orchestrationGetByID orchestrationID])
      o.OrchestrationID = .ok stats)
    (hretry : o.Parameters.RetryOperation.RetryOperations = [] ∨
      ((∀ tr1 o1, m.env.orchestrationUpdate tr1 o1 = none) ∧
        (∀ tr1 st ops spec, ∃ id, m.env.strategyExecute tr1 st ops spec = .ok id)))
    (h1 : 0 ≤ stats.count InProgress) (h2 : 0 ≤ stats.count Pending)
    (h3 : 0 ≤ stats.count Retrying)
    (h4 : stats.count InProgress + stats.count Pending + stats.count Retrying < 2 ^ 63) :
    (pollTick m strategy orchestrationID s tr).1.2.2 = none ∧
    ((pollTick m strategy orchestrationID s tr).1.2.1 = true ↔
      ((s.canceled = true ∨ o.State = Canceling) ∧ stats.count InProgress = 0) ∨
      (¬ (s.canceled = true ∨ o.State = Canceling) ∧
        stats.count InProgress + stats.count Pending + stats.count Retrying = 0)) := by
  have hsum := numberOfNotFinished_eq stats h1 h2 h3 h4
  have hcan : ((if o.State = Canceling then true else s.canceled) = true ↔
      (s.canceled = true ∨ o.State = Canceling)) := by
    by_cases hs : o.State = Canceling <;> simp [hs]
  have key : ∃ s3 tr3,
      (if o.Parameters.RetryOperation.RetryOperations.length > 0 then
        handleRetryOperations m strategy
          { s with o := o, canceled := if o.State = Canceling then true else s.canceled,
                   stats := stats }
          (tr ++ [Call.orchestrationGetByID orchestrationID] ++
            [Call.getOperationStats o.OrchestrationID])
      else
        (({ s with o := o, canceled := if o.State = Canceling then true else s.canceled,
                   stats := stats }, .ok ()),
          tr ++ [Call.orchestrationGetByID orchestrationID] ++
            [Call.getOperationStats o.OrchestrationID])) = ((s3, .ok ()), tr3) ∧
      (s3.canceled = true ↔ (s.canceled = true ∨ o.State = Canceling)) := by
    by_cases hl : o.Parameters.RetryOperation.RetryOperations.length > 0
    · have hne : o.Parameters.RetryOperation.RetryOperations ≠ [] := by
        intro h; rw [h] at hl; simp at hl
      rcases hretry with he | ⟨hu, hx⟩
      · exact absurd he hne
      · simp only [hl, if_true]
        have h := handleRetryOperations_ok m strategy
          { s with o := o, canceled := if o.State = Canceling then true else s.canceled,
                   stats := stats }
          (tr ++ [Call.orchestrationGetByID orchestrationID] ++
            [Call.getOperationStats o.OrchestrationID]) hu hx
        refine ⟨_, _, Prod.ext (Prod.ext rfl h.1) rfl, ?_⟩
        rw [h.2]
        exact hcan
    · simp only [hl, if_false]
      exact ⟨_, _, rfl, hcan⟩
  obtain ⟨s3, tr3, e1, e2⟩ := key
  unfold pollTick
  simp only [hget, hstats, e1]
  unfold Stats.count at *
  by_cases hc3 : s3.canceled = true
  · have := e2.mp hc3
    simp [hc3, this]
  · have hn : ¬ (s.canceled = true ∨ o.State = Canceling) := fun h => hc3 (e2.mpr h)
    simp only [hc3, if_false, hsum]
    simp [hn]

/-- Witness for C8: a tick that loads `o-1` InProgress with one operation in progress. -/
theorem pollTick_done_iff_witness :
    (pollTick (cancelingRetryManager [(InProgress, 1), (Succeeded, 2)]) (.parallel none) "o-1"
        ⟨fixOrchestration InProgress, false, [], ["exec-1"], "exec-1"⟩ []).1.2.2 = none ∧
    ((pollTick (cancelingRetryManager [(InProgress, 1), (Succeeded, 2)]) (.parallel none) "o-1"
        ⟨fixOrchestration InProgress, false, [], ["exec-1"], "exec-1"⟩ []).1.2.1 = true ↔
      (((⟨fixOrchestration InProgress, false, [], ["exec-1"], "exec-1"⟩ : PollState).canceled =
            true ∨ (fixOrchestration InProgress).State = Canceling) ∧
        Stats.count [(InProgress, 1), (Succeeded, 2)] InProgress = 0) ∨
      (¬ ((⟨fixOrchestration InProgress, false, [], ["exec-1"], "exec-1"⟩ : PollState).canceled =
            true ∨ (fixOrchestration InProgress).State = Canceling) ∧
        Stats.count [(InProgress, 1), (Succeeded, 2)] InProgress +
          Stats.count [(InProgress, 1), (Succeeded, 2)] Pending +
          Stats.count [(InProgress, 1), (Succeeded, 2)] Retrying = 0)) :=
  pollTick_done_iff (cancelingRetryManager [(InProgress, 1), (Succeeded, 2)]) (.parallel none)
    "o-1" ⟨fixOrchestration InProgress, false, [], ["exec-1"], "exec-1"⟩ []
    (fixOrchestration InProgress) [(InProgress, 1), (Succeeded, 2)] rfl rfl (Or.inl rfl)
    (by decide) (by decide) (by decide) (by decide)

/-- C9 fails on the code: for a Retrying orchestration with the maintenance-window flag set,
the window of the retried runtime is computed from the policy when the retry is flagged
Immediate (here, with the clock at 0001-01-01 00:00 UTC, a Monday, the window from 02:00 to
04:00 of that day), and is left zero when it is not flagged Immediate. -/
theorem resolveOperations_retrying_window_inverted :
    newOperationWindows
        (resolveOperations retryManager (retryingOrchestration true "Scheduled 2 operations")
          fixPolicy []).2 =
      [(⟨7200, 0, utcLoc⟩, ⟨14400, 0, utcLoc⟩, ["Mon", "Wed"])] ∧
    newOperationWindows
        (resolveOperations retryManager (retryingOrchestration false "Scheduled 2 operations")
          fixPolicy []).2 =
      [(Time.zero, Time.zero, [])] := by
  decide

/-- C10, as stated, fails: a previous description that contains "retrying" has that word
replaced and nothing appended, and a retry request that matches no resolved runtime (N = 0)
leaves the orchestration in state Succeeded. -/
theorem resolveOperations_retrying_counterexample :
    (resolveOperations retryManager (retryingOrchestration false "queued for retrying")
        MaintenancePolicy.empty []).1.2 =
      ({ retryingOrchestration false "queued for retrying" with
          State := InProgress
          Description := "queued for retried 1 operations"
          Parameters := { (retryingOrchestration false "").Parameters with
            Kyma := some "2.0", Kubernetes := some "1.25", RetryOperation := ⟨[], false⟩ } },
        none) ∧
    (resolveOperations quietManager (retryingOrchestration false "Scheduled 2 operations")
        MaintenancePolicy.empty []).1.2 =
      ({ retryingOrchestration false "" with
          State := Succeeded
          Description := "Scheduled 2 operations, retried 0 operations"
          Parameters := { (retryingOrchestration false "").Parameters with
            Kyma := some "2.0", Kubernetes := some "1.25", RetryOperation := ⟨[], false⟩ } },
        none) := by
  decide

/-- C10, amended: for a Retrying orchestration with a non-empty retry list whose resolution
succeeds (`RetryOperations`, the resolver, the instance lookup and the factory do not fail),
with N the number of retried operations whose instance is among the resolved runtimes,
`resolveOperations` returns N operations without error, leaves Description equal to
`updateRetryingDescription` of the previous Description and "retried N operations" (which
is the previous Description followed by ", retried N operations" when the previous
Description does not contain "retrying"), leaves RetryOperations empty and Immediate false,
and sets State to InProgress if N > 0 and to Succeeded if N = 0. -/
theorem resolveOperations_retrying (m : orchestrationManager) (o : Orchestration)
    (policy : MaintenancePolicy) (tr : Trace) (retryRuntimes : List RuntimeOperation)
    (runtimes : List Runtime)
    (hs : o.State = Retrying)
    (hne : o.Parameters.RetryOperation.RetryOperations ≠ [])
    (hretry : m.env.retryOperations tr o.Parameters.RetryOperation.RetryOperations =
      (retryRuntimes, none))
    (hr : m.env.resolve (tr ++ [Call.retryOperations o.Parameters.RetryOperation.RetryOperations])
      o.Parameters.Targets = (runtimes, none))
    (hi : ∀ tr1 id, ∃ inst, m.env.instanceGetByID tr1 id = .ok inst)
    (hn : ∀ tr1 o1 r inst st, ∃ op, m.env.newOperation tr1 o1 r inst st = .ok op) :
    ∃ ops o1 tr1, resolveOperations m o policy tr = ((ops, o1, none), tr1) ∧
      ops.length = (extractRuntimes o runtimes retryRuntimes).length ∧
      o1.Description = updateRetryingDescription o.Description
        ("retried " ++ fmtInt (extractRuntimes o runtimes retryRuntimes).length ++
          " operations") ∧
      (stringsContains o.Description.data "retrying".data = false →
        o1.Description = o.Description ++ ", " ++
          ("retried " ++ fmtInt (extractRuntimes o runtimes retryRuntimes).length ++
            " operations")) ∧
      o1.Parameters.RetryOperation.RetryOperations = [] ∧
      o1.Parameters.RetryOperation.Immediate = false ∧
      o1.State =
        (if 0 < (extractRuntimes o runtimes retryRuntimes).length then InProgress
          else Succeeded) := by
  have hp : Retrying ≠ Pending := by decide
  have hlen : o.Parameters.RetryOperation.RetryOperations.length ≠ 0 := by
    intro h; exact hne (List.length_eq_zero.mp h)
  obtain ⟨ops, tr1, h1, h2, _⟩ := newOperations_ok m o policy true hi hn
    (extractRuntimes o runtimes retryRuntimes) []
    (tr ++ [Call.retryOperations o.Parameters.RetryOperation.RetryOperations] ++
      [Call.resolve o.Parameters.Targets])
  have hres : ∃ o1, resolveOperations m o policy tr = ((ops, o1, none), tr1) ∧
      o1.Description = updateRetryingDescription o.Description
        ("retried " ++ fmtInt (extractRuntimes o runtimes retryRuntimes).length ++
          " operations") ∧
      o1.Parameters.RetryOperation.RetryOperations = [] ∧
      o1.Parameters.RetryOperation.Immediate = false ∧
      o1.State =
        (if 0 < (extractRuntimes o runtimes retryRuntimes).length then InProgress
          else Succeeded) := by
    simp only [resolveOperations, hs, hp, if_false, if_true, hlen, hretry,
      NewOperationForPendingRetrying, hr]
    simp only [List.nil_append] at h1
    simp only [h1]
    refine ⟨_, rfl, ?_, rfl, rfl, ?_⟩
    · by_cases hl : (extractRuntimes o runtimes retryRuntimes).length = 0 <;>
        simp [hl, clearRetryOperation]
    · by_cases hl : (extractRuntimes o runtimes retryRuntimes).length = 0
      · simp [hl, clearRetryOperation]
      · have : 0 < (extractRuntimes o runtimes retryRuntimes).length := Nat.pos_of_ne_zero hl
        simp [hl, this, clearRetryOperation]
  obtain ⟨o1, e1, e2, e3, e4, e5⟩ := hres
  refine ⟨ops, o1, tr1, e1, h2.length_eq.symm, e2, ?_, e3, e4, e5⟩
  intro hc
  rw [e2]
  unfold updateRetryingDescription
  simp [hc]

/-- Witness for C10: the retry of `op-1`, whose instance `i-1` is among the two resolved
runtimes. -/
theorem resolveOperations_retrying_witness :
    (∃ ops o1 tr1,
      resolveOperations retryManager (retryingOrchestration false "Scheduled 2 operations")
        MaintenancePolicy.empty [] = ((ops, o1, none), tr1) ∧
      ops.length = (extractRuntimes (retryingOrchestration false "Scheduled 2 operations")
        [fixRuntime "i-1", fixRuntime "i-2"] [⟨fixRuntime "i-1", "op-1"⟩]).length ∧
      o1.Description = updateRetryingDescription
        (retryingOrchestration false "Scheduled 2 operations").Description
        ("retried " ++ fmtInt (extractRuntimes
          (retryingOrchestration false "Scheduled 2 operations")
          [fixRuntime "i-1", fixRuntime "i-2"] [⟨fixRuntime "i-1", "op-1"⟩]).length ++
          " operations") ∧
      (stringsContains (retryingOrchestration false "Scheduled 2 operations").Description.data
          "retrying".data = false →
        o1.Description = (retryingOrchestration false "Scheduled 2 operations").Description ++
          ", " ++ ("retried " ++ fmtInt (extractRuntimes
            (retryingOrchestration false "Scheduled 2 operations")
            [fixRuntime "i-1", fixRuntime "i-2"] [⟨fixRuntime "i-1", "op-1"⟩]).length ++
            " operations")) ∧
      o1.Parameters.RetryOperation.RetryOperations = [] ∧
      o1.Parameters.RetryOperation.Immediate = false ∧
      o1.State =
        (if 0 < (extractRuntimes (retryingOrchestration false "Scheduled 2 operations")
          [fixRuntime "i-1", fixRuntime "i-2"] [⟨fixRuntime "i-1", "op-1"⟩]).length
          then InProgress else Succeeded)) ∧
    (resolveOperations retryManager (retryingOrchestration false "Scheduled 2 operations")
        MaintenancePolicy.empty []).1.2.1.Description =
      "Scheduled 2 operations, retried 1 operations" :=
  ⟨resolveOperations_retrying retryManager
      (retryingOrchestration false "Scheduled 2 operations") MaintenancePolicy.empty []
      [⟨fixRuntime "i-1", "op-1"⟩] [fixRuntime "i-1", fixRuntime "i-2"]
      rfl (by decide) rfl rfl
      (fun _ id => ⟨⟨id⟩, rfl⟩) (fun _ _ r _ _ => ⟨⟨r, "op-" ++ r.InstanceID⟩, rfl⟩),
    by decide⟩

/-! ### The maintenance window -/

theorem applyRules_none (rx : String → String → Option Bool) (localLoc : Location)
    (r : Runtime) :
    ∀ rules : List MaintenancePolicyRule,
      (∀ p ∈ rules, ruleMatches rx r p = false) → applyRules rx localLoc r rules = none := by
  intro rules
  induction rules with
  | nil => intro _; rfl
  | cons p rest ih =>
    intro h
    have hp := h p (List.mem_cons_self _ _)
    simp only [applyRules, hp]
    exact ih (fun q hq => h q (List.mem_cons_of_mem _ hq))

/-- A location without transitions has its offset at every instant. -/
theorem Location.lookup_fixed (l : Location) (h : l.tx = []) (sec : Int) :
    l.lookup sec = (l.offset, none, none) := by
  unfold Location.lookup
  rw [h]
  rfl

theorem Time.offset_fixed (t : Time) (h : t.loc.tx = []) : t.offset = t.loc.offset := by
  unfold Time.offset
  rw [Location.lookup_fixed _ h]

/-- In a location without transitions `time.Date` subtracts the offset of the location. -/
theorem Date_fixed (date hour min sec : Int) (nsec : Nat) (loc : Location)
    (h : loc.tx = []) :
    Date date hour min sec nsec loc =
      ⟨date * 86400 + hour * 3600 + min * 60 + sec - loc.offset, nsec, loc⟩ := by
  unfold Date
  simp only [Location.lookup_fixed _ h, outsidePeriod, Bool.or_self, Bool.false_eq_true,
    if_false]
  split <;> rfl

/-- In a location without transitions a day added is 86400 seconds added. -/
theorem Time.AddDate_fixed (t : Time) (days : Int) (h : t.loc.tx = []) :
    t.AddDate days = ⟨t.sec + days * 86400, t.nsec, t.loc⟩ := by
  unfold Time.AddDate
  rw [Time.Location, Date_fixed _ _ _ _ _ _ h]
  simp only [Time.date, Time.Hour, Time.Minute, Time.Second, Time.Nanosecond, Time.wall,
    Time.offset_fixed t h, Time.mk.injEq, and_true]
  omega

theorem Date_loc (date hour min sec : Int) (nsec : Nat) (loc : Location) :
    (Date date hour min sec nsec loc).loc = loc := rfl

theorem Time.AddDate_loc (t : Time) (days : Int) : (t.AddDate days).loc = t.loc := rfl

theorem Date_AddDate (date hour min sec : Int) (nsec : Nat) (loc : Location) (days : Int)
    (h : loc.tx = []) :
    (Date date hour min sec nsec loc).AddDate days =
      Date (date + days) hour min sec nsec loc := by
  rw [Time.AddDate_fixed _ _ (by rw [Date_loc]; exact h), Date_fixed _ _ _ _ _ _ h,
    Date_fixed _ _ _ _ _ _ h]
  simp only [Time.mk.injEq, and_true]
  ring

theorem applyRules_first_match (rx : String → String → Option Bool) (localLoc : Location)
    (r : Runtime) (p : MaintenancePolicyRule) (post : List MaintenancePolicyRule) :
    ∀ pre : List MaintenancePolicyRule,
      (∀ q ∈ pre, ruleMatches rx r q = false) → ruleMatches rx r p = true →
      applyRules rx localLoc r (pre ++ p :: post) =
        some (overrideMaintenance localLoc r p.Days p.TimeBegin p.TimeEnd) := by
  intro pre
  induction pre with
  | nil =>
    intro _ hp
    simp [applyRules, hp]
  | cons q rest ih =>
    intro h hp
    have hq := h q (List.mem_cons_self _ _)
    simp only [List.cons_append, applyRules, hq]
    exact ih (fun q1 hq1 => h q1 (List.mem_cons_of_mem _ hq1)) hp

/-- C12: `resolveMaintenanceWindowTime` computes the window from the runtime as overridden
by the first rule, in list order, all of whose non-empty Match patterns (Plan,
GlobalAccountID, Region) match the runtime (a rule with all Match fields empty matches every
runtime); the rules after it are ignored even if they match; the default is applied in place
of a rule exactly when no rule matches; and an override replaces the days when the entry has
days, the begin and the end time when the entry has a begin or end string (that parses in
the layout 150405-0700), and leaves every other field of the runtime as it was. -/
theorem applyPolicy_first_matching_rule (rx : String → String → Option Bool)
    (localLoc : Location) (r : Runtime) (policy : MaintenancePolicy) :
    (∀ now after, resolveMaintenanceWindowTime rx localLoc now r policy after =
      ((skipPassedWindow (referenceTime now after) (applyPolicy rx localLoc r policy)
          (adjustEnd (composeWindow (referenceTime now after)
            (applyPolicy rx localLoc r policy)))).1,
        (skipPassedWindow (referenceTime now after) (applyPolicy rx localLoc r policy)
          (adjustEnd (composeWindow (referenceTime now after)
            (applyPolicy rx localLoc r policy)))).2,
        (applyPolicy rx localLoc r policy).MaintenanceDays)) ∧
    (∀ pre p post, policy.Rules = pre ++ p :: post →
      (∀ q ∈ pre, ruleMatches rx r q = false) → ruleMatches rx r p = true →
      applyPolicy rx localLoc r policy =
        overrideMaintenance localLoc r p.Days p.TimeBegin p.TimeEnd) ∧
    ((∀ q ∈ policy.Rules, ruleMatches rx r q = false) →
      applyPolicy rx localLoc r policy = overrideMaintenance localLoc r policy.Default.Days
        policy.Default.TimeBegin policy.Default.TimeEnd) ∧
    (∀ p : MaintenancePolicyRule, ruleMatches rx r p = true ↔
      (p.Match.Plan = "" ∨ rx p.Match.Plan r.Plan = some true) ∧
      (p.Match.GlobalAccountID = "" ∨
        rx p.Match.GlobalAccountID r.GlobalAccountID = some true) ∧
      (p.Match.Region = "" ∨ rx p.Match.Region r.Region = some true)) ∧
    (∀ days timeBegin timeEnd,
      (overrideMaintenance localLoc r days timeBegin timeEnd).MaintenanceDays =
        (if days = [] then r.MaintenanceDays else days) ∧
      (overrideMaintenance localLoc r days timeBegin timeEnd).MaintenanceWindowBegin =
        (if timeBegin = "" then r.MaintenanceWindowBegin
          else (parseWindowTime localLoc timeBegin).getD r.MaintenanceWindowBegin) ∧
      (overrideMaintenance localLoc r days timeBegin timeEnd).MaintenanceWindowEnd =
        (if timeEnd = "" then r.MaintenanceWindowEnd
          else (parseWindowTime localLoc timeEnd).getD r.MaintenanceWindowEnd) ∧
      (overrideMaintenance localLoc r days timeBegin timeEnd).InstanceID = r.InstanceID ∧
      (overrideMaintenance localLoc r days timeBegin timeEnd).RuntimeID = r.RuntimeID ∧
      (overrideMaintenance localLoc r days timeBegin timeEnd).GlobalAccountID = r.GlobalAccountID ∧
      (overrideMaintenance localLoc r days timeBegin timeEnd).Plan = r.Plan ∧
      (overrideMaintenance localLoc r days timeBegin timeEnd).Region = r.Region) := by
  refine ⟨fun _ _ => rfl, ?_, ?_, ?_, ?_⟩
  · intro pre p post hrules hpre hp
    simp only [applyPolicy, hrules, applyRules_first_match rx localLoc r p post pre hpre hp]
  · intro h
    simp only [applyPolicy, applyRules_none rx localLoc r policy.Rules h]
  · intro p
    have key : ∀ pattern value : String, patternMatches rx pattern value = true ↔
        (pattern = "" ∨ rx pattern value = some true) := by
      intro pattern value
      unfold patternMatches
      by_cases hp : pattern = ""
      · simp [hp]
      · simp only [ne_eq, hp, not_false_eq_true, if_true, false_or]
        cases hrx : rx pattern value with
        | none => simp
        | some b => simp
    simp only [ruleMatches, Bool.and_eq_true, key, and_assoc]
  · intro days timeBegin timeEnd
    unfold overrideMaintenance
    by_cases hd : days = [] <;> by_cases hb : timeBegin = "" <;> by_cases he : timeEnd = "" <;>
      cases hpb : parseWindowTime localLoc timeBegin <;>
      cases hpe : parseWindowTime localLoc timeEnd <;>
      simp [hd, hb, he, hpb, hpe, List.length_pos]

/-- Witness for C12: of three rules the first does not match the runtime, the second and
the third do; the second is applied, it sets the days and the end time only. -/
theorem applyPolicy_first_matching_rule_witness :
    applyPolicy quietEnv.regexpMatchString utcLoc (fixRuntime "i-1") threeRulesPolicy =
      overrideMaintenance utcLoc (fixRuntime "i-1") ["Fri"] "" "230000+0100" ∧
    ruleMatches quietEnv.regexpMatchString (fixRuntime "i-1")
      ⟨⟨"azure", "", ""⟩, ["Sun"], "120000+0000", "130000+0000"⟩ = true ∧
    applyPolicy quietEnv.regexpMatchString utcLoc (fixRuntime "i-1") threeRulesPolicy =
      { fixRuntime "i-1" with
        MaintenanceDays := ["Fri"]
        MaintenanceWindowEnd := Date (-366) 23 0 0 0 (FixedZone 3600) } ∧
    applyPolicy quietEnv.regexpMatchString utcLoc (fixRuntime "i-1") fixPolicyWithRule =
      overrideMaintenance utcLoc (fixRuntime "i-1") fixPolicyWithRule.Default.Days
        fixPolicyWithRule.Default.TimeBegin fixPolicyWithRule.Default.TimeEnd :=
  ⟨(applyPolicy_first_matching_rule quietEnv.regexpMatchString utcLoc (fixRuntime "i-1")
      threeRulesPolicy).2.1
      [⟨⟨"gcp", "", ""⟩, ["Sat"], "100000+0000", "110000+0000"⟩]
      ⟨⟨"azure", "", "europe"⟩, ["Fri"], "", "230000+0100"⟩
      [⟨⟨"azure", "", ""⟩, ["Sun"], "120000+0000", "130000+0000"⟩]
      rfl (by intro q hq; simp at hq; subst hq; decide) (by decide),
    by decide, by decide,
    (applyPolicy_first_matching_rule quietEnv.regexpMatchString utcLoc (fixRuntime "i-1")
      fixPolicyWithRule).2.2.1
      (by intro q hq; simp [fixPolicyWithRule] at hq; subst hq; decide)⟩

theorem weekdayOfName_range (day : String) (w : Int) (h : weekdayOfName day = some w) :
    0 ≤ w ∧ w ≤ 6 := by
  unfold weekdayOfName at h
  repeat' split at h
  all_goals first | (simp at h; omega) | simp at h

theorem ConvertSliceOfDaysToMap_range (days : List String) (w : Int)
    (h : w ∈ ConvertSliceOfDaysToMap days) : 0 ≤ w ∧ w ≤ 6 := by
  unfold ConvertSliceOfDaysToMap at h
  rw [List.mem_filterMap] at h
  obtain ⟨day, _, hday⟩ := h
  exact weekdayOfName_range day w hday

theorem Time.Weekday_range (t : Time) : 0 ≤ t.Weekday ∧ t.Weekday ≤ 6 := by
  unfold Time.Weekday
  omega

/-- The first of the numbers 0, ..., 6 that satisfies a test, 0 when none does. -/
theorem find_first_of_seven (p : Int → Bool) :
    0 ≤ (match [0, 1, 2, 3, 4, 5, 6].find? p with | some i => i | none => 0) ∧
    (match [0, 1, 2, 3, 4, 5, 6].find? p with | some i => i | none => 0) ≤ 6 ∧
    (p 0 = true → (match [0, 1, 2, 3, 4, 5, 6].find? p with | some i => i | none => 0) = 0) ∧
    ((∃ i, 0 ≤ i ∧ i ≤ 6 ∧ p i = true) →
      p (match [0, 1, 2, 3, 4, 5, 6].find? p with | some i => i | none => 0) = true ∧
      ∀ k, 0 ≤ k → k < (match [0, 1, 2, 3, 4, 5, 6].find? p with | some i => i | none => 0) →
        p k = false) := by
  cases h0 : p 0
  swap
  · simp only [List.find?, h0]
    exact ⟨by omega, by omega, by simp, fun _ => ⟨by simp, fun k hk0 hk => by omega⟩⟩
  cases h1 : p 1
  swap
  · simp only [List.find?, h0, h1]
    refine ⟨by omega, by omega, by simp, fun _ => ⟨by simp, ?_⟩⟩
    intro k hk0 hk
    have : k = 0 := by omega
    subst this; exact h0
  cases h2 : p 2
  swap
  · simp only [List.find?, h0, h1, h2]
    refine ⟨by omega, by omega, by simp, fun _ => ⟨by simp, ?_⟩⟩
    intro k hk0 hk
    have : k = 0 ∨ k = 1 := by omega
    rcases this with rfl | rfl <;> assumption
  cases h3 : p 3
  swap
  · simp only [List.find?, h0, h1, h2, h3]
    refine ⟨by omega, by omega, by simp, fun _ => ⟨by simp, ?_⟩⟩
    intro k hk0 hk
    have : k = 0 ∨ k = 1 ∨ k = 2 := by omega
    rcases this with rfl | rfl | rfl <;> assumption
  cases h4 : p 4
  swap
  · simp only [List.find?, h0, h1, h2, h3, h4]
    refine ⟨by omega, by omega, by simp, fun _ => ⟨by simp, ?_⟩⟩
    intro k hk0 hk
    have : k = 0 ∨ k = 1 ∨ k = 2 ∨ k = 3 := by omega
    rcases this with rfl | rfl | rfl | rfl <;> assumption
  cases h5 : p 5
  swap
  · simp only [List.find?, h0, h1, h2, h3, h4, h5]
    refine ⟨by omega, by omega, by simp, fun _ => ⟨by simp, ?_⟩⟩
    intro k hk0 hk
    have : k = 0 ∨ k = 1 ∨ k = 2 ∨ k = 3 ∨ k = 4 := by omega
    rcases this with rfl | rfl | rfl | rfl | rfl <;> assumption
  cases h6 : p 6
  swap
  · simp only [List.find?, h0, h1, h2, h3, h4, h5, h6]
    refine ⟨by omega, by omega, by simp, fun _ => ⟨by simp, ?_⟩⟩
    intro k hk0 hk
    have : k = 0 ∨ k = 1 ∨ k = 2 ∨ k = 3 ∨ k = 4 ∨ k = 5 := by omega
    rcases this with rfl | rfl | rfl | rfl | rfl | rfl <;> assumption
  · simp only [List.find?, h0, h1, h2, h3, h4, h5, h6]
    refine ⟨by omega, by omega, by simp, ?_⟩
    rintro ⟨i, hi0, hi6, hi⟩
    exfalso
    have : i = 0 ∨ i = 1 ∨ i = 2 ∨ i = 3 ∨ i = 4 ∨ i = 5 ∨ i = 6 := by omega
    rcases this with rfl | rfl | rfl | rfl | rfl | rfl | rfl <;> simp_all

/-- What `FirstAvailableDayDiff` returns: a number of days from 0 to 6, 0 when the current
day is allowed, and, when some day of the week from the current one on is allowed, the
distance to the first such day. -/
theorem FirstAvailableDayDiff_first (c : Int) (a : List Int) :
    0 ≤ FirstAvailableDayDiff c a ∧ FirstAvailableDayDiff c a ≤ 6 ∧
    (c % 7 ∈ a → FirstAvailableDayDiff c a = 0) ∧
    ((∃ i, 0 ≤ i ∧ i ≤ 6 ∧ (c + i) % 7 ∈ a) →
      (c + FirstAvailableDayDiff c a) % 7 ∈ a ∧
      ∀ k, 0 ≤ k → k < FirstAvailableDayDiff c a → (c + k) % 7 ∉ a) := by
  have h := find_first_of_seven (fun i => decide ((c + i) % 7 ∈ a))
  unfold FirstAvailableDayDiff
  obtain ⟨h1, h2, h3, h4⟩ := h
  refine ⟨h1, h2, ?_, ?_⟩
  · intro hc
    exact h3 (by simpa using hc)
  · rintro ⟨i, hi0, hi6, hi⟩
    obtain ⟨h5, h6⟩ := h4 ⟨i, hi0, hi6, by simpa using hi⟩
    refine ⟨by simpa using h5, ?_⟩
    intro k hk0 hk
    simpa using h6 k hk0 hk

/-- Some day of the week at distance 0..6 from `c` is in a non-empty set of weekdays, and
some day at distance 1..7. -/
theorem exists_available_day (c : Int) (a : List Int)
    (ha : ∀ w ∈ a, 0 ≤ w ∧ w ≤ 6) (hne : a ≠ []) :
    (∃ i, 0 ≤ i ∧ i ≤ 6 ∧ (c + i) % 7 ∈ a) ∧ (∃ i, 1 ≤ i ∧ i ≤ 7 ∧ (c + i) % 7 ∈ a) := by
  obtain ⟨w, hw⟩ := List.exists_mem_of_ne_nil a hne
  have hr := ha w hw
  refine ⟨⟨(w - c) % 7, by omega, by omega, ?_⟩, ⟨(w - c - 1) % 7 + 1, by omega, by omega, ?_⟩⟩
  · have : (c + (w - c) % 7) % 7 = w := by omega
    rw [this]; exact hw
  · have : (c + ((w - c - 1) % 7 + 1)) % 7 = w := by omega
    rw [this]; exact hw

/-- C13: `resolveMaintenanceWindowTime` composes the daily begin and end times (hour,
minute, second, nanosecond, location of the window times) with the calendar date of the
reference time `n`, which is `after` exactly when `after` is strictly later than now and is
now otherwise, and shifts both by the same number of days `d`, with 0 ≤ d ≤ 6, to the first
weekday in the allowed set on or after the weekday of `n`; `d` = 0 when the weekday of `n` is
itself allowed.  The shift is `AddDate(0, 0, d)`; for a window time in a location without
offset changes the result is the window time composed with the date of `n` plus `d`. -/
theorem composeWindow_first_available_day (rx : String → String → Option Bool)
    (localLoc : Location) (now after : Time) (r : Runtime) (policy : MaintenancePolicy)
    (n : Time) (r1 : Runtime) (days : List Int) (d : Int)
    (hn : n = referenceTime now after)
    (hr1 : r1 = applyPolicy rx localLoc r policy)
    (hdays : days = ConvertSliceOfDaysToMap r1.MaintenanceDays)
    (hd : d = FirstAvailableDayDiff n.Weekday days) :
    (n = if now.sec < after.sec ∨ (now.sec = after.sec ∧ now.nsec < after.nsec)
      then after else now) ∧
    composeWindow n r1 =
      ((Date n.date r1.MaintenanceWindowBegin.Hour r1.MaintenanceWindowBegin.Minute
          r1.MaintenanceWindowBegin.Second r1.MaintenanceWindowBegin.Nanosecond
          r1.MaintenanceWindowBegin.Location).AddDate d,
        (Date n.date r1.MaintenanceWindowEnd.Hour r1.MaintenanceWindowEnd.Minute
          r1.MaintenanceWindowEnd.Second r1.MaintenanceWindowEnd.Nanosecond
          r1.MaintenanceWindowEnd.Location).AddDate d) ∧
    (r1.MaintenanceWindowBegin.Location.tx = [] →
      (composeWindow n r1).1 =
        Date (n.date + d) r1.MaintenanceWindowBegin.Hour r1.MaintenanceWindowBegin.Minute
          r1.MaintenanceWindowBegin.Second r1.MaintenanceWindowBegin.Nanosecond
          r1.MaintenanceWindowBegin.Location) ∧
    (r1.MaintenanceWindowEnd.Location.tx = [] →
      (composeWindow n r1).2 =
        Date (n.date + d) r1.MaintenanceWindowEnd.Hour r1.MaintenanceWindowEnd.Minute
          r1.MaintenanceWindowEnd.Second r1.MaintenanceWindowEnd.Nanosecond
          r1.MaintenanceWindowEnd.Location) ∧
    resolveMaintenanceWindowTime rx localLoc now r policy after =
      ((skipPassedWindow n r1 (adjustEnd (composeWindow n r1))).1,
        (skipPassedWindow n r1 (adjustEnd (composeWindow n r1))).2, r1.MaintenanceDays) ∧
    0 ≤ d ∧ d ≤ 6 ∧
    (n.Weekday ∈ days → d = 0) ∧
    (days ≠ [] → (n.Weekday + d) % 7 ∈ days ∧
      ∀ k, 0 ≤ k → k < d → (n.Weekday + k) % 7 ∉ days) := by
  have hf := FirstAvailableDayDiff_first n.Weekday days
  have hw := Time.Weekday_range n
  rw [← hd] at hf
  obtain ⟨f1, f2, f3, f4⟩ := hf
  have hc : composeWindow n r1 =
      ((Date n.date r1.MaintenanceWindowBegin.Hour r1.MaintenanceWindowBegin.Minute
          r1.MaintenanceWindowBegin.Second r1.MaintenanceWindowBegin.Nanosecond
          r1.MaintenanceWindowBegin.Location).AddDate d,
        (Date n.date r1.MaintenanceWindowEnd.Hour r1.MaintenanceWindowEnd.Minute
          r1.MaintenanceWindowEnd.Second r1.MaintenanceWindowEnd.Nanosecond
          r1.MaintenanceWindowEnd.Location).AddDate d) := by
    simp only [composeWindow, composeWindowWith, ← hdays, ← hd]
  refine ⟨?_, hc, ?_, ?_, ?_, f1, f2, ?_, ?_⟩
  · rw [hn]
    simp only [referenceTime, Time.After, Time.Before, decide_eq_true_eq]
  · intro h
    rw [hc]
    exact Date_AddDate _ _ _ _ _ _ _ h
  · intro h
    rw [hc]
    exact Date_AddDate _ _ _ _ _ _ _ h
  · subst hn hr1
    rfl
  · intro h
    apply f3
    have : n.Weekday % 7 = n.Weekday := by omega
    rw [this]; exact h
  · intro hne
    have hrange : ∀ w ∈ days, 0 ≤ w ∧ w ≤ 6 := by
      intro w hw
      rw [hdays] at hw
      exact ConvertSliceOfDaysToMap_range _ w hw
    exact f4 (exists_available_day n.Weekday days hrange hne).1

/-- Witness for C13: Tuesday 2024-01-02 with the days Monday and Wednesday: one day. -/
theorem composeWindow_first_available_day_witness :
    composeWindow fixTuesday
        (applyPolicy quietEnv.regexpMatchString utcLoc (fixRuntime "i-1") fixPolicy) =
      (Date (fixTuesday.date + 1) 2 0 0 0 utcLoc, Date (fixTuesday.date + 1) 4 0 0 0 utcLoc) ∧
    FirstAvailableDayDiff fixTuesday.Weekday [1, 3] = 1 :=
  ⟨Prod.ext
    ((composeWindow_first_available_day quietEnv.regexpMatchString utcLoc fixTuesday Time.zero
      (fixRuntime "i-1") fixPolicy fixTuesday
      (applyPolicy quietEnv.regexpMatchString utcLoc (fixRuntime "i-1") fixPolicy) [1, 3] 1
      (by decide) rfl (by decide) (by decide)).2.2.1 (by decide))
    ((composeWindow_first_available_day quietEnv.regexpMatchString utcLoc fixTuesday Time.zero
      (fixRuntime "i-1") fixPolicy fixTuesday
      (applyPolicy quietEnv.regexpMatchString utcLoc (fixRuntime "i-1") fixPolicy) [1, 3] 1
      (by decide) rfl (by decide) (by decide)).2.2.2.1 (by decide)),
    by decide⟩

theorem Time.After_false_iff (s e : Time) :
    e.After s = false ↔ (e.Before s = true ∨ e.Equal s = true) := by
  simp only [Time.After, Time.Before, Time.Equal, decide_eq_false_iff_not, decide_eq_true_eq]
  omega

/-- C14: in `resolveMaintenanceWindowTime`, if the composed end is not after the composed
start (it is before the start or equal to it), the end is moved forward by exactly one
calendar day, `AddDate(0, 0, 1)`: the next date with the clock reading, the nanoseconds and
the location of the end; if the composed end is after the start, the window is left as it
is.  In a location without offset changes the moved end has the next date and the same time
of day, and is 86400 seconds later. -/
theorem adjustEnd_crossing_midnight (rx : String → String → Option Bool)
    (localLoc : Location) (now after : Time) (r : Runtime) (policy : MaintenancePolicy)
    (n : Time) (r1 : Runtime) (w : Time × Time)
    (hn : n = referenceTime now after)
    (hr1 : r1 = applyPolicy rx localLoc r policy)
    (hw : w = composeWindow n r1) :
    resolveMaintenanceWindowTime rx localLoc now r policy after =
      ((skipPassedWindow n r1 (adjustEnd w)).1, (skipPassedWindow n r1 (adjustEnd w)).2,
        r1.MaintenanceDays) ∧
    (w.2.After w.1 = false → adjustEnd w = (w.1, w.2.AddDate 1)) ∧
    (w.2.After w.1 = true → adjustEnd w = w) ∧
    (w.2.After w.1 = false ↔
      (w.2.sec < w.1.sec ∨ (w.2.sec = w.1.sec ∧ w.2.nsec ≤ w.1.nsec))) ∧
    w.2.AddDate 1 =
      Date (w.2.date + 1) w.2.Hour w.2.Minute w.2.Second w.2.Nanosecond w.2.Location ∧
    (w.2.AddDate 1).Nanosecond = w.2.Nanosecond ∧
    (w.2.AddDate 1).Location = w.2.Location ∧
    (w.2.Location.tx = [] →
      (w.2.AddDate 1).date = w.2.date + 1 ∧
      (w.2.AddDate 1).Hour = w.2.Hour ∧ (w.2.AddDate 1).Minute = w.2.Minute ∧
      (w.2.AddDate 1).Second = w.2.Second ∧
      (w.2.AddDate 1).sec = w.2.sec + 86400) := by
  refine ⟨?_, ?_, ?_, ?_, rfl, rfl, rfl, ?_⟩
  · subst hn hr1 hw
    rfl
  · intro h
    have h1 := (Time.After_false_iff w.1 w.2).mp h
    unfold adjustEnd
    rcases h1 with h1 | h1 <;> simp [h1]
  · intro h
    have h1 : ¬ (w.2.Before w.1 = true ∨ w.2.Equal w.1 = true) := by
      intro hc
      have := (Time.After_false_iff w.1 w.2).mpr hc
      rw [h] at this
      exact absurd this (by decide)
    unfold adjustEnd
    have hb : w.2.Before w.1 = false := by
      cases hx : w.2.Before w.1
      · rfl
      · exact absurd (Or.inl hx) h1
    have he : w.2.Equal w.1 = false := by
      cases hx : w.2.Equal w.1
      · rfl
      · exact absurd (Or.inr hx) h1
    simp [hb, he]
  · simp only [Time.After, Time.Before, decide_eq_false_iff_not]
    omega
  · intro h
    have hfix : w.2.loc.tx = [] := h
    have hadd := Time.AddDate_fixed w.2 1 hfix
    have ho : (w.2.AddDate 1).offset = w.2.offset := by
      rw [Time.offset_fixed _ (by rw [Time.AddDate_loc]; exact hfix), Time.offset_fixed _ hfix,
        Time.AddDate_loc]
    have hs : (w.2.AddDate 1).sec = w.2.sec + 86400 := by
      rw [hadd]
      simp
    refine ⟨?_, ?_, ?_, ?_, hs⟩
    · simp only [Time.date, Time.wall, ho, hs]
      omega
    · simp only [Time.Hour, Time.wall, ho, hs]
      omega
    · simp only [Time.Minute, Time.wall, ho, hs]
      omega
    · simp only [Time.Second, Time.wall, ho, hs]
      omega

/-- Witness for C14: the window from 23:00 to 01:00 UTC composed on Tuesday 2024-01-02 ends
on Wednesday. -/
theorem adjustEnd_crossing_midnight_witness :
    adjustEnd (composeWindow fixTuesday
        (applyPolicy quietEnv.regexpMatchString utcLoc (fixRuntime "i-1") nightPolicy)) =
      ((composeWindow fixTuesday
          (applyPolicy quietEnv.regexpMatchString utcLoc (fixRuntime "i-1") nightPolicy)).1,
        (composeWindow fixTuesday
          (applyPolicy quietEnv.regexpMatchString utcLoc (fixRuntime "i-1")
            nightPolicy)).2.AddDate 1) ∧
    adjustEnd (composeWindow fixTuesday
        (applyPolicy quietEnv.regexpMatchString utcLoc (fixRuntime "i-1") nightPolicy)) =
      (Date fixTuesday.date 23 0 0 0 utcLoc, Date (fixTuesday.date + 1) 1 0 0 0 utcLoc) :=
  ⟨(adjustEnd_crossing_midnight quietEnv.regexpMatchString utcLoc fixTuesday Time.zero
      (fixRuntime "i-1") nightPolicy fixTuesday
      (applyPolicy quietEnv.regexpMatchString utcLoc (fixRuntime "i-1") nightPolicy)
      (composeWindow fixTuesday
        (applyPolicy quietEnv.regexpMatchString utcLoc (fixRuntime "i-1") nightPolicy))
      (by decide) rfl rfl).2.1 (by decide),
    by decide⟩

/-- C17, as stated, fails: two calls with the same runtime, policy and earliest-allowed time,
made on Tuesday 2024-01-02 and on Tuesday 2024-01-09, return different windows. -/
theorem resolveMaintenanceWindowTime_depends_on_clock :
    resolveMaintenanceWindowTime quietEnv.regexpMatchString utcLoc fixTuesday
        (fixRuntime "i-1") fixPolicy Time.zero =
      (Date 738887 2 0 0 0 utcLoc, Date 738887 4 0 0 0 utcLoc, ["Mon", "Wed"]) ∧
    resolveMaintenanceWindowTime quietEnv.regexpMatchString utcLoc fixNextTuesday
        (fixRuntime "i-1") fixPolicy Time.zero =
      (Date 738894 2 0 0 0 utcLoc, Date 738894 4 0 0 0 utcLoc, ["Mon", "Wed"]) ∧
    resolveMaintenanceWindowTime quietEnv.regexpMatchString utcLoc fixTuesday
        (fixRuntime "i-1") fixPolicy Time.zero ≠
      resolveMaintenanceWindowTime quietEnv.regexpMatchString utcLoc fixNextTuesday
        (fixRuntime "i-1") fixPolicy Time.zero := by
  decide

/-- C17, amended: `resolveMaintenanceWindowTime` is a function of its three arguments
(runtime, maintenance policy, earliest-allowed time) and of the clock reading it takes with
`time.Now()` (in a process, whose local location and pattern matching are fixed): two calls
with equal arguments return equal (start, end, allowed-days) when they read the same clock
value, or when the earliest-allowed time is strictly later than both clock values. -/
theorem resolveMaintenanceWindowTime_clock (rx : String → String → Option Bool)
    (localLoc : Location) (now1 now2 : Time) (r : Runtime) (policy : MaintenancePolicy)
    (after : Time)
    (h : now1 = now2 ∨ (after.After now1 = true ∧ after.After now2 = true)) :
    resolveMaintenanceWindowTime rx localLoc now1 r policy after =
      resolveMaintenanceWindowTime rx localLoc now2 r policy after := by
  rcases h with h | ⟨h1, h2⟩
  · rw [h]
  · simp only [resolveMaintenanceWindowTime, resolveWindowWith, referenceTime, h1, h2, if_true]

/-- Witness for C17: calls on Tuesday 2024-01-02 and on the Wednesday after it, with the
earliest-allowed time on Tuesday 2024-01-09. -/
theorem resolveMaintenanceWindowTime_clock_witness :
    resolveMaintenanceWindowTime quietEnv.regexpMatchString utcLoc fixTuesday
        (fixRuntime "i-1") fixPolicy fixNextTuesday =
      resolveMaintenanceWindowTime quietEnv.regexpMatchString utcLoc fixWednesday
        (fixRuntime "i-1") fixPolicy fixNextTuesday :=
  resolveMaintenanceWindowTime_clock quietEnv.regexpMatchString utcLoc fixTuesday fixWednesday
    (fixRuntime "i-1") fixPolicy fixNextTuesday (Or.inr ⟨by decide, by decide⟩)

theorem composeWindowWith_loc (first : Int → List Int → Int) (n : Time) (r : Runtime) :
    (composeWindowWith first n r).1.loc = r.MaintenanceWindowBegin.loc ∧
      (composeWindowWith first n r).2.loc = r.MaintenanceWindowEnd.loc :=
  ⟨rfl, rfl⟩

theorem composeWindowWith_start_sec (first : Int → List Int → Int) (n : Time) (r : Runtime)
    (h : r.MaintenanceWindowBegin.loc.tx = []) :
    ((composeWindowWith first n r).1).sec =
      (n.date + first n.Weekday (ConvertSliceOfDaysToMap r.MaintenanceDays)) * 86400 +
        r.MaintenanceWindowBegin.wall % 86400 - r.MaintenanceWindowBegin.loc.offset := by
  unfold composeWindowWith
  dsimp only
  rw [Time.Location, Date_AddDate _ _ _ _ _ _ _ h, Date_fixed _ _ _ _ _ _ h]
  simp only [Time.Hour, Time.Minute, Time.Second]
  omega

theorem composeWindowWith_end_sec (first : Int → List Int → Int) (n : Time) (r : Runtime)
    (h : r.MaintenanceWindowEnd.loc.tx = []) :
    ((composeWindowWith first n r).2).sec =
      (n.date + first n.Weekday (ConvertSliceOfDaysToMap r.MaintenanceDays)) * 86400 +
        r.MaintenanceWindowEnd.wall % 86400 - r.MaintenanceWindowEnd.loc.offset := by
  unfold composeWindowWith
  dsimp only
  rw [Time.Location, Date_AddDate _ _ _ _ _ _ _ h, Date_fixed _ _ _ _ _ _ h]
  simp only [Time.Hour, Time.Minute, Time.Second]
  omega

theorem adjustEnd_loc (w : Time × Time) :
    (adjustEnd w).1.loc = w.1.loc ∧ (adjustEnd w).2.loc = w.2.loc := by
  unfold adjustEnd
  split
  · exact ⟨rfl, rfl⟩
  · exact ⟨rfl, rfl⟩

theorem skipPassedWindowWith_loc (next : Int → List Int → Int) (n : Time) (r : Runtime)
    (w : Time × Time) :
    (skipPassedWindowWith next n r w).1.loc = w.1.loc ∧
      (skipPassedWindowWith next n r w).2.loc = w.2.loc := by
  unfold skipPassedWindowWith
  split
  · exact ⟨rfl, rfl⟩
  · exact ⟨rfl, rfl⟩

/-- In locations without offset changes, a window whose composed start and end are less
than a day apart ends, once adjusted, after its start and not after its start plus one
day. -/
theorem adjustEnd_well_formed (w : Time × Time)
    (hf1 : w.1.loc.tx = []) (hf2 : w.2.loc.tx = [])
    (h1 : w.2.sec < w.1.sec + 86400) (h2 : w.1.sec < w.2.sec + 86400) :
    (adjustEnd w).2.After (adjustEnd w).1 = true ∧
      (adjustEnd w).2.After ((adjustEnd w).1.AddDate 1) = false := by
  unfold adjustEnd
  by_cases h : (w.2.Before w.1 || w.2.Equal w.1) = true
  · rw [if_pos h]
    simp only [Bool.or_eq_true, Time.Before, Time.Equal, decide_eq_true_eq] at h
    simp only [Time.AddDate_fixed _ _ hf1, Time.AddDate_fixed _ _ hf2, Time.After, Time.Before,
      decide_eq_true_eq, decide_eq_false_iff_not]
    omega
  · rw [if_neg h]
    simp only [Bool.or_eq_true, Time.Before, Time.Equal, decide_eq_true_eq] at h
    simp only [Time.AddDate_fixed _ _ hf1, Time.After, Time.Before, decide_eq_true_eq,
      decide_eq_false_iff_not]
    omega

theorem skipPassedWindowWith_well_formed (next : Int → List Int → Int) (n : Time)
    (r : Runtime) (w : Time × Time) (hf1 : w.1.loc.tx = []) (hf2 : w.2.loc.tx = [])
    (h : w.2.After w.1 = true ∧ w.2.After (w.1.AddDate 1) = false) :
    (skipPassedWindowWith next n r w).2.After (skipPassedWindowWith next n r w).1 = true ∧
      (skipPassedWindowWith next n r w).2.After
        ((skipPassedWindowWith next n r w).1.AddDate 1) = false := by
  unfold skipPassedWindowWith
  split
  · have h3 := Time.AddDate_fixed
      ⟨w.1.sec + next n.Weekday (ConvertSliceOfDaysToMap r.MaintenanceDays) * 86400,
        w.1.nsec, w.1.loc⟩ 1 hf1
    simp only [Time.AddDate_fixed _ _ hf1, Time.AddDate_fixed _ _ hf2, Time.After,
      Time.Before, decide_eq_true_eq, decide_eq_false_iff_not] at h h3 ⊢
    rw [h3]
    dsimp only
    omega
  · exact h

/-- For window times that carry the same offset in locations without offset changes, the
window computed with any day-diff functions ends after its start and not after its start
plus one day. -/
theorem resolveWindowWith_well_formed (first next : Int → List Int → Int)
    (rx : String → String → Option Bool) (localLoc : Location) (now : Time) (r : Runtime)
    (policy : MaintenancePolicy) (after : Time)
    (hb : (applyPolicy rx localLoc r policy).MaintenanceWindowBegin.loc.tx = [])
    (he : (applyPolicy rx localLoc r policy).MaintenanceWindowEnd.loc.tx = [])
    (hoff : (applyPolicy rx localLoc r policy).MaintenanceWindowBegin.loc.offset =
      (applyPolicy rx localLoc r policy).MaintenanceWindowEnd.loc.offset) :
    (resolveWindowWith first next rx localLoc now r policy after).2.1.After
        (resolveWindowWith first next rx localLoc now r policy after).1 = true ∧
      (resolveWindowWith first next rx localLoc now r policy after).2.1.After
        ((resolveWindowWith first next rx localLoc now r policy after).1.AddDate 1) =
        false := by
  unfold resolveWindowWith
  dsimp only
  have hl := composeWindowWith_loc first (referenceTime now after)
    (applyPolicy rx localLoc r policy)
  have ha := adjustEnd_loc (composeWindowWith first (referenceTime now after)
    (applyPolicy rx localLoc r policy))
  apply skipPassedWindowWith_well_formed
  · rw [ha.1, hl.1]; exact hb
  · rw [ha.2, hl.2]; exact he
  apply adjustEnd_well_formed
  · rw [hl.1]; exact hb
  · rw [hl.2]; exact he
  · rw [composeWindowWith_start_sec _ _ _ hb, composeWindowWith_end_sec _ _ _ he, hoff]
    omega
  · rw [composeWindowWith_start_sec _ _ _ hb, composeWindowWith_end_sec _ _ _ he, hoff]
    omega

/-- Counterexample for C30: under a local location with the offsets of central Europe, a
window that begins and ends at 00:00 at UTC+01:00 on every day, asked for on Sunday
2030-10-27, starts at 2030-10-26 22:00 UTC and ends at 2030-10-27 23:00 UTC: both window
times carry the offset +01:00, and the end is 25 hours after the start. -/
theorem resolveMaintenanceWindowTime_offset_change :
    (applyPolicy quietEnv.regexpMatchString cetLoc (fixRuntime "i-1")
        midnightPolicy).MaintenanceWindowBegin.offset = 3600 ∧
    (applyPolicy quietEnv.regexpMatchString cetLoc (fixRuntime "i-1")
        midnightPolicy).MaintenanceWindowEnd.offset = 3600 ∧
    (applyPolicy quietEnv.regexpMatchString cetLoc (fixRuntime "i-1")
        midnightPolicy).MaintenanceWindowBegin.Location = cetLoc ∧
    (applyPolicy quietEnv.regexpMatchString cetLoc (fixRuntime "i-1")
        midnightPolicy).MaintenanceWindowEnd.Location = cetLoc ∧
    resolveMaintenanceWindowTime quietEnv.regexpMatchString cetLoc fixAutumnSunday
        (fixRuntime "i-1") midnightPolicy Time.zero =
      (⟨64054879200, 0, cetLoc⟩, ⟨64054969200, 0, cetLoc⟩,
        ["Mon", "Tue", "Wed", "Thu", "Fri", "Sat", "Sun"]) ∧
    (⟨64054879200, 0, cetLoc⟩ : Time) = Date 741376 0 0 0 0 cetLoc ∧
    (⟨64054969200, 0, cetLoc⟩ : Time) = Date 741377 0 0 0 0 cetLoc ∧
    (64054969200 : Int) - 64054879200 = 25 * 3600 ∧
    (resolveMaintenanceWindowTime quietEnv.regexpMatchString cetLoc fixAutumnSunday
        (fixRuntime "i-1") midnightPolicy Time.zero).2.1.After
      ⟨(resolveMaintenanceWindowTime quietEnv.regexpMatchString cetLoc fixAutumnSunday
          (fixRuntime "i-1") midnightPolicy Time.zero).1.sec + 24 * 3600, 0, cetLoc⟩ = true := by
  decide

/-- C30, amended: when the effective window begin and end times of the runtime (after the
policy was applied) are in locations without offset changes and carry the same UTC offset,
the end returned by `resolveMaintenanceWindowTime` is strictly after the returned start and
not after the start moved one day forward, which is then 24 hours after the start. -/
theorem resolveMaintenanceWindowTime_well_formed (rx : String → String → Option Bool)
    (localLoc : Location) (now : Time) (r : Runtime) (policy : MaintenancePolicy)
    (after : Time)
    (hb : (applyPolicy rx localLoc r policy).MaintenanceWindowBegin.Location.tx = [])
    (he : (applyPolicy rx localLoc r policy).MaintenanceWindowEnd.Location.tx = [])
    (hoff : (applyPolicy rx localLoc r policy).MaintenanceWindowBegin.offset =
      (applyPolicy rx localLoc r policy).MaintenanceWindowEnd.offset) :
    (resolveMaintenanceWindowTime rx localLoc now r policy after).2.1.After
        (resolveMaintenanceWindowTime rx localLoc now r policy after).1 = true ∧
      (resolveMaintenanceWindowTime rx localLoc now r policy after).2.1.After
        ((resolveMaintenanceWindowTime rx localLoc now r policy after).1.AddDate 1) =
        false ∧
      (resolveMaintenanceWindowTime rx localLoc now r policy after).1.AddDate 1 =
        ⟨(resolveMaintenanceWindowTime rx localLoc now r policy after).1.sec + 24 * 3600,
          (resolveMaintenanceWindowTime rx localLoc now r policy after).1.nsec,
          (resolveMaintenanceWindowTime rx localLoc now r policy after).1.loc⟩ ∧
      (resolveMaintenanceWindowTime rx localLoc now r policy after).1.sec ≤
        (resolveMaintenanceWindowTime rx localLoc now r policy after).2.1.sec ∧
      (resolveMaintenanceWindowTime rx localLoc now r policy after).2.1.sec ≤
        (resolveMaintenanceWindowTime rx localLoc now r policy after).1.sec + 24 * 3600 := by
  have hoff2 : (applyPolicy rx localLoc r policy).MaintenanceWindowBegin.loc.offset =
      (applyPolicy rx localLoc r policy).MaintenanceWindowEnd.loc.offset := by
    rw [← Time.offset_fixed _ hb, ← Time.offset_fixed _ he]
    exact hoff
  have h := resolveWindowWith_well_formed FirstAvailableDayDiff NextAvailableDayDiff rx
    localLoc now r policy after hb he hoff2
  have hloc : (resolveMaintenanceWindowTime rx localLoc now r policy after).1.loc.tx = [] := by
    unfold resolveMaintenanceWindowTime resolveWindowWith
    dsimp only
    rw [(skipPassedWindowWith_loc _ _ _ _).1, (adjustEnd_loc _).1,
      (composeWindowWith_loc _ _ _).1]
    exact hb
  have hadd := Time.AddDate_fixed _ 1 hloc
  refine ⟨h.1, h.2, ?_, ?_⟩
  · rw [hadd]
    norm_num
  · have h1 := h.1
    have h2 := h.2
    unfold resolveMaintenanceWindowTime at hadd
    rw [hadd] at h2
    simp only [Time.After, Time.Before, decide_eq_true_eq, decide_eq_false_iff_not] at h1 h2
    unfold resolveMaintenanceWindowTime
    omega

/-- Witness for C30: the window 02:00 to 04:00 UTC on Monday and Wednesday, asked for on a
Tuesday under a local location with offset changes. -/
theorem resolveMaintenanceWindowTime_well_formed_witness :
    (applyPolicy quietEnv.regexpMatchString cetLoc (fixRuntime "i-1")
        fixPolicy).MaintenanceWindowBegin.Location.tx = [] ∧
    (resolveMaintenanceWindowTime quietEnv.regexpMatchString cetLoc fixTuesday
        (fixRuntime "i-1") fixPolicy Time.zero).2.1.After
      (resolveMaintenanceWindowTime quietEnv.regexpMatchString cetLoc fixTuesday
        (fixRuntime "i-1") fixPolicy Time.zero).1 = true ∧
    (resolveMaintenanceWindowTime quietEnv.regexpMatchString cetLoc fixTuesday
        (fixRuntime "i-1") fixPolicy Time.zero).2.1.sec ≤
      (resolveMaintenanceWindowTime quietEnv.regexpMatchString cetLoc fixTuesday
        (fixRuntime "i-1") fixPolicy Time.zero).1.sec + 24 * 3600 :=
  ⟨by decide,
    (resolveMaintenanceWindowTime_well_formed quietEnv.regexpMatchString cetLoc fixTuesday
      (fixRuntime "i-1") fixPolicy Time.zero (by decide) (by decide) (by decide)).1,
    (resolveMaintenanceWindowTime_well_formed quietEnv.regexpMatchString cetLoc fixTuesday
      (fixRuntime "i-1") fixPolicy Time.zero (by decide) (by decide)
      (by decide)).2.2.2.2⟩

theorem applyPolicy_empty (rx : String → String → Option Bool) (localLoc : Location)
    (r : Runtime) : applyPolicy rx localLoc r MaintenancePolicy.empty = r := by
  cases r
  rfl

/-- With any day-diff functions, a runtime whose window begin and end are the zero time gets
the window from 00:00 UTC of a calendar day to 00:00 UTC of the day after. -/
theorem resolveWindowWith_zero_times (first next : Int → List Int → Int)
    (rx : String → String → Option Bool) (localLoc : Location) (now : Time) (r : Runtime)
    (after : Time) (hb : r.MaintenanceWindowBegin = Time.zero)
    (he : r.MaintenanceWindowEnd = Time.zero) :
    ∃ d : Int,
      (d = 0 ∨ d = next (referenceTime now after).Weekday
        (ConvertSliceOfDaysToMap r.MaintenanceDays)) ∧
      resolveWindowWith first next rx localLoc now r MaintenancePolicy.empty after =
        (Date ((referenceTime now after).date + first (referenceTime now after).Weekday
            (ConvertSliceOfDaysToMap r.MaintenanceDays) + d) 0 0 0 0 utcLoc,
          Date ((referenceTime now after).date + first (referenceTime now after).Weekday
            (ConvertSliceOfDaysToMap r.MaintenanceDays) + d + 1) 0 0 0 0 utcLoc,
          r.MaintenanceDays) := by
  have hfix : utcLoc.tx = [] := rfl
  have hc : composeWindowWith first (referenceTime now after) r =
      (Date ((referenceTime now after).date + first (referenceTime now after).Weekday
          (ConvertSliceOfDaysToMap r.MaintenanceDays)) 0 0 0 0 utcLoc,
        Date ((referenceTime now after).date + first (referenceTime now after).Weekday
          (ConvertSliceOfDaysToMap r.MaintenanceDays)) 0 0 0 0 utcLoc) := by
    unfold composeWindowWith
    dsimp only
    rw [hb, he]
    have h0 : Time.zero.Hour = 0 ∧ Time.zero.Minute = 0 ∧ Time.zero.Second = 0 ∧
        Time.zero.Nanosecond = 0 ∧ Time.zero.Location = utcLoc := by decide
    rw [h0.1, h0.2.1, h0.2.2.1, h0.2.2.2.1, h0.2.2.2.2, Date_AddDate _ _ _ _ _ _ _ hfix]
  have ha : ∀ day : Int, adjustEnd (Date day 0 0 0 0 utcLoc, Date day 0 0 0 0 utcLoc) =
      (Date day 0 0 0 0 utcLoc, Date (day + 1) 0 0 0 0 utcLoc) := by
    intro day
    unfold adjustEnd
    have heq : ((Date day 0 0 0 0 utcLoc).Before (Date day 0 0 0 0 utcLoc) ||
        (Date day 0 0 0 0 utcLoc).Equal (Date day 0 0 0 0 utcLoc)) = true := by
      simp [Time.Equal]
    rw [if_pos heq, Date_AddDate _ _ _ _ _ _ _ hfix]
  unfold resolveWindowWith
  dsimp only
  rw [applyPolicy_empty, hc, ha]
  unfold skipPassedWindowWith
  split
  · refine ⟨next (referenceTime now after).Weekday
      (ConvertSliceOfDaysToMap r.MaintenanceDays), Or.inr rfl, ?_⟩
    dsimp only
    rw [Date_AddDate _ _ _ _ _ _ _ hfix, Date_AddDate _ _ _ _ _ _ _ hfix]
    have e : ∀ a b c : Int, a + b + 1 + c = a + b + c + 1 := by intros; ring
    rw [e]
  · exact ⟨0, Or.inl rfl, by rw [add_zero]⟩

/-- Counterexample for C16: with no policy at all and a runtime that carries no window data
of its own, asked on Tuesday 2024-01-02, whatever functions stand for the two day-diff
helpers, the returned end is 24 hours after the returned start, so the two are not both the
zero time. -/
theorem resolveMaintenanceWindowTime_no_policy_not_zero :
    (fixRuntime "i-1").MaintenanceDays = [] ∧
    (fixRuntime "i-1").MaintenanceWindowBegin = Time.zero ∧
    (fixRuntime "i-1").MaintenanceWindowEnd = Time.zero ∧
    ∀ first next : Int → List Int → Int,
      (resolveWindowWith first next quietEnv.regexpMatchString utcLoc fixTuesday
          (fixRuntime "i-1") MaintenancePolicy.empty Time.zero).2.1.sec =
        (resolveWindowWith first next quietEnv.regexpMatchString utcLoc fixTuesday
          (fixRuntime "i-1") MaintenancePolicy.empty Time.zero).1.sec + 24 * 3600 ∧
      ¬ ((resolveWindowWith first next quietEnv.regexpMatchString utcLoc fixTuesday
          (fixRuntime "i-1") MaintenancePolicy.empty Time.zero).1 = Time.zero ∧
        (resolveWindowWith first next quietEnv.regexpMatchString utcLoc fixTuesday
          (fixRuntime "i-1") MaintenancePolicy.empty Time.zero).2.1 = Time.zero) := by
  refine ⟨rfl, rfl, rfl, ?_⟩
  intro first next
  obtain ⟨d, -, h⟩ := resolveWindowWith_zero_times first next quietEnv.regexpMatchString
    utcLoc fixTuesday (fixRuntime "i-1") Time.zero rfl rfl
  rw [h]
  have hfix : utcLoc.tx = [] := rfl
  have hs : ∀ day : Int, (Date day 0 0 0 0 utcLoc).sec = day * 86400 := by
    intro day
    rw [Date_fixed _ _ _ _ _ _ hfix]
    simp [utcLoc]
  dsimp only
  rw [hs, hs]
  constructor
  · ring
  · intro hz
    have h1 := congrArg Time.sec hz.1
    have h2 := congrArg Time.sec hz.2
    rw [hs] at h1 h2
    simp only [Time.zero] at h1 h2
    omega

/-- C16, amended: with no policy at all (an empty `MaintenancePolicy`) and a runtime whose
window begin and end are the zero time, whatever functions stand for the two day-diff
helpers, the function returns 00:00 UTC of a calendar day as the start and 00:00 UTC of the
day after, 24 hours later, as the end, together with the days of the runtime.  The calendar
day is the date of the reference time moved by what `FirstAvailableDayDiff` returns and, if
the window has wholly passed, by what `NextAvailableDayDiff` returns.  So start and end are
never both the zero time.  Nor are they for an empty allowed-days set with window times of
one offset in locations without offset changes: the returned end is after the returned
start. -/
theorem resolveMaintenanceWindowTime_no_policy (first next : Int → List Int → Int)
    (rx : String → String → Option Bool) (localLoc : Location) (now : Time) (r : Runtime)
    (after : Time) (hb : r.MaintenanceWindowBegin = Time.zero)
    (he : r.MaintenanceWindowEnd = Time.zero) :
    (∃ d : Int,
      (d = 0 ∨ d = next (referenceTime now after).Weekday
        (ConvertSliceOfDaysToMap r.MaintenanceDays)) ∧
      resolveWindowWith first next rx localLoc now r MaintenancePolicy.empty after =
        (Date ((referenceTime now after).date + first (referenceTime now after).Weekday
            (ConvertSliceOfDaysToMap r.MaintenanceDays) + d) 0 0 0 0 utcLoc,
          Date ((referenceTime now after).date + first (referenceTime now after).Weekday
            (ConvertSliceOfDaysToMap r.MaintenanceDays) + d + 1) 0 0 0 0 utcLoc,
          r.MaintenanceDays)) ∧
    (resolveWindowWith first next rx localLoc now r MaintenancePolicy.empty after).2.1.sec =
      (resolveWindowWith first next rx localLoc now r MaintenancePolicy.empty after).1.sec +
        24 * 3600 ∧
    (resolveWindowWith first next rx localLoc now r MaintenancePolicy.empty after).2.1.After
      (resolveWindowWith first next rx localLoc now r MaintenancePolicy.empty after).1 =
      true ∧
    ¬ ((resolveWindowWith first next rx localLoc now r MaintenancePolicy.empty after).1 =
        Time.zero ∧
      (resolveWindowWith first next rx localLoc now r MaintenancePolicy.empty after).2.1 =
        Time.zero) ∧
    resolveMaintenanceWindowTime rx localLoc now r MaintenancePolicy.empty after =
      resolveWindowWith FirstAvailableDayDiff NextAvailableDayDiff rx localLoc now r
        MaintenancePolicy.empty after ∧
    ∀ (q : Runtime) (policy : MaintenancePolicy),
      (applyPolicy rx localLoc q policy).MaintenanceDays = [] →
      (applyPolicy rx localLoc q policy).MaintenanceWindowBegin.Location.tx = [] →
      (applyPolicy rx localLoc q policy).MaintenanceWindowEnd.Location.tx = [] →
      (applyPolicy rx localLoc q policy).MaintenanceWindowBegin.offset =
        (applyPolicy rx localLoc q policy).MaintenanceWindowEnd.offset →
      (resolveWindowWith first next rx localLoc now q policy after).2.2 = [] ∧
      (resolveWindowWith first next rx localLoc now q policy after).2.1.After
        (resolveWindowWith first next rx localLoc now q policy after).1 = true ∧
      ¬ ((resolveWindowWith first next rx localLoc now q policy after).1 = Time.zero ∧
        (resolveWindowWith first next rx localLoc now q policy after).2.1 = Time.zero) := by
  have hex := resolveWindowWith_zero_times first next rx localLoc now r after hb he
  have hall : ∀ (q : Runtime) (policy : MaintenancePolicy),
      (applyPolicy rx localLoc q policy).MaintenanceDays = [] →
      (applyPolicy rx localLoc q policy).MaintenanceWindowBegin.Location.tx = [] →
      (applyPolicy rx localLoc q policy).MaintenanceWindowEnd.Location.tx = [] →
      (applyPolicy rx localLoc q policy).MaintenanceWindowBegin.offset =
        (applyPolicy rx localLoc q policy).MaintenanceWindowEnd.offset →
      (resolveWindowWith first next rx localLoc now q policy after).2.2 = [] ∧
      (resolveWindowWith first next rx localLoc now q policy after).2.1.After
        (resolveWindowWith first next rx localLoc now q policy after).1 = true ∧
      ¬ ((resolveWindowWith first next rx localLoc now q policy after).1 = Time.zero ∧
        (resolveWindowWith first next rx localLoc now q policy after).2.1 = Time.zero) := by
    intro q policy hd hqb hqe hoff
    have hoff2 : (applyPolicy rx localLoc q policy).MaintenanceWindowBegin.loc.offset =
        (applyPolicy rx localLoc q policy).MaintenanceWindowEnd.loc.offset := by
      rw [← Time.offset_fixed _ hqb, ← Time.offset_fixed _ hqe]
      exact hoff
    have hw := (resolveWindowWith_well_formed first next rx localLoc now q policy after
      hqb hqe hoff2).1
    refine ⟨hd, hw, ?_⟩
    intro hz
    rw [hz.1, hz.2] at hw
    exact absurd hw (by decide)
  refine ⟨hex, ?_⟩
  revert hall
  generalize (∀ (q : Runtime) (policy : MaintenancePolicy), _) = P
  intro hall
  obtain ⟨d, -, h⟩ := hex
  rw [h]
  have hfix : utcLoc.tx = [] := rfl
  have hs : ∀ day : Int, (Date day 0 0 0 0 utcLoc).sec = day * 86400 := by
    intro day
    rw [Date_fixed _ _ _ _ _ _ hfix]
    simp [utcLoc]
  dsimp only
  refine ⟨?_, ?_, ?_, rfl, hall⟩
  · rw [hs, hs]
    ring
  · simp only [Time.After, Time.Before, hs, decide_eq_true_eq]
    omega
  · intro hz
    have h1 := congrArg Time.sec hz.1
    have h2 := congrArg Time.sec hz.2
    rw [hs] at h1 h2
    simp only [Time.zero] at h1 h2
    omega

/-- Witness for C16: the runtime without window data on Tuesday 2024-01-02, with the empty
policy and with a policy that gives window times and no days, the day-diff functions being
those modelled from the spec. -/
theorem resolveMaintenanceWindowTime_no_policy_witness :
    (fixRuntime "i-1").MaintenanceWindowBegin = Time.zero ∧
    (fixRuntime "i-1").MaintenanceWindowEnd = Time.zero ∧
    ¬ ((resolveWindowWith FirstAvailableDayDiff NextAvailableDayDiff
          quietEnv.regexpMatchString utcLoc fixTuesday (fixRuntime "i-1")
          MaintenancePolicy.empty Time.zero).1 = Time.zero ∧
      (resolveWindowWith FirstAvailableDayDiff NextAvailableDayDiff
          quietEnv.regexpMatchString utcLoc fixTuesday (fixRuntime "i-1")
          MaintenancePolicy.empty Time.zero).2.1 = Time.zero) ∧
    (applyPolicy quietEnv.regexpMatchString utcLoc (fixRuntime "i-1")
      noDaysPolicy).MaintenanceDays = [] ∧
    ¬ ((resolveWindowWith FirstAvailableDayDiff NextAvailableDayDiff
          quietEnv.regexpMatchString utcLoc fixTuesday (fixRuntime "i-1")
          noDaysPolicy Time.zero).1 = Time.zero ∧
      (resolveWindowWith FirstAvailableDayDiff NextAvailableDayDiff
          quietEnv.regexpMatchString utcLoc fixTuesday (fixRuntime "i-1")
          noDaysPolicy Time.zero).2.1 = Time.zero) :=
  ⟨rfl, rfl,
    (resolveMaintenanceWindowTime_no_policy FirstAvailableDayDiff NextAvailableDayDiff
      quietEnv.regexpMatchString utcLoc fixTuesday (fixRuntime "i-1") Time.zero rfl
      rfl).2.2.2.1,
    by decide,
    ((resolveMaintenanceWindowTime_no_policy FirstAvailableDayDiff NextAvailableDayDiff
      quietEnv.regexpMatchString utcLoc fixTuesday (fixRuntime "i-1") Time.zero rfl
      rfl).2.2.2.2.2 (fixRuntime "i-1") noDaysPolicy (by decide) (by decide) (by decide)
      (by decide)).2.2⟩

/-- C15: two inputs on which the advance of a passed window misses the claim.  With the
window 01:00 to 02:00 UTC on Friday and the clock at Thursday 2024-01-04, 21:00 in a local
location eight hours behind UTC (Friday 05:00 UTC), the window composed for Friday
2024-01-05 has wholly passed and is advanced by the distance from Thursday to the next
allowed day, one day: it is returned on Saturday 2024-01-06, which is not an allowed day.
With the window 00:00 to 01:00 at UTC+02:00 on every day and the clock at Tuesday
2024-01-02, 23:30 UTC, the window is advanced by one day and returned as Tuesday 22:00 to
23:00 UTC, still wholly before the reference time. -/
theorem skipPassedWindow_not_next_available_day :
    fixThursdayWest.Weekday = 4 ∧ fixThursdayWest.date = 738888 ∧
    fixThursdayWest.Hour = 21 ∧ fixThursdayWest.Location = FixedZone (-28800) ∧
    ConvertSliceOfDaysToMap ["Fri"] = [5] ∧
    FirstAvailableDayDiff 4 [5] = 1 ∧ NextAvailableDayDiff 4 [5] = 1 ∧
    adjustEnd (composeWindow fixThursdayWest
        (applyPolicy quietEnv.regexpMatchString (FixedZone (-28800)) (fixRuntime "i-1")
          fridayPolicy)) =
      (Date 738889 1 0 0 0 utcLoc, Date 738889 2 0 0 0 utcLoc) ∧
    (Date 738889 1 0 0 0 utcLoc).Before fixThursdayWest = true ∧
    (Date 738889 2 0 0 0 utcLoc).Before fixThursdayWest = true ∧
    resolveMaintenanceWindowTime quietEnv.regexpMatchString (FixedZone (-28800))
        fixThursdayWest (fixRuntime "i-1") fridayPolicy Time.zero =
      (Date 738890 1 0 0 0 utcLoc, Date 738890 2 0 0 0 utcLoc, ["Fri"]) ∧
    (Date 738890 1 0 0 0 utcLoc).Weekday = 6 ∧
    (Date 738890 1 0 0 0 utcLoc).Weekday ∉ ConvertSliceOfDaysToMap ["Fri"] ∧
    resolveMaintenanceWindowTime quietEnv.regexpMatchString utcLoc fixTuesdayNight
        (fixRuntime "i-1") easternPolicy Time.zero =
      (Date 738887 0 0 0 0 (FixedZone 7200), Date 738887 1 0 0 0 (FixedZone 7200),
        ["Mon", "Tue", "Wed", "Thu", "Fri", "Sat", "Sun"]) ∧
    (Date 738887 0 0 0 0 (FixedZone 7200)).UTC = Date 738886 22 0 0 0 utcLoc ∧
    (Date 738887 1 0 0 0 (FixedZone 7200)).UTC = Date 738886 23 0 0 0 utcLoc ∧
    (Date 738887 0 0 0 0 (FixedZone 7200)).Before fixTuesdayNight = true ∧
    (Date 738887 1 0 0 0 (FixedZone 7200)).Before fixTuesdayNight = true := by
  decide

/-! ### Execute -/

/-- C18: if loading the orchestration fails with no record returned, `Execute` returns a
delay of one minute with no error and its only call is the load (nothing is written); if
loading fails with an error and a record, `Execute` writes that record with state Failed
and the error text as description, and returns no error. -/
theorem execute_load_failure (m : orchestrationManager) (orchestrationID : String)
    (ticks : Nat) (tr : Trace) :
    (∀ err, m.env.orchestrationGetByID tr orchestrationID = .failed err →
      Execute m orchestrationID ticks tr =
        (.returned Minute none, tr ++ [Call.orchestrationGetByID orchestrationID])) ∧
    (∀ o err, m.env.orchestrationGetByID tr orchestrationID = .failedWith o err →
      ∃ d, Execute m orchestrationID ticks tr =
        (.returned d none,
          tr ++ [Call.orchestrationGetByID orchestrationID,
            Call.orchestrationUpdate { o with
              UpdatedAt := m.env.now (tr ++ [Call.orchestrationGetByID orchestrationID])
              State := Failed
              Description := "failed to get orchestration: " ++ err.Error }]) ∧
        (d = 0 ∨ d = Minute)) ∧
    Minute = 60 * 1000000000 := by
  refine ⟨?_, ?_, by decide⟩
  · intro err h
    simp only [Execute, h]
  · intro o err h
    simp only [Execute, h, failOrchestration, updateOrchestration, GoError.Error,
      List.append_assoc, List.singleton_append]
    split
    · split
      · exact ⟨_, rfl, Or.inr rfl⟩
      · exact ⟨_, rfl, Or.inl rfl⟩
    · exact ⟨_, rfl, Or.inl rfl⟩

/-- Witness for C18: a store without the orchestration, and a store that returns a record
together with an error. -/
theorem execute_load_failure_witness :
    Execute quietManager "o-1" 1 [] =
      (.returned Minute none, [] ++ [Call.orchestrationGetByID "o-1"]) ∧
    updateCalls (Execute quietManager "o-1" 1 []).2 = [] ∧
    (∃ d, Execute failedLoadManager "o-1" 1 [] =
      (.returned d none,
        [] ++ [Call.orchestrationGetByID "o-1",
          Call.orchestrationUpdate { fixOrchestration InProgress with
            UpdatedAt := failedLoadManager.env.now ([] ++ [Call.orchestrationGetByID "o-1"])
            State := Failed
            Description := "failed to get orchestration: " ++
              (GoError.external "io" "connection reset").Error }]) ∧
      (d = 0 ∨ d = Minute)) :=
  ⟨(execute_load_failure quietManager "o-1" 1 []).1 _ rfl, by decide,
    (execute_load_failure failedLoadManager "o-1" 1 []).2.1 _ _ rfl⟩

theorem newOperations_trace (m : orchestrationManager) (o : Orchestration)
    (policy : MaintenancePolicy) (updateWindow : Bool) :
    ∀ (rs : List Runtime) (result : List RuntimeOperation) (tr : Trace),
      ∃ extra, (newOperations m o policy updateWindow rs result tr).2 = tr ++ extra ∧
        ∀ c ∈ extra, c.afterPersist = false := by
  intro rs
  induction rs with
  | nil =>
    intro result tr
    exact ⟨[], by simp [newOperations], by simp⟩
  | cons r rest ih =>
    intro result tr
    rw [newOperations]
    cases hinst : m.env.instanceGetByID tr
        (setMaintenanceWindow m o policy updateWindow tr r).InstanceID with
    | error err =>
      exact ⟨[Call.instanceGetByID (setMaintenanceWindow m o policy updateWindow tr r).InstanceID],
        rfl, by simp [Call.afterPersist]⟩
    | ok inst =>
      cases hop : m.env.newOperation
          (tr ++ [Call.instanceGetByID
            (setMaintenanceWindow m o policy updateWindow tr r).InstanceID])
          o (setMaintenanceWindow m o policy updateWindow tr r) inst Pending with
      | error err =>
        refine ⟨[Call.instanceGetByID
            (setMaintenanceWindow m o policy updateWindow tr r).InstanceID,
          Call.newOperation o (setMaintenanceWindow m o policy updateWindow tr r) inst Pending],
          ?_, by simp [Call.afterPersist]⟩
        simp [hop]
      | ok op =>
        obtain ⟨extra, h1, h2⟩ := ih (result ++ [op])
          (tr ++ [Call.instanceGetByID (setMaintenanceWindow m o policy updateWindow tr r).InstanceID]
            ++ [Call.newOperation o (setMaintenanceWindow m o policy updateWindow tr r) inst
              Pending])
        refine ⟨Call.instanceGetByID
            (setMaintenanceWindow m o policy updateWindow tr r).InstanceID ::
          Call.newOperation o (setMaintenanceWindow m o policy updateWindow tr r) inst Pending ::
          extra, ?_, ?_⟩
        · simp only [hop]
          rw [h1]; simp
        · intro c hc
          simp only [List.mem_cons] at hc
          rcases hc with rfl | rfl | hc
          · rfl
          · rfl
          · exact h2 c hc

theorem NewOperationForPendingRetrying_trace (m : orchestrationManager) (o : Orchestration)
    (policy : MaintenancePolicy) (retryRT : List RuntimeOperation) (updateWindow : Bool)
    (tr : Trace) :
    ∃ extra, (NewOperationForPendingRetrying m o policy retryRT updateWindow tr).2 =
        tr ++ extra ∧ ∀ c ∈ extra, c.afterPersist = false := by
  unfold NewOperationForPendingRetrying
  dsimp only
  split
  · exact ⟨[_], rfl, by simp [Call.afterPersist]⟩
  · rename_i runtimes _
    obtain ⟨extra, h1, h2⟩ := newOperations_trace m o policy updateWindow
      (extractRuntimes o runtimes retryRT) [] (tr ++ [Call.resolve o.Parameters.Targets])
    have hall : ∀ c ∈ Call.resolve o.Parameters.Targets :: extra, c.afterPersist = false := by
      intro c hc
      simp only [List.mem_cons] at hc
      rcases hc with rfl | hc
      · rfl
      · exact h2 c hc
    split
    · rename_i heq
      refine ⟨Call.resolve o.Parameters.Targets :: extra, ?_, hall⟩
      have := congrArg Prod.snd heq
      simp only at this
      rw [← this, h1]; simp
    · rename_i heq
      refine ⟨Call.resolve o.Parameters.Targets :: extra, ?_, hall⟩
      have := congrArg Prod.snd heq
      simp only at this
      rw [← this, h1]; simp

/-- Resolving the operations of a pass makes no call of the later steps of `Execute`. -/
theorem resolveOperations_trace (m : orchestrationManager) (o : Orchestration)
    (policy : MaintenancePolicy) (tr : Trace) :
    ∃ extra, (resolveOperations m o policy tr).2 = tr ++ extra ∧
      ∀ c ∈ extra, c.afterPersist = false := by
  unfold resolveOperations
  split
  · obtain ⟨extra, h1, h2⟩ := NewOperationForPendingRetrying_trace m o policy [] true tr
    split
    · rename_i heq
      have := congrArg Prod.snd heq
      simp only at this
      exact ⟨extra, by rw [← this, h1], h2⟩
    · rename_i heq
      have := congrArg Prod.snd heq
      simp only at this
      exact ⟨extra, by rw [← this, h1], h2⟩
  · split
    · split
      · exact ⟨[], by simp, by simp⟩
      · dsimp only
        split
        · exact ⟨[_], rfl, by simp [Call.afterPersist]⟩
        · rename_i retryRuntimes _
          obtain ⟨extra, h1, h2⟩ := NewOperationForPendingRetrying_trace m o policy
            retryRuntimes true
            (tr ++ [Call.retryOperations o.Parameters.RetryOperation.RetryOperations])
          have hall : ∀ c ∈ Call.retryOperations o.Parameters.RetryOperation.RetryOperations ::
              extra, c.afterPersist = false := by
            intro c hc
            simp only [List.mem_cons] at hc
            rcases hc with rfl | hc
            · rfl
            · exact h2 c hc
          split
          · rename_i heq
            have := congrArg Prod.snd heq
            simp only at this
            exact ⟨_, by rw [← this, h1]; simp, hall⟩
          · rename_i heq
            have := congrArg Prod.snd heq
            simp only at this
            exact ⟨_, by rw [← this, h1]; simp, hall⟩
    · dsimp only
      split
      · exact ⟨[_], rfl, by simp [Call.afterPersist]⟩
      · exact ⟨[_], rfl, by simp [Call.afterPersist]⟩

/-- C19: if the write of the orchestration after resolving its operations fails, `Execute`
returns a delay equal to the polling interval with no error; the call makes no notification
call and no call of the execution strategy, and does not enter the poll loop: after the
calls that resolve the operations its last call is the failed write. -/
theorem execute_persist_failure (m : orchestrationManager) (orchestrationID : String)
    (ticks : Nat) (tr : Trace) (o o1 : Orchestration) (operations : List RuntimeOperation)
    (tr3 : Trace) (err : GoError)
    (hget : m.env.orchestrationGetByID tr orchestrationID = .found o)
    (hres : resolveOperations m o
        (getMaintenancePolicy m (tr ++ [Call.orchestrationGetByID orchestrationID])).1.1
        (getMaintenancePolicy m (tr ++ [Call.orchestrationGetByID orchestrationID])).2 =
      ((operations, o1, none), tr3))
    (hupd : m.env.orchestrationUpdate tr3 o1 = some err) :
    Execute m orchestrationID ticks tr =
      (.returned m.pollingInterval none, tr3 ++ [Call.orchestrationUpdate o1]) ∧
    ∃ extra, tr3 ++ [Call.orchestrationUpdate o1] = tr ++ extra ∧
      ∀ c ∈ extra, c.afterPersist = false := by
  have htrace := resolveOperations_trace m o
    (getMaintenancePolicy m (tr ++ [Call.orchestrationGetByID orchestrationID])).1.1
    (getMaintenancePolicy m (tr ++ [Call.orchestrationGetByID orchestrationID])).2
  rw [hres, getMaintenancePolicy_trace] at htrace
  obtain ⟨extra, h1, h2⟩ := htrace
  simp only at h1
  constructor
  · unfold Execute
    simp only [hget]
    generalize getMaintenancePolicy m (tr ++ [Call.orchestrationGetByID orchestrationID]) = g
      at hres
    obtain ⟨⟨policy, perr⟩, tr2⟩ := g
    simp only at hres ⊢
    rw [hres]
    simp only [hupd]
  · refine ⟨Call.orchestrationGetByID orchestrationID ::
      Call.configMapGet m.configNamespace m.configName :: (extra ++ [Call.orchestrationUpdate o1]),
      ?_, ?_⟩
    · rw [h1]; simp
    · intro c hc
      simp only [List.mem_cons, List.mem_append, List.not_mem_nil, or_false] at hc
      rcases hc with rfl | rfl | hc | rfl
      · rfl
      · rfl
      · exact h2 c hc
      · rfl

/-- Witness for C19: the store holds `o-1` in state InProgress and accepts no write. -/
theorem execute_persist_failure_witness :
    Execute (readOnlyManager InProgress) "o-1" 1 [] =
      (.returned (readOnlyManager InProgress).pollingInterval none,
        [Call.orchestrationGetByID "o-1", Call.configMapGet "kcp-system" "orchestration-config",
          Call.resumeOperations "o-1"] ++
          [Call.orchestrationUpdate (fixOrchestration InProgress)]) ∧
    ∃ extra,
      [Call.orchestrationGetByID "o-1", Call.configMapGet "kcp-system" "orchestration-config",
          Call.resumeOperations "o-1"] ++
          [Call.orchestrationUpdate (fixOrchestration InProgress)] = [] ++ extra ∧
      ∀ c ∈ extra, c.afterPersist = false :=
  execute_persist_failure (readOnlyManager InProgress) "o-1" 1 [] (fixOrchestration InProgress)
    (fixOrchestration InProgress) []
    [Call.orchestrationGetByID "o-1", Call.configMapGet "kcp-system" "orchestration-config",
      Call.resumeOperations "o-1"]
    (.external "conflict" "stale version") rfl (by decide) rfl

/-- C20, as stated, fails: for the stored orchestration `o-1` in state Succeeded, `Execute`
writes it with state Failed and the error as description when the factory fails to resume
operations, and it returns the polling interval, not 0, when the write of the orchestration
fails. -/
theorem execute_finished_counterexample :
    (fixOrchestration Succeeded).IsFinished = true ∧
    Execute failingResumeManager "o-1" 1 [] =
      (.returned 0 none,
        [Call.orchestrationGetByID "o-1", Call.configMapGet "kcp-system" "orchestration-config",
          Call.resumeOperations "o-1",
          Call.orchestrationUpdate { fixOrchestration Succeeded with
            State := Failed
            Description := "failed to resolve operations: while resuming operation: " ++
              "connection reset" }]) ∧
    (Execute (readOnlyManager Succeeded) "o-1" 1 []).1 =
      .returned (10 * Second) none := by
  decide

/-- C20, amended: for every orchestration stored in a finished state (Succeeded, Failed or
Canceled) for which `ResumeOperations` and the write of the orchestration succeed, `Execute`
returns (0, no error); it calls neither the resolver nor `NewOperation`, sends no
notification and starts no execution strategy: after loading the orchestration and the
policy configuration it calls `ResumeOperations` and writes the orchestration back as it
was loaded, so the stored State and Description stay unchanged. -/
theorem execute_finished (m : orchestrationManager) (orchestrationID : String)
    (ticks : Nat) (tr : Trace) (o : Orchestration) (operations : List RuntimeOperation)
    (hget : m.env.orchestrationGetByID tr orchestrationID = .found o)
    (hfin : o.IsFinished = true)
    (hresume : m.env.resumeOperations
        (tr ++ [Call.orchestrationGetByID orchestrationID,
          Call.configMapGet m.configNamespace m.configName]) o.OrchestrationID =
      (operations, none))
    (hupd : m.env.orchestrationUpdate
        (tr ++ [Call.orchestrationGetByID orchestrationID,
          Call.configMapGet m.configNamespace m.configName,
          Call.resumeOperations o.OrchestrationID]) o = none) :
    Execute m orchestrationID ticks tr =
      (.returned 0 none,
        tr ++ [Call.orchestrationGetByID orchestrationID,
          Call.configMapGet m.configNamespace m.configName,
          Call.resumeOperations o.OrchestrationID,
          Call.orchestrationUpdate o]) ∧
    (o.State = Succeeded ∨ o.State = Failed ∨ o.State = Canceled) := by
  have hstate : o.State = Succeeded ∨ o.State = Failed ∨ o.State = Canceled := by
    simpa [Orchestration.IsFinished, or_assoc] using hfin
  have hp : o.State ≠ Pending := by
    rcases hstate with h | h | h <;> rw [h] <;> decide
  have hr : o.State ≠ Retrying := by
    rcases hstate with h | h | h <;> rw [h] <;> decide
  refine ⟨?_, hstate⟩
  have htr := getMaintenancePolicy_trace m (tr ++ [Call.orchestrationGetByID orchestrationID])
  unfold Execute
  simp only [hget]
  generalize getMaintenancePolicy m (tr ++ [Call.orchestrationGetByID orchestrationID]) = g
    at htr
  obtain ⟨⟨policy, perr⟩, tr2⟩ := g
  simp only at htr
  subst htr
  simp only [List.append_assoc, List.singleton_append] at hresume hupd ⊢
  simp only [resolveOperations, hp, hr, if_false, hresume, List.append_assoc,
    List.singleton_append, List.cons_append, List.nil_append, hupd, hfin, if_true]

/-- Witness for C20: the store holds `o-1` in state Succeeded. -/
theorem execute_finished_witness :
    Execute (storedManager Succeeded) "o-1" 1 [] =
      (.returned 0 none,
        [] ++ [Call.orchestrationGetByID "o-1",
          Call.configMapGet (storedManager Succeeded).configNamespace
            (storedManager Succeeded).configName,
          Call.resumeOperations (fixOrchestration Succeeded).OrchestrationID,
          Call.orchestrationUpdate (fixOrchestration Succeeded)]) ∧
    ((fixOrchestration Succeeded).State = Succeeded ∨
      (fixOrchestration Succeeded).State = Failed ∨
      (fixOrchestration Succeeded).State = Canceled) :=
  execute_finished (storedManager Succeeded) "o-1" 1 [] (fixOrchestration Succeeded) []
    rfl rfl rfl rfl

theorem NewOperationForPendingRetrying_error_keeps (m : orchestrationManager)
    (o : Orchestration) (policy : MaintenancePolicy) (retryRT : List RuntimeOperation)
    (updateWindow : Bool) (tr : Trace) (err : GoError)
    (h : (NewOperationForPendingRetrying m o policy retryRT updateWindow tr).1.2.2.2 =
      some err) :
    (NewOperationForPendingRetrying m o policy retryRT updateWindow tr).1.2.1 = o := by
  unfold NewOperationForPendingRetrying at h ⊢
  dsimp only at h ⊢
  generalize m.env.resolve tr o.Parameters.Targets = rr at h ⊢
  obtain ⟨runtimes, e⟩ := rr
  cases e with
  | some e => rfl
  | none =>
    dsimp only at h ⊢
    generalize newOperations m o policy updateWindow (extractRuntimes o runtimes retryRT) []
      (tr ++ [Call.resolve o.Parameters.Targets]) = res at h ⊢
    obtain ⟨res, tr2⟩ := res
    cases res with
    | error e => rfl
    | ok r => simp at h

/-- When `resolveOperations` returns an error it leaves the orchestration as it was. -/
theorem resolveOperations_error_keeps (m : orchestrationManager) (o : Orchestration)
    (policy : MaintenancePolicy) (tr : Trace) (err : GoError)
    (h : (resolveOperations m o policy tr).1.2.2 = some err) :
    (resolveOperations m o policy tr).1.2.1 = o := by
  revert h
  unfold resolveOperations
  by_cases hp : o.State = Pending
  · simp only [hp, if_true]
    have hk := NewOperationForPendingRetrying_error_keeps m o policy [] true tr
    generalize NewOperationForPendingRetrying m o policy [] true tr = res at hk ⊢
    obtain ⟨⟨result, o1, n, e⟩, tr1⟩ := res
    cases e with
    | none => intro h; simp at h
    | some e => intro _; exact hk e rfl
  · simp only [hp, if_false]
    by_cases hr : o.State = Retrying
    · simp only [hr, if_true]
      split
      · intro _; rfl
      · generalize m.env.retryOperations tr o.Parameters.RetryOperation.RetryOperations = rr
        obtain ⟨retryRuntimes, e⟩ := rr
        cases e with
        | some e => intro _; rfl
        | none =>
          dsimp only
          have hk := NewOperationForPendingRetrying_error_keeps m o policy retryRuntimes true
            (tr ++ [Call.retryOperations o.Parameters.RetryOperation.RetryOperations])
          generalize NewOperationForPendingRetrying m o policy retryRuntimes true
            (tr ++ [Call.retryOperations o.Parameters.RetryOperation.RetryOperations]) =
            res at hk ⊢
          obtain ⟨⟨result, o1, n, e⟩, tr1⟩ := res
          cases e with
          | none => intro h; simp at h
          | some e => intro _; exact hk e rfl
    · simp only [hr, if_false]
      generalize m.env.resumeOperations tr o.OrchestrationID = rr
      obtain ⟨result, e⟩ := rr
      cases e with
      | none => intro _; rfl
      | some e => intro _; rfl

/-- C21: if resolving the operations of the pass returns an error (the error of the resolver,
of the instance lookup or of the operation factory, wrapped), `Execute` writes the loaded
orchestration with state Failed and the text of the error as description, and returns no
error; the delay is one minute when that write fails with an error other than not-found,
and 0 otherwise; the call makes no notification call and no call of the execution
strategy. -/
theorem execute_resolve_failure (m : orchestrationManager) (orchestrationID : String)
    (ticks : Nat) (tr : Trace) (o o1 : Orchestration) (operations : List RuntimeOperation)
    (tr3 : Trace) (err : GoError)
    (hget : m.env.orchestrationGetByID tr orchestrationID = .found o)
    (hres : resolveOperations m o
        (getMaintenancePolicy m (tr ++ [Call.orchestrationGetByID orchestrationID])).1.1
        (getMaintenancePolicy m (tr ++ [Call.orchestrationGetByID orchestrationID])).2 =
      ((operations, o1, some err), tr3)) :
    ∃ d written,
      written = { o with
        UpdatedAt := m.env.now tr3
        State := Failed
        Description := (GoError.wrap "failed to resolve operations" err).Error } ∧
      Execute m orchestrationID ticks tr =
        (.returned d none, tr3 ++ [Call.orchestrationUpdate written]) ∧
      (m.env.orchestrationUpdate tr3 written = none → d = 0) ∧
      (∀ e, m.env.orchestrationUpdate tr3 written = some e →
        d = if m.env.IsNotFound e = false then Minute else 0) ∧
      ∃ extra, tr3 ++ [Call.orchestrationUpdate written] = tr ++ extra ∧
        ∀ c ∈ extra, c.afterPersist = false := by
  have htrace := resolveOperations_trace m o
    (getMaintenancePolicy m (tr ++ [Call.orchestrationGetByID orchestrationID])).1.1
    (getMaintenancePolicy m (tr ++ [Call.orchestrationGetByID orchestrationID])).2
  have hkeep := resolveOperations_error_keeps m o
    (getMaintenancePolicy m (tr ++ [Call.orchestrationGetByID orchestrationID])).1.1
    (getMaintenancePolicy m (tr ++ [Call.orchestrationGetByID orchestrationID])).2 err
  rw [hres] at hkeep
  have ho : o1 = o := hkeep rfl
  subst ho
  rw [hres, getMaintenancePolicy_trace] at htrace
  obtain ⟨extra, h1, h2⟩ := htrace
  simp only at h1
  have hexec : Execute m orchestrationID ticks tr =
      (.returned (updateOrchestration m o1 Failed
          (GoError.wrap "failed to resolve operations" err).Error tr3).1 none,
        (updateOrchestration m o1 Failed
          (GoError.wrap "failed to resolve operations" err).Error tr3).2) := by
    unfold Execute
    simp only [hget]
    generalize getMaintenancePolicy m (tr ++ [Call.orchestrationGetByID orchestrationID]) = g
      at hres
    obtain ⟨⟨policy, perr⟩, tr2⟩ := g
    simp only at hres ⊢
    rw [hres]
    simp only [failOrchestration]
  have hmem : ∃ extra2, tr3 ++ [Call.orchestrationUpdate { o1 with
        UpdatedAt := m.env.now tr3
        State := Failed
        Description := (GoError.wrap "failed to resolve operations" err).Error }] =
        tr ++ extra2 ∧ ∀ c ∈ extra2, c.afterPersist = false := by
    refine ⟨Call.orchestrationGetByID orchestrationID ::
      Call.configMapGet m.configNamespace m.configName :: (extra ++ [Call.orchestrationUpdate
        { o1 with
          UpdatedAt := m.env.now tr3
          State := Failed
          Description := (GoError.wrap "failed to resolve operations" err).Error }]),
      ?_, ?_⟩
    · rw [h1]; simp
    · intro c hc
      simp only [List.mem_cons, List.mem_append, List.not_mem_nil, or_false] at hc
      rcases hc with rfl | rfl | hc | rfl
      · rfl
      · rfl
      · exact h2 c hc
      · rfl
  rw [hexec]
  unfold updateOrchestration
  dsimp only
  cases hu : m.env.orchestrationUpdate tr3 { o1 with
      UpdatedAt := m.env.now tr3
      State := Failed
      Description := (GoError.wrap "failed to resolve operations" err).Error } with
  | none =>
    refine ⟨0, _, rfl, rfl, fun _ => rfl, ?_, hmem⟩
    intro e he
    rw [hu] at he
    cases he
  | some e0 =>
    by_cases hnf : m.env.IsNotFound e0 = false
    · refine ⟨Minute, _, rfl, by simp only [hnf, if_true], ?_, ?_, hmem⟩
      · intro hn; rw [hu] at hn; cases hn
      · intro e he
        rw [hu] at he
        cases he
        simp only [hnf, if_true]
    · refine ⟨0, _, rfl, by simp [hnf], ?_, ?_, hmem⟩
      · intro _; rfl
      · intro e he
        rw [hu] at he
        cases he
        simp [hnf]

/-- Witness for C21: the store holds `o-1` in state Pending and the resolver fails. -/
theorem execute_resolve_failure_witness :
    ∃ d written,
      written = { fixOrchestration Pending with
        UpdatedAt := failingResolverManager.env.now
          [Call.orchestrationGetByID "o-1",
            Call.configMapGet "kcp-system" "orchestration-config", Call.resolve ⟨["all"], []⟩]
        State := Failed
        Description := (GoError.wrap "failed to resolve operations"
          (.wrap "while creating new operation for pending"
            (.wrap "while resolving targets" (.external "io" "resolver down")))).Error } ∧
      Execute failingResolverManager "o-1" 1 [] =
        (.returned d none,
          [Call.orchestrationGetByID "o-1",
            Call.configMapGet "kcp-system" "orchestration-config", Call.resolve ⟨["all"], []⟩] ++
            [Call.orchestrationUpdate written]) ∧
      (failingResolverManager.env.orchestrationUpdate
        [Call.orchestrationGetByID "o-1",
          Call.configMapGet "kcp-system" "orchestration-config", Call.resolve ⟨["all"], []⟩]
        written = none → d = 0) ∧
      (∀ e, failingResolverManager.env.orchestrationUpdate
        [Call.orchestrationGetByID "o-1",
          Call.configMapGet "kcp-system" "orchestration-config", Call.resolve ⟨["all"], []⟩]
        written = some e →
        d = if failingResolverManager.env.IsNotFound e = false then Minute else 0) ∧
      ∃ extra,
        [Call.orchestrationGetByID "o-1",
          Call.configMapGet "kcp-system" "orchestration-config", Call.resolve ⟨["all"], []⟩] ++
          [Call.orchestrationUpdate written] = [] ++ extra ∧
        ∀ c ∈ extra, c.afterPersist = false :=
  execute_resolve_failure failingResolverManager "o-1" 1 [] (fixOrchestration Pending)
    (fixOrchestration Pending) []
    [Call.orchestrationGetByID "o-1", Call.configMapGet "kcp-system" "orchestration-config",
      Call.resolve ⟨["all"], []⟩]
    (.wrap "while creating new operation for pending"
      (.wrap "while resolving targets" (.external "io" "resolver down"))) rfl (by decide)

/-- C24 fails in the code: `resolveStrategy` returns the nil strategy for every type other
than the parallel one, and for the stored orchestration `o-1` in state InProgress with an
empty strategy type `Execute` writes the orchestration, asks whether notifications are
disabled and then calls `Execute` on the nil strategy. -/
theorem execute_nil_strategy :
    (∀ m sType, sType ≠ ParallelStrategy → resolveStrategy m sType = none) ∧
    Execute (typedManager "") "o-1" 1 [] =
      (.panicked,
        [Call.orchestrationGetByID "o-1", Call.configMapGet "kcp-system" "orchestration-config",
          Call.resumeOperations "o-1", Call.orchestrationUpdate (typedOrchestration ""),
          Call.disabledCheck]) ∧
    (Execute (typedManager ParallelStrategy) "o-1" 1 []).1 = .returned 0 none := by
  refine ⟨?_, by decide, by decide⟩
  intro m sType h
  unfold resolveStrategy
  simp only [h, if_false]

/-- What `sendNotificationCreate` does to the notification state: it leaves it, or moves it
from unset to Pending (when the sending failed), or moves it to Created; the last only for
an InProgress orchestration whose state was unset or Pending, and only after the bundle was
built and the create event was sent without error. -/
theorem sendNotificationCreate_state (m : orchestrationManager) (o : Orchestration)
    (operations : List RuntimeOperation) (tr : Trace) :
    (sendNotificationCreate m o operations tr).1.1.Parameters.NotificationState =
        o.Parameters.NotificationState ∨
    (o.Parameters.NotificationState = "" ∧
      (sendNotificationCreate m o operations tr).1.1.Parameters.NotificationState =
        NotificationPending ∧
      (sendNotificationCreate m o operations tr).1.2 ≠ none) ∨
    ((o.Parameters.NotificationState = "" ∨
        o.Parameters.NotificationState = NotificationPending) ∧
      (sendNotificationCreate m o operations tr).1.1.Parameters.NotificationState =
        NotificationCreated ∧
      o.State = InProgress ∧
      (sendNotificationCreate m o operations tr).1.2 = none ∧
      ∃ params,
        (sendNotificationCreate m o operations tr).2 =
          tr ++ [Call.newBundle o.OrchestrationID params,
            Call.createNotificationEvent params] ∧
        m.env.newBundle tr o.OrchestrationID params = none ∧
        m.env.createNotificationEvent (tr ++ [Call.newBundle o.OrchestrationID params])
          params = none) := by
  unfold sendNotificationCreate
  by_cases hs : o.State = InProgress
  · rw [if_pos hs]
    by_cases h0 : o.Parameters.NotificationState = ""
    · rw [if_pos h0]
      dsimp only
      rw [if_pos (show (setNotificationState o NotificationPending).Parameters.NotificationState =
        NotificationPending from rfl)]
      right
      cases hb : m.env.newBundle tr (setNotificationState o NotificationPending).OrchestrationID
        _ with
      | some e => exact Or.inl ⟨h0, rfl, by simp⟩
      | none =>
        dsimp only
        cases hc : m.env.createNotificationEvent _ _ with
        | some e => exact Or.inl ⟨h0, rfl, by simp⟩
        | none =>
          refine Or.inr ⟨Or.inl h0, rfl, hs, rfl, _, ?_, hb, hc⟩
          exact List.append_assoc _ _ _
    · rw [if_neg h0]
      dsimp only
      by_cases h1 : o.Parameters.NotificationState = NotificationPending
      · rw [if_pos h1]
        cases hb : m.env.newBundle tr o.OrchestrationID _ with
        | some e => exact Or.inl rfl
        | none =>
          dsimp only
          cases hc : m.env.createNotificationEvent _ _ with
          | some e => exact Or.inl rfl
          | none =>
            refine Or.inr (Or.inr ⟨Or.inr h1, rfl, hs, rfl, _, ?_, hb, hc⟩)
            exact List.append_assoc _ _ _
      · rw [if_neg h1]
        exact Or.inl rfl
  · rw [if_neg hs]
    exact Or.inl rfl

/-- What `sendNotificationCancel` does to the notification state: it leaves it, or moves it
from Created to Cancelled after the bundle was built and the cancel event was sent without
error. -/
theorem sendNotificationCancel_state (m : orchestrationManager) (o : Orchestration)
    (tr : Trace) :
    (sendNotificationCancel m o tr).1.1.Parameters.NotificationState =
        o.Parameters.NotificationState ∨
    (o.Parameters.NotificationState = NotificationCreated ∧
      (sendNotificationCancel m o tr).1.1.Parameters.NotificationState =
        NotificationCancelled ∧
      (sendNotificationCancel m o tr).1.2 = none ∧
      ∃ params,
        (sendNotificationCancel m o tr).2 =
          tr ++ [Call.newBundle o.OrchestrationID params,
            Call.cancelNotificationEvent params] ∧
        m.env.newBundle tr o.OrchestrationID params = none ∧
        m.env.cancelNotificationEvent (tr ++ [Call.newBundle o.OrchestrationID params])
          params = none) := by
  unfold sendNotificationCancel
  by_cases h2 : o.Parameters.NotificationState = NotificationCreated
  · rw [if_pos h2]
    dsimp only
    cases hb : m.env.newBundle tr o.OrchestrationID _ with
    | some e => exact Or.inl rfl
    | none =>
      dsimp only
      cases hc : m.env.cancelNotificationEvent _ _ with
      | some e => exact Or.inl rfl
      | none =>
        refine Or.inr ⟨h2, rfl, rfl, _, ?_, hb, hc⟩
        exact List.append_assoc _ _ _
  · rw [if_neg h2]
    exact Or.inl rfl

/-- C23: the notification state only moves forward along unset, Pending, Created,
Cancelled.  `sendNotificationCreate` and `sendNotificationCancel` never lower its rank;
`sendNotificationCreate` sets Created only for an InProgress orchestration whose state was
unset (then first set to Pending) or Pending, after the bundle was built and the create
event was sent without error, and it makes no call and changes nothing when the state is
already Created or Cancelled; `sendNotificationCancel` sets Cancelled only from Created,
after the bundle was built and the cancel event was sent without error. -/
theorem notificationState_monotonic (m : orchestrationManager) (o : Orchestration)
    (operations : List RuntimeOperation) (tr : Trace) :
    notificationRank o.Parameters.NotificationState ≤
      notificationRank
        (sendNotificationCreate m o operations tr).1.1.Parameters.NotificationState ∧
    notificationRank o.Parameters.NotificationState ≤
      notificationRank (sendNotificationCancel m o tr).1.1.Parameters.NotificationState ∧
    ((sendNotificationCreate m o operations tr).1.1.Parameters.NotificationState =
        NotificationCreated →
      o.Parameters.NotificationState ≠ NotificationCreated →
      (o.Parameters.NotificationState = "" ∨
        o.Parameters.NotificationState = NotificationPending) ∧
      o.State = InProgress ∧
      (sendNotificationCreate m o operations tr).1.2 = none ∧
      ∃ params,
        (sendNotificationCreate m o operations tr).2 =
          tr ++ [Call.newBundle o.OrchestrationID params,
            Call.createNotificationEvent params] ∧
        m.env.newBundle tr o.OrchestrationID params = none ∧
        m.env.createNotificationEvent (tr ++ [Call.newBundle o.OrchestrationID params])
          params = none) ∧
    (o.Parameters.NotificationState = NotificationCreated ∨
        o.Parameters.NotificationState = NotificationCancelled →
      sendNotificationCreate m o operations tr = ((o, none), tr)) ∧
    ((sendNotificationCancel m o tr).1.1.Parameters.NotificationState =
        NotificationCancelled →
      o.Parameters.NotificationState ≠ NotificationCancelled →
      o.Parameters.NotificationState = NotificationCreated ∧
      (sendNotificationCancel m o tr).1.2 = none ∧
      ∃ params,
        (sendNotificationCancel m o tr).2 =
          tr ++ [Call.newBundle o.OrchestrationID params,
            Call.cancelNotificationEvent params] ∧
        m.env.newBundle tr o.OrchestrationID params = none ∧
        m.env.cancelNotificationEvent (tr ++ [Call.newBundle o.OrchestrationID params])
          params = none) := by
  refine ⟨?_, ?_, ?_, ?_, ?_⟩
  · rcases sendNotificationCreate_state m o operations tr with h | ⟨h0, h1, _⟩ |
      ⟨h0 | h0, h1, _⟩
    · rw [h]
    · rw [h0, h1]; decide
    · rw [h0, h1]; decide
    · rw [h0, h1]; decide
  · rcases sendNotificationCancel_state m o tr with h | ⟨h0, h1, _⟩
    · rw [h]
    · rw [h0, h1]; decide
  · intro hnew hold
    rcases sendNotificationCreate_state m o operations tr with h | ⟨_, h1, _⟩ |
      ⟨h0, _, hs, he, hp⟩
    · rw [h] at hnew
      exact absurd hnew hold
    · rw [h1] at hnew
      exact absurd hnew (by decide)
    · exact ⟨h0, hs, he, hp⟩
  · intro h
    unfold sendNotificationCreate
    have h0 : o.Parameters.NotificationState ≠ "" := by
      rcases h with h | h <;> rw [h] <;> decide
    have h1 : o.Parameters.NotificationState ≠ NotificationPending := by
      rcases h with h | h <;> rw [h] <;> decide
    by_cases hs : o.State = InProgress
    · rw [if_pos hs, if_neg h0]
      dsimp only
      rw [if_neg h1]
    · rw [if_neg hs]
  · intro hnew hold
    rcases sendNotificationCancel_state m o tr with h | ⟨h0, _, he, hp⟩
    · rw [h] at hnew
      exact absurd hnew hold
    · exact ⟨h0, he, hp⟩

/-- Witness for C23: the InProgress orchestration `o-1` with an unset notification state,
and the same orchestration once its state is Created. -/
theorem notificationState_monotonic_witness :
    (sendNotificationCreate quietManager (fixOrchestration InProgress) [] []).1.1.Parameters.NotificationState
      = NotificationCreated ∧
    sendNotificationCreate quietManager
      (setNotificationState (fixOrchestration InProgress) NotificationCreated) [] [] =
      ((setNotificationState (fixOrchestration InProgress) NotificationCreated, none), []) ∧
    (sendNotificationCancel quietManager
      (setNotificationState (fixOrchestration InProgress) NotificationCreated)
      []).1.1.Parameters.NotificationState = NotificationCancelled ∧
    (sendNotificationCancel quietManager
      (setNotificationState (fixOrchestration InProgress) NotificationCreated) []).1.2 = none :=
  ⟨by decide,
    (notificationState_monotonic quietManager
      (setNotificationState (fixOrchestration InProgress) NotificationCreated) [] []).2.2.2.1
      (Or.inl rfl),
    by decide,
    ((notificationState_monotonic quietManager
      (setNotificationState (fixOrchestration InProgress) NotificationCreated) [] []).2.2.2.2
      (by decide) (by decide)).2.1⟩

theorem startedIDs_append (m : orchestrationManager) (strategy : Strategy) :
    ∀ (a b pre : Trace), startedIDs m strategy pre (a ++ b) =
      startedIDs m strategy pre a ++ startedIDs m strategy (pre ++ a) b := by
  intro a
  induction a with
  | nil => intro b pre; simp [startedIDs]
  | cons c rest ih =>
    intro b pre
    rw [List.cons_append, startedIDs, startedIDs, ih, List.append_assoc, List.append_assoc]
    rfl

theorem startedIDs_quiet (m : orchestrationManager) (strategy : Strategy) :
    ∀ (extra pre : Trace), (∀ c ∈ extra, c.afterPersist = false) →
      startedIDs m strategy pre extra = [] := by
  intro extra
  induction extra with
  | nil => intro pre _; rfl
  | cons c rest ih =>
    intro pre h
    have hc := h c (List.mem_cons_self _ _)
    rw [startedIDs, ih _ (fun c hc => h c (List.mem_cons_of_mem _ hc))]
    cases c <;> first | rfl | cases hc

theorem cancelledIDs_append : ∀ (a b : Trace),
    cancelledIDs (a ++ b) = cancelledIDs a ++ cancelledIDs b := by
  intro a
  induction a with
  | nil => intro b; rfl
  | cons c rest ih =>
    intro b
    rw [List.cons_append, cancelledIDs, cancelledIDs, ih, List.append_assoc]

theorem cancelledIDs_quiet : ∀ (extra : Trace), (∀ c ∈ extra, c.afterPersist = false) →
    cancelledIDs extra = [] := by
  intro extra
  induction extra with
  | nil => intro _; rfl
  | cons c rest ih =>
    intro h
    have hc := h c (List.mem_cons_self _ _)
    rw [cancelledIDs, ih (fun c hc => h c (List.mem_cons_of_mem _ hc))]
    cases c <;> first | rfl | cases hc

theorem cancelledIDs_map : ∀ (execIDs : List String),
    cancelledIDs (execIDs.map Call.strategyCancel) = execIDs := by
  intro execIDs
  induction execIDs with
  | nil => rfl
  | cons c rest ih => simp only [List.map_cons, cancelledIDs, cancelledID, ih, List.singleton_append]

theorem startedID_quiet (m : orchestrationManager) (strategy : Strategy) (pre : Trace)
    (c : Call) (h : c.afterPersist = false) : startedID m strategy pre c = [] := by
  cases c <;> first | rfl | cases h

theorem cancelledID_quiet (c : Call) (h : c.afterPersist = false) : cancelledID c = [] := by
  cases c <;> first | rfl | cases h

theorem persistRetry_started (m : orchestrationManager) (s : PollState) (tr : Trace) :
    ∃ o2, (persistRetry m s tr).2 = tr ++ [Call.orchestrationUpdate o2] ∧
      (persistRetry m s tr).1.1.execIDs = s.execIDs := by
  unfold persistRetry
  dsimp only
  split
  · exact ⟨_, rfl, rfl⟩
  · exact ⟨_, rfl, rfl⟩

/-- The retry block of the polling closure appends to `execIDs` exactly the ids the strategy
returned for the `strategy.Execute` calls the block made, and makes no `strategy.Cancel`
call. -/
theorem handleRetryOperations_started (m : orchestrationManager) (strategy : Strategy)
    (s : PollState) (tr : Trace) :
    ∃ extra, (handleRetryOperations m strategy s tr).2 = tr ++ extra ∧
      (handleRetryOperations m strategy s tr).1.1.execIDs =
        s.execIDs ++ startedIDs m strategy tr extra ∧
      cancelledIDs extra = [] := by
  unfold handleRetryOperations
  dsimp only
  obtain ⟨extraN, hN, hq⟩ := NewOperationForPendingRetrying_trace m s.o MaintenancePolicy.empty
    (m.env.retryOperations tr s.o.Parameters.RetryOperation.RetryOperations).1 false
    (tr ++ [Call.retryOperations s.o.Parameters.RetryOperation.RetryOperations])
  generalize NewOperationForPendingRetrying m s.o MaintenancePolicy.empty
    (m.env.retryOperations tr s.o.Parameters.RetryOperation.RetryOperations).1 false
    (tr ++ [Call.retryOperations s.o.Parameters.RetryOperation.RetryOperations]) = res at hN ⊢
  obtain ⟨⟨result, o1, n, e⟩, tr2⟩ := res
  simp only at hN
  subst hN
  dsimp only
  have hq2 : ∀ c ∈ Call.retryOperations s.o.Parameters.RetryOperation.RetryOperations :: extraN,
      c.afterPersist = false := by
    intro c hc
    rcases List.mem_cons.mp hc with rfl | hc
    · rfl
    · exact hq c hc
  have hs0 := fun pre => startedIDs_quiet m strategy _ pre hq2
  have hc0 := cancelledIDs_quiet _ hq2
  cases hi : m.env.strategyInsert
      (tr ++ [Call.retryOperations s.o.Parameters.RetryOperation.RetryOperations] ++ extraN)
      strategy s.execID result o1.Parameters.Strategy with
  | none =>
    dsimp only
    obtain ⟨o2, ht, he⟩ := persistRetry_started m { s with o := o1 }
      (tr ++ [Call.retryOperations s.o.Parameters.RetryOperation.RetryOperations] ++ extraN ++
        [Call.strategyInsert s.execID result o1.Parameters.Strategy])
    refine ⟨(Call.retryOperations s.o.Parameters.RetryOperation.RetryOperations :: extraN) ++
      [Call.strategyInsert s.execID result o1.Parameters.Strategy, Call.orchestrationUpdate o2],
      ?_, ?_, ?_⟩
    · rw [ht]; simp
    · rw [he, startedIDs_append, hs0]
      simp [startedIDs, startedID]
    · rw [cancelledIDs_append, hc0]
      simp [cancelledIDs, cancelledID]
  | some ierr =>
    dsimp only
    cases hx : m.env.strategyExecute
        (tr ++ [Call.retryOperations s.o.Parameters.RetryOperation.RetryOperations] ++ extraN ++
          [Call.strategyInsert s.execID result o1.Parameters.Strategy])
        strategy result o1.Parameters.Strategy with
    | error xerr =>
      dsimp only
      refine ⟨(Call.retryOperations s.o.Parameters.RetryOperation.RetryOperations :: extraN) ++
        [Call.strategyInsert s.execID result o1.Parameters.Strategy,
          Call.strategyExecute result o1.Parameters.Strategy], ?_, ?_, ?_⟩
      · simp
      · rw [startedIDs_append, hs0]
        simp only [List.append_assoc, List.singleton_append, List.cons_append,
          List.nil_append] at hx
        simp [startedIDs, startedID, hx]
      · rw [cancelledIDs_append, hc0]
        simp [cancelledIDs, cancelledID]
    | ok retryExecID =>
      dsimp only
      obtain ⟨o2, ht, he⟩ := persistRetry_started m
        { s with o := o1, execIDs := s.execIDs ++ [retryExecID], execID := retryExecID }
        (tr ++ [Call.retryOperations s.o.Parameters.RetryOperation.RetryOperations] ++ extraN ++
          [Call.strategyInsert s.execID result o1.Parameters.Strategy] ++
          [Call.strategyExecute result o1.Parameters.Strategy])
      refine ⟨(Call.retryOperations s.o.Parameters.RetryOperation.RetryOperations :: extraN) ++
        [Call.strategyInsert s.execID result o1.Parameters.Strategy,
          Call.strategyExecute result o1.Parameters.Strategy, Call.orchestrationUpdate o2],
        ?_, ?_, ?_⟩
      · rw [ht]; simp
      · rw [he, startedIDs_append, hs0]
        simp only [List.append_assoc, List.singleton_append, List.cons_append,
          List.nil_append] at hx
        simp [startedIDs, startedID, hx]
      · rw [cancelledIDs_append, hc0]
        simp [cancelledIDs, cancelledID]

/-- One tick of the poll loop appends to `execIDs` exactly the ids the strategy returned for
the `strategy.Execute` calls of the tick, and makes no `strategy.Cancel` call. -/
theorem pollTick_started (m : orchestrationManager) (strategy : Strategy)
    (orchestrationID : String) (s : PollState) (tr : Trace) :
    ∃ extra, (pollTick m strategy orchestrationID s tr).2 = tr ++ extra ∧
      (pollTick m strategy orchestrationID s tr).1.1.execIDs =
        s.execIDs ++ startedIDs m strategy tr extra ∧
      cancelledIDs extra = [] := by
  unfold pollTick
  dsimp only
  cases hg : m.env.orchestrationGetByID tr orchestrationID with
  | failed err =>
    dsimp only
    refine ⟨[Call.orchestrationGetByID orchestrationID], ?_, ?_, rfl⟩
    · split <;> rfl
    · split <;> simp [startedIDs, startedID]
  | failedWith o err =>
    dsimp only
    refine ⟨[Call.orchestrationGetByID orchestrationID], ?_, ?_, rfl⟩
    · split <;> rfl
    · split <;> simp [startedIDs, startedID]
  | found o =>
    dsimp only
    cases hst : m.env.getOperationStats (tr ++ [Call.orchestrationGetByID orchestrationID])
        o.OrchestrationID with
    | error err =>
      exact ⟨[Call.orchestrationGetByID orchestrationID,
        Call.getOperationStats o.OrchestrationID], by simp, by simp [startedIDs, startedID], rfl⟩
    | ok stats =>
      dsimp only
      by_cases hlen : o.Parameters.RetryOperation.RetryOperations.length > 0
      · rw [if_pos hlen]
        obtain ⟨extraH, h1, h2, h3⟩ := handleRetryOperations_started m strategy
          { s with
            o := o
            canceled := if o.State = Canceling then true else s.canceled
            stats := stats }
          (tr ++ [Call.orchestrationGetByID orchestrationID] ++
            [Call.getOperationStats o.OrchestrationID])
        generalize handleRetryOperations m strategy
          { s with
            o := o
            canceled := if o.State = Canceling then true else s.canceled
            stats := stats }
          (tr ++ [Call.orchestrationGetByID orchestrationID] ++
            [Call.getOperationStats o.OrchestrationID]) = r at h1 h2 ⊢
        obtain ⟨⟨s3, x⟩, tr3⟩ := r
        simp only at h1 h2
        subst h1
        have hstart : s3.execIDs = s.execIDs ++ startedIDs m strategy tr
            ([Call.orchestrationGetByID orchestrationID,
              Call.getOperationStats o.OrchestrationID] ++ extraH) := by
          rw [h2, startedIDs_append]
          simp [startedIDs, startedID]
        have hcancel : cancelledIDs ([Call.orchestrationGetByID orchestrationID,
            Call.getOperationStats o.OrchestrationID] ++ extraH) = [] := by
          rw [cancelledIDs_append, h3]
          rfl
        refine ⟨[Call.orchestrationGetByID orchestrationID,
          Call.getOperationStats o.OrchestrationID] ++ extraH, ?_, ?_, hcancel⟩
        · cases x with
          | error de => simp
          | ok u => dsimp only; split <;> simp
        · cases x with
          | error de => exact hstart
          | ok u => dsimp only; split <;> exact hstart
      · rw [if_neg hlen]
        dsimp only
        refine ⟨[Call.orchestrationGetByID orchestrationID,
          Call.getOperationStats o.OrchestrationID], ?_, ?_, rfl⟩
        · split_ifs <;> simp
        · split_ifs <;> simp [startedIDs, startedID]

/-- When the poll loop ends, `execIDs` holds the ids it started with followed by the ids the
strategy returned for the `strategy.Execute` calls made while polling, and the loop made no
`strategy.Cancel` call. -/
theorem pollLoop_started (m : orchestrationManager) (strategy : Strategy)
    (orchestrationID : String) :
    ∀ (ticks : Nat) (s : PollState) (tr : Trace) (s1 : PollState) (e : Option GoError)
      (tr1 : Trace),
      pollLoop m strategy orchestrationID ticks s tr = some ((s1, e), tr1) →
      ∃ extra, tr1 = tr ++ extra ∧
        s1.execIDs = s.execIDs ++ startedIDs m strategy tr extra ∧
        cancelledIDs extra = [] := by
  intro ticks
  induction ticks with
  | zero => intro s tr s1 e tr1 h; simp [pollLoop] at h
  | succ k ih =>
    intro s tr s1 e tr1 h
    rw [pollLoop] at h
    obtain ⟨extra, h1, h2, h3⟩ := pollTick_started m strategy orchestrationID s tr
    generalize pollTick m strategy orchestrationID s tr = r at h h1 h2
    obtain ⟨⟨s2, done, err⟩, tr2⟩ := r
    simp only at h1 h2
    subst h1
    cases err with
    | some err =>
      simp only [Option.some.injEq, Prod.mk.injEq] at h
      obtain ⟨⟨rfl, _⟩, rfl⟩ := h
      exact ⟨extra, rfl, h2, h3⟩
    | none =>
      cases done with
      | true =>
        simp only [Option.some.injEq, Prod.mk.injEq] at h
        obtain ⟨⟨rfl, _⟩, rfl⟩ := h
        exact ⟨extra, rfl, h2, h3⟩
      | false =>
        simp only at h
        obtain ⟨extra2, h4, h5, h6⟩ := ih s2 (tr ++ extra) s1 e tr1 h
        refine ⟨extra ++ extra2, by rw [h4, List.append_assoc], ?_, ?_⟩
        · rw [h5, h2, startedIDs_append, List.append_assoc]
        · rw [cancelledIDs_append, h3, h6]
          rfl

theorem sendNotificationCancel_trace (m : orchestrationManager) (o : Orchestration)
    (tr : Trace) :
    ∃ extra, (sendNotificationCancel m o tr).2 = tr ++ extra ∧ cancelledIDs extra = [] := by
  unfold sendNotificationCancel
  dsimp only
  split
  · split
    · exact ⟨[_], rfl, rfl⟩
    · split
      · exact ⟨[_, _], List.append_assoc _ _ _, rfl⟩
      · exact ⟨[_, _], List.append_assoc _ _ _, rfl⟩
  · exact ⟨[], (List.append_nil _).symm, rfl⟩

/-- For a Canceling orchestration whose operations were cancelled without error,
`resolveOrchestration` calls `strategy.Cancel` once for each of the execution ids it is
given, in their order, right after `CancelOperations`, and makes no other `strategy.Cancel`
call. -/
theorem resolveOrchestration_cancels (m : orchestrationManager) (o : Orchestration)
    (execIDs : List String) (stats : Stats) (tr : Trace)
    (hstate : o.State = Canceling)
    (hcancel : m.env.cancelOperations tr o.OrchestrationID = none) :
    ∃ rest, (resolveOrchestration m o execIDs stats tr).2 =
        tr ++ Call.cancelOperations o.OrchestrationID ::
          (execIDs.map Call.strategyCancel ++ rest) ∧
      cancelledIDs rest = [] := by
  unfold resolveOrchestration
  rw [if_pos hstate]
  dsimp only
  rw [hcancel]
  dsimp only
  split
  · obtain ⟨extra, h1, h2⟩ := sendNotificationCancel_trace m o
      (tr ++ [Call.cancelOperations o.OrchestrationID] ++ execIDs.map Call.strategyCancel ++
        [Call.disabledCheck])
    generalize sendNotificationCancel m o
      (tr ++ [Call.cancelOperations o.OrchestrationID] ++ execIDs.map Call.strategyCancel ++
        [Call.disabledCheck]) = r at h1 ⊢
    obtain ⟨⟨o1, e⟩, tr4⟩ := r
    simp only at h1
    subst h1
    refine ⟨Call.disabledCheck :: extra, ?_, ?_⟩
    · cases e with
      | none => simp
      | some err => dsimp only; split <;> simp
    · rw [cancelledIDs, h2]
      rfl
  · exact ⟨[Call.disabledCheck], by simp, rfl⟩

/-- C25: when the poll loop of `waitForCompletion` ends without error on a Canceling
orchestration, the list given to `resolveOrchestration` is the initial execution id
followed by the id of every batch that `strategy.Execute` started while polling (after a
failed `Insert`); when `CancelOperations` then succeeds, `strategy.Cancel` is called for
each id of that list after the `CancelOperations` call, and over the whole of
`waitForCompletion` the ids passed to `strategy.Cancel` are exactly that list. -/
theorem waitForCompletion_cancels_started (m : orchestrationManager) (o : Orchestration)
    (strategy : Strategy) (execID : String) (ticks : Nat) (tr : Trace) (s : PollState)
    (tr1 : Trace)
    (hpoll : pollLoop m strategy o.OrchestrationID ticks
      { o := o, canceled := false, stats := [], execIDs := [execID], execID := execID } tr =
      some ((s, none), tr1))
    (hstate : s.o.State = Canceling)
    (hcancel : m.env.cancelOperations tr1 s.o.OrchestrationID = none) :
    ∃ extra rest,
      tr1 = tr ++ extra ∧
      s.execIDs = execID :: startedIDs m strategy tr extra ∧
      waitForCompletion m o strategy execID ticks tr =
        some (resolveOrchestration m s.o s.execIDs s.stats tr1) ∧
      (resolveOrchestration m s.o s.execIDs s.stats tr1).2 =
        tr ++ (extra ++ Call.cancelOperations s.o.OrchestrationID ::
          (s.execIDs.map Call.strategyCancel ++ rest)) ∧
      cancelledIDs extra = [] ∧
      cancelledIDs rest = [] ∧
      cancelledIDs (extra ++ Call.cancelOperations s.o.OrchestrationID ::
          (s.execIDs.map Call.strategyCancel ++ rest)) =
        execID :: startedIDs m strategy tr extra := by
  obtain ⟨extra, h1, h2, h3⟩ := pollLoop_started m strategy o.OrchestrationID ticks _ tr s none
    tr1 hpoll
  obtain ⟨rest, h4, h5⟩ := resolveOrchestration_cancels m s.o s.execIDs s.stats tr1 hstate
    hcancel
  have h2b : s.execIDs = execID :: startedIDs m strategy tr extra := by
    rw [h2]
    rfl
  refine ⟨extra, rest, h1, h2b, ?_, ?_, h3, h5, ?_⟩
  · unfold waitForCompletion
    dsimp only
    rw [hpoll]
  · rw [h4, h1, List.append_assoc]
  · rw [cancelledIDs_append, h3, List.nil_append, cancelledIDs, cancelledIDs_append,
      cancelledIDs_map, h5, List.append_nil]
    exact h2b

/-- Witness for C25: a retry request seen while polling makes the strategy start `exec-2`;
the orchestration is Canceling when the poll loop ends. -/
theorem waitForCompletion_cancels_started_witness :
    secondBatchEnd.1.1.execIDs = ["exec-1", "exec-2"] ∧
    ∃ extra rest,
      secondBatchEnd.2 = [] ++ extra ∧
      secondBatchEnd.1.1.execIDs =
        "exec-1" :: startedIDs secondBatchManager (.parallel none) [] extra ∧
      waitForCompletion secondBatchManager (fixOrchestration InProgress) (.parallel none)
          "exec-1" 2 [] =
        some (resolveOrchestration secondBatchManager secondBatchEnd.1.1.o
          secondBatchEnd.1.1.execIDs secondBatchEnd.1.1.stats secondBatchEnd.2) ∧
      (resolveOrchestration secondBatchManager secondBatchEnd.1.1.o
          secondBatchEnd.1.1.execIDs secondBatchEnd.1.1.stats secondBatchEnd.2).2 =
        [] ++ (extra ++ Call.cancelOperations secondBatchEnd.1.1.o.OrchestrationID ::
          (secondBatchEnd.1.1.execIDs.map Call.strategyCancel ++ rest)) ∧
      cancelledIDs extra = [] ∧
      cancelledIDs rest = [] ∧
      cancelledIDs (extra ++ Call.cancelOperations secondBatchEnd.1.1.o.OrchestrationID ::
          (secondBatchEnd.1.1.execIDs.map Call.strategyCancel ++ rest)) =
        "exec-1" :: startedIDs secondBatchManager (.parallel none) [] extra :=
  ⟨by decide,
    waitForCompletion_cancels_started secondBatchManager (fixOrchestration InProgress)
      (.parallel none) "exec-1" 2 [] secondBatchEnd.1.1 secondBatchEnd.2 (by decide)
      (by decide) (by decide)⟩

/-- C22: with notifications enabled and the stored InProgress orchestration `o-1`, whose
notification state is not yet Created, a created event that cannot be sent for a
non-temporary reason does not end the pass: after `NewBundle` and
`CreateNotificationEvent` the next call is `strategy.Execute`, and the pass ends with
`(0, nil)`.  When the same send fails with a temporary error the pass ends after the send
with a delay of 5 seconds and no error, and the strategy is not called. -/
theorem execute_notification_failure :
    (sendFailingManager "permanent").env.disabledCheck [] = false ∧
    (fixOrchestration InProgress).Parameters.NotificationState ≠ NotificationCreated ∧
    (sendFailingManager "permanent").env.IsTemporaryError
      (.external "permanent" "cannot send") = false ∧
    (sendNotificationCreate (sendFailingManager "permanent") (fixOrchestration InProgress)
        [⟨fixRuntime "i-2", "op-2"⟩] []).1 =
      (setNotificationState (fixOrchestration InProgress) NotificationPending,
        some (.external "permanent" "cannot send")) ∧
    (Execute (sendFailingManager "permanent") "o-1" 1 []).1 = .returned 0 none ∧
    (Execute (sendFailingManager "permanent") "o-1" 1 []).2.take 8 =
      [Call.orchestrationGetByID "o-1",
        Call.configMapGet "kcp-system" "orchestration-config",
        Call.resumeOperations "o-1",
        Call.orchestrationUpdate (fixOrchestration InProgress),
        Call.disabledCheck,
        Call.newBundle "o-1" ⟨"o-1", "1", [⟨"i-2", "0", ""⟩]⟩,
        Call.createNotificationEvent ⟨"o-1", "1", [⟨"i-2", "0", ""⟩]⟩,
        Call.strategyExecute [⟨fixRuntime "i-2", "op-2"⟩] fixParameters.Strategy] ∧
    (Execute (sendFailingManager "permanent") "o-1" 1 []).2.any Call.isStrategyExecute =
      true ∧
    (sendFailingManager "temporary").env.IsTemporaryError
      (.external "temporary" "cannot send") = true ∧
    (Execute (sendFailingManager "temporary") "o-1" 1 []).2.any Call.isStrategyExecute =
      false ∧
    Execute (sendFailingManager "temporary") "o-1" 1 [] =
      (.returned (5 * Second) none,
        [Call.orchestrationGetByID "o-1",
          Call.configMapGet "kcp-system" "orchestration-config",
          Call.resumeOperations "o-1",
          Call.orchestrationUpdate (fixOrchestration InProgress),
          Call.disabledCheck,
          Call.newBundle "o-1" ⟨"o-1", "1", [⟨"i-2", "0", ""⟩]⟩,
          Call.createNotificationEvent ⟨"o-1", "1", [⟨"i-2", "0", ""⟩]⟩]) := by
  decide

theorem stringsContains_append_self : ∀ (a b : List Char), stringsContains (a ++ b) b = true := by
  intro a
  induction a with
  | nil =>
    intro b
    cases b with
    | nil => rfl
    | cons c cs =>
      rw [List.nil_append, stringsContains, Bool.or_eq_true]
      exact Or.inl (List.isPrefixOf_iff_prefix.mpr (List.prefix_refl _))
  | cons c a ih =>
    intro b
    rw [List.cons_append, stringsContains, Bool.or_eq_true]
    exact Or.inr (ih b)

theorem stringsContains_prefix (new rest : List Char) :
    stringsContains (new ++ rest) new = true := by
  cases h : new ++ rest with
  | nil =>
    rw [stringsContains]
    have : new = [] := (List.append_eq_nil.mp h).1
    rw [this]
    rfl
  | cons c cs =>
    rw [stringsContains, Bool.or_eq_true]
    refine Or.inl (List.isPrefixOf_iff_prefix.mpr ?_)
    rw [← h]
    exact List.prefix_append _ _

/-- Where the old text occurs, the text after replacing contains the new text. -/
theorem stringsReplace_contains (old new : List Char) (hold : old ≠ []) :
    ∀ (d : List Char), stringsContains d old = true →
      stringsContains (stringsReplace old new 0 d) new = true := by
  intro d
  induction d with
  | nil =>
    intro h
    rw [stringsContains] at h
    cases old with
    | nil => exact absurd rfl hold
    | cons c cs => cases h
  | cons c cs ih =>
    intro h
    rw [stringsReplace]
    by_cases hp : old.isPrefixOf (c :: cs) = true
    · rw [if_pos hp]
      exact stringsContains_prefix _ _
    · rw [if_neg hp]
      rw [stringsContains, Bool.or_eq_true] at h
      rcases h with h | h
      · exact absurd h hp
      · rw [stringsContains, Bool.or_eq_true]
        exact Or.inr (ih h)

/-- A text without the old text is left as it is. -/
theorem stringsReplace_not_contains (old new : List Char) :
    ∀ (d : List Char), stringsContains d old = false → stringsReplace old new 0 d = d := by
  intro d
  induction d with
  | nil => intro _; rfl
  | cons c cs ih =>
    intro h
    rw [stringsContains, Bool.or_eq_false_iff] at h
    rw [stringsReplace, if_neg (by rw [h.1]; decide), ih h.2]

theorem stringsReplace_skip (old new : List Char) :
    ∀ (xs q : List Char), stringsReplace old new xs.length (xs ++ q) =
      stringsReplace old new 0 q := by
  intro xs
  induction xs with
  | nil => intro q; rfl
  | cons c cs ih =>
    intro q
    rw [List.length_cons, List.cons_append, stringsReplace]
    · exact ih q

/-- The leftmost occurrence of the old text is replaced and the replacing goes on after
it. -/
theorem stringsReplace_first (init : List Char) (last : Char) (new : List Char) :
    ∀ (p q : List Char), stringsContains (p ++ init) (init ++ [last]) = false →
      stringsReplace (init ++ [last]) new 0 (p ++ (init ++ [last]) ++ q) =
        p ++ new ++ stringsReplace (init ++ [last]) new 0 q := by
  intro p
  induction p with
  | nil =>
    intro q _
    have hpre : (init ++ [last]).isPrefixOf (init ++ [last] ++ q) = true :=
      List.isPrefixOf_iff_prefix.mpr (List.prefix_append _ _)
    cases hi : init ++ [last] with
    | nil => simp at hi
    | cons c cs =>
      rw [hi] at hpre
      have hpre2 : (c :: cs).isPrefixOf (c :: (cs ++ q)) = true := hpre
      rw [List.nil_append, List.cons_append, stringsReplace, if_pos hpre2, List.length_cons,
        Nat.add_sub_cancel, stringsReplace_skip, List.nil_append]
  | cons c p ih =>
    intro q h
    rw [List.cons_append, stringsContains, Bool.or_eq_false_iff] at h
    have hnot : (init ++ [last]).isPrefixOf (c :: (p ++ (init ++ [last]) ++ q)) ≠ true := by
      intro hpre
      have h1 : init ++ [last] <+: (c :: (p ++ init)) ++ ([last] ++ q) := by
        have := List.isPrefixOf_iff_prefix.mp hpre
        simpa using this
      have h2 : init ++ [last] <+: c :: (p ++ init) :=
        List.prefix_of_prefix_length_le h1 (List.prefix_append _ _) (by simp)
      rw [List.isPrefixOf_iff_prefix.mpr h2] at h
      cases h.1
    rw [List.cons_append, List.cons_append, stringsReplace, if_neg hnot]
    rw [ih q h.2]
    rfl

/-- C29: `updateRetryingDescription desc newDesc` is `desc` followed by ", " and `newDesc`
when `desc` does not contain "retrying"; otherwise it is `desc` with the occurrences of
"retrying" replaced by `newDesc` from the left (the leftmost occurrence is replaced and the
replacing goes on after it; a text without an occurrence is left as it is, so nothing is
appended); in both cases the result contains `newDesc`. -/
theorem updateRetryingDescription_spec (desc newDesc : String) :
    (stringsContains desc.data "retrying".data = false →
      updateRetryingDescription desc newDesc = desc ++ ", " ++ newDesc) ∧
    (stringsContains desc.data "retrying".data = true →
      updateRetryingDescription desc newDesc =
        String.mk (stringsReplace "retrying".data newDesc.data 0 desc.data)) ∧
    (∀ p q, stringsContains (p ++ "retryin".data) "retrying".data = false →
      stringsReplace "retrying".data newDesc.data 0 (p ++ "retrying".data ++ q) =
        p ++ newDesc.data ++ stringsReplace "retrying".data newDesc.data 0 q) ∧
    (∀ d, stringsContains d "retrying".data = false →
      stringsReplace "retrying".data newDesc.data 0 d = d) ∧
    stringsContains (updateRetryingDescription desc newDesc).data newDesc.data = true := by
  refine ⟨?_, ?_, ?_, ?_, ?_⟩
  · intro h
    unfold updateRetryingDescription
    rw [if_neg (by rw [h]; decide)]
  · intro h
    unfold updateRetryingDescription
    rw [if_pos h]
  · intro p q h
    exact stringsReplace_first "retryin".data 'g' newDesc.data p q h
  · intro d h
    exact stringsReplace_not_contains _ _ d h
  · unfold updateRetryingDescription
    by_cases h : stringsContains desc.data "retrying".data = true
    · rw [if_pos h]
      exact stringsReplace_contains _ _ (by decide) _ h
    · rw [if_neg h, String.data_append]
      exact stringsContains_append_self _ _

/-- Witness for C29: a description without "retrying", and one with it. -/
theorem updateRetryingDescription_spec_witness :
    updateRetryingDescription "Scheduled 2 operations" "retried 1 operations" =
      "Scheduled 2 operations" ++ ", " ++ "retried 1 operations" ∧
    updateRetryingDescription "queued, retrying" "retried 1 operations" =
      "queued, retried 1 operations" :=
  ⟨(updateRetryingDescription_spec "Scheduled 2 operations" "retried 1 operations").1
    (by decide), by decide⟩

/-- The loop adds at most one id to the queue. -/
theorem cancelingLoop_at_most_one (env : Startup) (orchestrationType : String)
    (queue : List String) :
    ∀ (l : List Orchestration), ∃ added,
      (cancelingLoop env orchestrationType l queue).1 = queue ++ added ∧ added.length ≤ 1 := by
  intro l
  induction l with
  | nil => exact ⟨[], by simp [cancelingLoop], by simp⟩
  | cons o rest ih =>
    rw [cancelingLoop]
    split
    · exact ⟨[], by simp, by simp⟩
    · split
      · exact ⟨[o.OrchestrationID], rfl, by simp⟩
      · exact ih

/-- The loop passes over orchestrations whose listing returns no error and no operation in
progress. -/
theorem cancelingLoop_skip (env : Startup) (orchestrationType : String)
    (queue : List String) :
    ∀ (pre rest : List Orchestration),
      (∀ p ∈ pre, (inProgressCount env orchestrationType p).2 = none ∧
        (inProgressCount env orchestrationType p).1 ≤ 0) →
      cancelingLoop env orchestrationType (pre ++ rest) queue =
        cancelingLoop env orchestrationType rest queue := by
  intro pre
  induction pre with
  | nil => intro rest _; rfl
  | cons o pre ih =>
    intro rest h
    obtain ⟨h1, h2⟩ := h o (List.mem_cons_self _ _)
    rw [List.cons_append, cancelingLoop]
    generalize inProgressCount env orchestrationType o = c at h1 h2
    obtain ⟨count, e⟩ := c
    simp only at h1 h2
    subst h1
    simp only
    rw [if_neg (by omega)]
    exact ih rest (fun p hp => h p (List.mem_cons_of_mem _ hp))

/-- C28: `processCancelingOrchestrations` adds at most one id to the queue.  When the
listing of the Canceling orchestrations of the type fails, it adds nothing and returns the
error.  Otherwise it goes through the listed orchestrations as `sort.Slice` leaves them
(sorted by `CreatedAt`): the first one whose listing of InProgress operations returns a
count above 0, all before it having returned no error and no such operation, is added and
the call returns; no listed orchestration with a count above 0 was created before it; when
the listing of operations fails first, or no orchestration has a count above 0, nothing is
added. -/
theorem processCancelingOrchestrations_first (env : Startup) (orchestrationType : String)
    (queue : List String) :
    (∃ added, (processCancelingOrchestrations env orchestrationType queue).1 = queue ++ added ∧
      added.length ≤ 1) ∧
    (∀ err, env.List [orchestrationType] [Canceling] = .error err →
      (processCancelingOrchestrations env orchestrationType queue).1 = queue ∧
      (processCancelingOrchestrations env orchestrationType queue).2 ≠ none) ∧
    (∀ orchestrations pre o post,
      env.List [orchestrationType] [Canceling] = .ok orchestrations →
      env.sortSlice orchestrations = pre ++ o :: post →
      (∀ p ∈ pre, (inProgressCount env orchestrationType p).2 = none ∧
        (inProgressCount env orchestrationType p).1 ≤ 0) →
      ((inProgressCount env orchestrationType o).2 = none →
        (inProgressCount env orchestrationType o).1 > 0 →
        processCancelingOrchestrations env orchestrationType queue =
          (queue ++ [o.OrchestrationID], none) ∧
        ((env.sortSlice orchestrations).Perm orchestrations →
          (env.sortSlice orchestrations).Pairwise
            (fun a b => b.CreatedAt.Before a.CreatedAt = false) →
          o ∈ orchestrations ∧
          ∀ p ∈ orchestrations, (inProgressCount env orchestrationType p).1 > 0 →
            p.CreatedAt.Before o.CreatedAt = false)) ∧
      ((inProgressCount env orchestrationType o).2 ≠ none →
        (processCancelingOrchestrations env orchestrationType queue).1 = queue ∧
        (processCancelingOrchestrations env orchestrationType queue).2 ≠ none)) ∧
    (∀ orchestrations,
      env.List [orchestrationType] [Canceling] = .ok orchestrations →
      (∀ p ∈ env.sortSlice orchestrations,
        (inProgressCount env orchestrationType p).2 = none ∧
        (inProgressCount env orchestrationType p).1 ≤ 0) →
      processCancelingOrchestrations env orchestrationType queue = (queue, none)) := by
  refine ⟨?_, ?_, ?_, ?_⟩
  · unfold processCancelingOrchestrations
    split
    · exact ⟨[], by simp, by simp⟩
    · exact cancelingLoop_at_most_one env orchestrationType queue _
  · intro err h
    unfold processCancelingOrchestrations
    rw [h]
    exact ⟨rfl, by simp⟩
  · intro orchestrations pre o post hlist hsort hpre
    have hloop : processCancelingOrchestrations env orchestrationType queue =
        cancelingLoop env orchestrationType (o :: post) queue := by
      unfold processCancelingOrchestrations
      rw [hlist]
      dsimp only
      rw [hsort]
      exact cancelingLoop_skip env orchestrationType queue pre (o :: post) hpre
    rw [hloop, cancelingLoop]
    constructor
    · intro he hc
      constructor
      · generalize inProgressCount env orchestrationType o = c at he hc
        obtain ⟨count, e⟩ := c
        simp only at he hc
        subst he
        simp only
        rw [if_pos hc]
      · intro hperm hsorted
        have ho : o ∈ orchestrations := by
          apply hperm.subset
          rw [hsort]
          simp
        refine ⟨ho, ?_⟩
        intro p hp hpc
        have hp2 : p ∈ pre ++ o :: post := by
          rw [← hsort]
          exact hperm.symm.subset hp
        rw [hsort, List.pairwise_append] at hsorted
        rcases List.mem_append.mp hp2 with hin | hin
        · have := (hpre p hin).2
          omega
        · rcases List.mem_cons.mp hin with rfl | hin
          · simp [Time.Before]
          · exact (List.pairwise_cons.mp hsorted.2.1).1 p hin
    · intro he
      generalize inProgressCount env orchestrationType o = c at he
      obtain ⟨count, e⟩ := c
      cases e with
      | none => exact absurd rfl he
      | some err => exact ⟨rfl, by simp⟩
  · intro orchestrations hlist hall
    unfold processCancelingOrchestrations
    rw [hlist]
    dsimp only
    have := cancelingLoop_skip env orchestrationType queue (env.sortSlice orchestrations) [] hall
    rw [List.append_nil] at this
    rw [this]
    rfl

/-- Witness for C28: of three Canceling orchestrations the oldest has no operation in
progress, so the second oldest, `o-b`, is the one added. -/
theorem processCancelingOrchestrations_first_witness :
    processCancelingOrchestrations fixStartup UpgradeKymaOrchestration [] =
      ([] ++ [(cancelingCreatedAt "o-b" 20).OrchestrationID], none) ∧
    cancelingCreatedAt "o-b" 20 ∈
      [cancelingCreatedAt "o-b" 20, cancelingCreatedAt "o-a" 10,
        cancelingCreatedAt "o-c" 30] ∧
    ∀ p ∈ [cancelingCreatedAt "o-b" 20, cancelingCreatedAt "o-a" 10,
        cancelingCreatedAt "o-c" 30],
      (inProgressCount fixStartup UpgradeKymaOrchestration p).1 > 0 →
        p.CreatedAt.Before (cancelingCreatedAt "o-b" 20).CreatedAt = false :=
  have h := ((processCancelingOrchestrations_first fixStartup UpgradeKymaOrchestration
    []).2.2.1
    [cancelingCreatedAt "o-b" 20, cancelingCreatedAt "o-a" 10, cancelingCreatedAt "o-c" 30]
    [cancelingCreatedAt "o-a" 10] (cancelingCreatedAt "o-b" 20) [cancelingCreatedAt "o-c" 30]
    rfl (by decide) (by decide)).1 (by decide) (by decide)
  ⟨h.1, h.2 (by decide) (by decide)⟩

theorem StepsRan_runStep (m : Manager) (step : Step) (p : Progress) :
    StepsRan [step] p (m.runStep step p) := by
  unfold Manager.runStep
  by_cases hx : m.expired p.events.length = true
  · rw [if_pos hx]
    refine ⟨[], by simp, 0, by simp, rfl, by simp, ?_, by simp, by simp⟩
    intro h
    cases h
  · rw [if_neg hx]
    generalize step.Run p.operation = r
    obtain ⟨operation, when, err⟩ := r
    dsimp only
    cases err with
    | some er =>
      refine ⟨[⟨step.Name, operation, when, some er⟩], rfl, 1, by simp, rfl, by simp, ?_, ?_, ?_⟩
      · intro h; cases h
      · intro e he h1
        rw [List.mem_singleton.mp he] at h1
        cases h1
      · intro e he er2 h1
        rw [List.mem_singleton.mp he] at h1 ⊢
        cases h1
        exact ⟨rfl, rfl⟩
    | none =>
      dsimp only
      by_cases hw : when > 0
      · rw [if_pos hw]
        refine ⟨[⟨step.Name, operation, when, none⟩], rfl, 1, by simp, rfl, by simp, ?_, ?_, ?_⟩
        · intro h; cases h
        · intro e he _ _
          rw [List.mem_singleton.mp he]
          exact ⟨rfl, rfl⟩
        · intro e he er2 h1
          rw [List.mem_singleton.mp he] at h1
          cases h1
      · rw [if_neg hw]
        refine ⟨[⟨step.Name, operation, when, none⟩], rfl, 1, by simp, rfl, by simp, ?_, ?_, ?_⟩
        · intro _
          refine ⟨rfl, ?_⟩
          intro e he
          rw [List.mem_singleton.mp he]
          exact ⟨rfl, by simpa using hw⟩
        · intro e he _ h2
          rw [List.mem_singleton.mp he] at h2
          exact absurd h2 hw
        · intro e he er2 h1
          rw [List.mem_singleton.mp he] at h1
          cases h1

/-- A run that ended the call is also a run of a longer list of steps. -/
theorem StepsRan_ended (s1 s2 : List Step) (p0 : Progress) (p1 : Progress)
    (r : Duration × Option GoError) (h : StepsRan s1 p0 (p1, .error r)) :
    StepsRan (s1 ++ s2) p0 (p1, .error r) := by
  obtain ⟨new, h1, k, hk, hn, hd, _, hw, he⟩ := h
  refine ⟨new, h1, k, by rw [List.length_append]; omega, ?_, hd, ?_, hw, he⟩
  · rw [List.take_append_of_le_length hk]
    exact hn
  · intro h
    cases h

/-- A run that did not end the call, followed by a run of further steps. -/
theorem StepsRan_append (s1 s2 : List Step) (p0 p1 p2 : Progress)
    (out : Progress × Except (Duration × Option GoError) Unit)
    (h1 : StepsRan s1 p0 (p1, .ok ())) (hev : p2.events = p1.events)
    (h2 : StepsRan s2 p2 out) : StepsRan (s1 ++ s2) p0 out := by
  obtain ⟨new1, e1, k1, _, hn1, _, hok1, _, _⟩ := h1
  obtain ⟨hk1, hs1⟩ := hok1 rfl
  obtain ⟨new2, e2, k2, hk2, hn2, hd2, hok2, hw2, he2⟩ := h2
  subst hk1
  simp only at e1
  refine ⟨new1 ++ new2, by rw [e2, hev, e1, List.append_assoc], s1.length + k2,
    by rw [List.length_append]; omega, ?_, ?_, ?_, ?_, ?_⟩
  · rw [List.take_length] at hn1
    rw [List.take_append, List.map_append, List.map_append, hn2, hn1]
  · intro e he
    by_cases hnil : new2 = []
    · subst hnil
      rw [List.append_nil] at he
      exact hs1 e (List.mem_of_mem_dropLast he)
    · rw [List.dropLast_append_of_ne_nil _ hnil] at he
      rcases List.mem_append.mp he with he | he
      · exact hs1 e he
      · exact hd2 e he
  · intro hok
    obtain ⟨hk, hs2⟩ := hok2 hok
    refine ⟨by rw [hk, List.length_append], ?_⟩
    intro e he
    rcases List.mem_append.mp he with he | he
    · exact hs1 e he
    · exact hs2 e he
  · intro e he hn hw
    rcases List.mem_append.mp he with he | he
    · exact absurd hw (not_lt.mpr (hs1 e he).2)
    · exact hw2 e he hn hw
  · intro e he er hn
    rcases List.mem_append.mp he with he | he
    · rw [(hs1 e he).1] at hn
      cases hn
    · exact he2 e he er hn

theorem StepsRan_runSteps (m : Manager) :
    ∀ (steps : List Step) (p : Progress), StepsRan steps p (m.runSteps steps p) := by
  intro steps
  induction steps with
  | nil =>
    intro p
    refine ⟨[], by simp [Manager.runSteps], 0, by simp, rfl, by simp, ?_, by simp, by simp⟩
    intro _
    exact ⟨rfl, by simp⟩
  | cons step rest ih =>
    intro p
    rw [Manager.runSteps]
    have h1 := StepsRan_runStep m step p
    generalize m.runStep step p = out at h1
    obtain ⟨p1, r⟩ := out
    cases r with
    | error r => exact StepsRan_ended [step] rest p p1 r h1
    | ok u => exact StepsRan_append [step] rest p p1 p1 _ h1 rfl (ih p1)

theorem StepsRan_runStages (m : Manager) :
    ∀ (weights : List Int) (p : Progress),
      StepsRan (weights.flatMap m.stage) p (m.runStages weights p) := by
  intro weights
  induction weights with
  | nil =>
    intro p
    refine ⟨[], by simp [Manager.runStages], 0, by simp, rfl, by simp, ?_, by simp, by simp⟩
    intro _
    exact ⟨rfl, by simp⟩
  | cons w rest ih =>
    intro p
    rw [Manager.runStages, List.flatMap_cons]
    have h1 := StepsRan_runSteps m (m.stage w) p
    generalize m.runSteps (m.stage w) p = out at h1
    obtain ⟨p1, r⟩ := out
    cases r with
    | error r => exact StepsRan_ended _ _ p p1 r h1
    | ok u => exact StepsRan_append _ _ p p1 _ _ h1 rfl (ih _)

/-- A call of `Manager.Execute` on a loaded operation is a run of the pipeline of the
operation, and returns what the run leaves. -/
theorem StepsRan_Execute (m : Manager) (store : List StepOperation) (operationID : String)
    (operation : StepOperation)
    (hload : (store.find? fun op => op.ID == operationID) = some operation) :
    ∃ out, StepsRan (m.pipeline operation) ⟨operation, []⟩ out ∧
      (m.Execute store operationID).events = out.1.events ∧
      (∀ r, out.2 = .error r →
        (m.Execute store operationID).delay = r.1 ∧ (m.Execute store operationID).err = r.2 ∧
        (m.Execute store operationID).operation = some out.1.operation) ∧
      (out.2 = .ok () →
        (m.Execute store operationID).delay = 0 ∧ (m.Execute store operationID).err = none ∧
        (m.Execute store operationID).operation =
          some { out.1.operation with State := Succeeded }) := by
  unfold Manager.Execute
  rw [hload]
  dsimp only
  by_cases hterm : operation.State = Succeeded ∨ operation.State = Failed
  · rw [if_pos hterm]
    refine ⟨(⟨operation, []⟩, .error (0, none)), ?_, rfl, ?_, ?_⟩
    · refine ⟨[], rfl, 0, Nat.zero_le _, rfl, by simp, ?_, by simp, by simp⟩
      intro h
      cases h
    · intro r hr
      cases hr
      exact ⟨rfl, rfl, rfl⟩
    · intro h
      cases h
  · rw [if_neg hterm]
    have h1 := StepsRan_runSteps m m.initStep.toList ⟨operation, []⟩
    generalize m.runSteps m.initStep.toList ⟨operation, []⟩ = out1 at h1
    obtain ⟨p1, r1⟩ := out1
    cases r1 with
    | error r =>
      refine ⟨(p1, .error r), StepsRan_ended _ _ _ _ _ h1, rfl, ?_, ?_⟩
      · intro r2 hr
        cases hr
        exact ⟨rfl, rfl, rfl⟩
      · intro h
        cases h
    | ok u =>
      dsimp only
      have h2 := StepsRan_runStages m (m.stagesFor operation) p1
      have h3 := StepsRan_append _ _ _ _ _ _ h1 rfl h2
      generalize m.runStages (m.stagesFor operation) p1 = out2 at h3
      obtain ⟨p2, r2⟩ := out2
      cases r2 with
      | error r =>
        refine ⟨(p2, .error r), h3, rfl, ?_, ?_⟩
        · intro r2 hr
          cases hr
          exact ⟨rfl, rfl, rfl⟩
        · intro h
          cases h
      | ok u =>
        refine ⟨(p2, .ok ()), h3, rfl, ?_, ?_⟩
        · intro r2 hr
          cases hr
        · intro _
          exact ⟨rfl, rfl, rfl⟩

theorem Manager.mem_sortWeight (m : Manager) (w : Int) :
    w ∈ m.sortWeight ↔ w ∈ m.steps.map Prod.fst := by
  unfold Manager.sortWeight
  rw [(List.perm_insertionSort _ _).mem_iff, List.mem_dedup]

theorem Manager.sortWeight_sorted (m : Manager) :
    m.sortWeight.Sorted fun a b => a ≤ b := by
  unfold Manager.sortWeight
  exact List.sorted_insertionSort _ _

theorem Manager.sortWeight_nodup (m : Manager) : m.sortWeight.Nodup := by
  unfold Manager.sortWeight
  exact (List.perm_insertionSort _ _).nodup_iff.mpr (List.nodup_dedup _)

/-- The stages are run by strictly ascending weight. -/
theorem Manager.sortWeight_ascending (m : Manager) :
    m.sortWeight.Pairwise fun a b => a < b := by
  have hs := m.sortWeight_sorted
  have hn := m.sortWeight_nodup
  unfold List.Sorted at hs
  unfold List.Nodup at hn
  exact (hs.and hn).imp (fun h => lt_of_le_of_ne h.1 h.2)

theorem Manager.stage_ne_nil (m : Manager) (w : Int) :
    m.stage w ≠ [] ↔ w ∈ m.steps.map Prod.fst := by
  unfold Manager.stage
  constructor
  · intro h
    obtain ⟨s, hs⟩ := List.exists_mem_of_ne_nil _ h
    obtain ⟨ws, hws, _⟩ := List.mem_map.mp hs
    have h2 := List.mem_filter.mp hws
    exact List.mem_map.mpr ⟨ws, h2.1, by simpa using h2.2⟩
  · intro h
    obtain ⟨ws, hws, hw⟩ := List.mem_map.mp h
    apply List.ne_nil_of_mem (a := ws.2)
    exact List.mem_map.mpr ⟨ws, List.mem_filter.mpr ⟨hws, by simpa using hw⟩, rfl⟩

/-- The pipeline depends on the registrations only through the steps of each stage: the
order in which different stages were registered does not matter. -/
theorem Manager.pipeline_of_same_stages (m m2 : Manager) (operation : StepOperation)
    (hinit : m2.initStep = m.initStep) (hstage : ∀ w, m2.stage w = m.stage w) :
    m2.pipeline operation = m.pipeline operation := by
  have hsort : m2.sortWeight = m.sortWeight := by
    apply List.eq_of_perm_of_sorted _ m2.sortWeight_sorted m.sortWeight_sorted
    apply (List.perm_ext_iff_of_nodup m2.sortWeight_nodup m.sortWeight_nodup).mpr
    intro w
    rw [Manager.mem_sortWeight, Manager.mem_sortWeight, ← Manager.stage_ne_nil,
      ← Manager.stage_ne_nil, hstage w]
  have hfun : m2.stage = m.stage := funext hstage
  unfold Manager.pipeline Manager.stagesFor
  rw [hinit, hsort, hfun]

theorem mem_dropLast_of_mem_take (l : List StepProcessed) (n : Nat) (e : StepProcessed)
    (hn : n < l.length) (h : e ∈ l.take n) : e ∈ l.dropLast := by
  rw [List.dropLast_eq_take]
  have : l.take n = (l.take (l.length - 1)).take n := by
    rw [List.take_take, Nat.min_eq_left (by omega)]
  rw [this] at h
  exact List.mem_of_mem_take h

/-- C26: a call of the step manager's `Execute` on a loaded operation runs a beginning of
the pipeline of the operation, one event per step run, and every step run but the last has
returned success.  The pipeline is the init step followed by the steps of the stages still
to run, by strictly ascending weight, the steps of one stage in registration order (all
stages, for an operation that has completed none); it does not depend on the order in
which different stages were registered.  So when a step of a stage has run, every step of
the init step and of the earlier stages has run before it and returned success.  With the
steps init, final (weight 2), one and two (weight 1) of the test, which all succeed, the
steps run are init, one, two, final, four events are published, and the operation is left
Succeeded. -/
theorem Manager.Execute_order (m : Manager) (store : List StepOperation)
    (operationID : String) (operation : StepOperation)
    (hload : (store.find? fun op => op.ID == operationID) = some operation) :
    (∃ k, (m.Execute store operationID).events.map (fun e => e.StepName) =
      ((m.pipeline operation).take k).map fun s => s.Name) ∧
    (∀ e ∈ (m.Execute store operationID).events.dropLast, e.Error = none ∧ e.When ≤ 0) ∧
    m.pipeline operation = m.initStep.toList ++ (m.stagesFor operation).flatMap m.stage ∧
    (m.stagesFor operation).Pairwise (fun a b => a < b) ∧
    (operation.FinishedStages = [] → m.stagesFor operation = m.sortWeight) ∧
    (∀ w, w ∈ m.sortWeight ↔ w ∈ m.steps.map Prod.fst) ∧
    (∀ w, m.stage w = (m.steps.filter fun ws => decide (ws.1 = w)).map Prod.snd) ∧
    (∀ m2 : Manager, m2.initStep = m.initStep → (∀ w, m2.stage w = m.stage w) →
      m2.pipeline operation = m.pipeline operation) ∧
    (∀ pre w post, m.stagesFor operation = pre ++ w :: post →
      (m.initStep.toList ++ pre.flatMap m.stage).length <
        (m.Execute store operationID).events.length →
      ∀ e ∈ (m.Execute store operationID).events.take
          (m.initStep.toList ++ pre.flatMap m.stage).length,
        e.Error = none ∧ e.When ≤ 0) ∧
    (fixStepManager.Execute [fixDeprovisionOperation operationIDSuccess]
        operationIDSuccess).events.map (fun e => e.StepName) =
      ["init", "one", "two", "final"] ∧
    (fixStepManager.Execute [fixDeprovisionOperation operationIDSuccess]
        operationIDSuccess).events.length = 4 ∧
    (fixStepManager.Execute [fixDeprovisionOperation operationIDSuccess]
        operationIDSuccess).operation =
      some ⟨operationIDSuccess, Succeeded, " init one two final", [1, 2]⟩ ∧
    (fixStepManager.Execute [fixDeprovisionOperation operationIDSuccess]
        operationIDSuccess).delay = 0 ∧
    (fixStepManager.Execute [fixDeprovisionOperation operationIDSuccess]
        operationIDSuccess).err = none := by
  obtain ⟨out, ⟨new, hev, k, _, hnames, hdrop, _, _, _⟩, hevents, _, _⟩ :=
    StepsRan_Execute m store operationID operation hload
  rw [List.nil_append] at hev
  rw [hevents, hev]
  refine ⟨⟨k, hnames⟩, hdrop, rfl, ?_, ?_, m.mem_sortWeight, fun _ => rfl,
    fun m2 h1 h2 => Manager.pipeline_of_same_stages m m2 operation h1 h2, ?_,
    by decide, by decide, by decide, by decide, by decide⟩
  · exact List.Pairwise.sublist (List.dropWhile_suffix _).sublist m.sortWeight_ascending
  · intro h
    unfold Manager.stagesFor
    rw [h]
    cases m.sortWeight with
    | nil => rfl
    | cons a l => simp [List.dropWhile]
  · intro pre w post _ hlen e he
    exact hdrop e (mem_dropLast_of_mem_take new _ e hlen he)

/-- Witness for C26: the manager of the test and the operation that succeeds. -/
theorem Manager.Execute_order_witness :
    (∃ k, (fixStepManager.Execute [fixDeprovisionOperation operationIDSuccess]
        operationIDSuccess).events.map (fun e => e.StepName) =
      ((fixStepManager.pipeline (fixDeprovisionOperation operationIDSuccess)).take k).map
        fun s => s.Name) ∧
    (fixStepManager.pipeline (fixDeprovisionOperation operationIDSuccess)).map
      (fun s => s.Name) = ["init", "one", "two", "final"] ∧
    fixStepManagerAscending.pipeline (fixDeprovisionOperation operationIDSuccess) =
      fixStepManager.pipeline (fixDeprovisionOperation operationIDSuccess) :=
  ⟨(Manager.Execute_order fixStepManager [fixDeprovisionOperation operationIDSuccess]
      operationIDSuccess (fixDeprovisionOperation operationIDSuccess) rfl).1,
    by decide,
    (Manager.Execute_order fixStepManager [fixDeprovisionOperation operationIDSuccess]
      operationIDSuccess (fixDeprovisionOperation operationIDSuccess) rfl).2.2.2.2.2.2.2.1
      fixStepManagerAscending rfl (fun w => by
        unfold Manager.stage fixStepManagerAscending fixStepManager Manager.AddStep
          Manager.InitStep NewManager
        by_cases h1 : (1 : Int) = w
        · subst h1; rfl
        · by_cases h2 : (2 : Int) = w
          · subst h2; rfl
          · simp [List.filter, h1, h2])⟩

end KEB
